import Mathlib

/-!
# Verification development for the robot motion-control core (xzores/robocup)

Shallow embedding of the host-side code that talks to the Teensy board and
runs the control loops:

* `STeensy`  : checksum framing, outbound queue and receive loop (`src/src/steensy.cpp`, `src/steensy.h`)
* `UPID`     : the discrete PID / lead-lag controller (`src/src/upid.cpp`, `src/src/upid.h`)
* `CMixer`   : the differential-drive mixer (`src/cmixer.cpp`)
* `CMotor`   : the wheel-velocity controller with voltage limit (`src/src/cmotor.cpp`)
* `MPose`    : odometry from encoder ticks (`src/mpose.cpp`)

Conventions of the embedding

* A C string is the list of its `char` values before the terminating NUL,
  each value taken as the `int` it is promoted to (so the embedding does not
  fix whether `char` is signed).  `int` sums are unbounded integers: the
  checksum sum of a string of fewer than 2^23 characters cannot leave the
  range of a 32-bit `int`.
* `float` and `double` values are rationals (`ℚ`); the constant `M_PI`
  is the exact value of the `double` literal of `math.h`.  `cosf` and `sinf`
  are parameters of the odometry step.  The operations are exact wherever the
  property at hand does not depend on rounding; the mixer kinematics, the
  motor saturation and the heading fold are embedded with every operation
  rounded to `float` or `double` (`toFloat`, `toDouble`).
* A `UTime` is its `timeval` (seconds and microseconds); clock readings are
  inputs of each loop iteration.
-/

/-! ## Definitions -/

namespace STeensy

/-- C `isdigit` on a character value: the ten decimal digits 48..57. -/
def isdigit (c : Int) : Bool := decide (48 ≤ c) && decide (c ≤ 57)

/-- Decimal digits of a natural number as character values, most significant first. -/
def decDigits (n : Nat) : List Int := (Nat.toDigits 10 n).map (fun c => (c.toNat : Int))

/-- Text produced by the conversion `%02d`: a minus sign for a negative value,
then the decimal digits, zero padded to a total width of two. -/
def fmt02d (v : Int) : List Int :=
  if v < 0 then
    45 :: decDigits v.natAbs
  else
    let d := decDigits v.toNat
    if d.length < 2 then 48 :: d else d

/-- Result of `snprintf(crc, MCL, ";%02d", v)` with `MCL = 4`: at most three
characters are stored before the terminating NUL. -/
def snprintfCRC (v : Int) : List Int := (59 :: fmt02d v).take (4 - 1)

/-- The summing loop of `STeensy::generateCRC` (steensy.cpp 221-232), run over the
characters not yet visited with the sum so far; returns the final sum and `gotNewline`. -/
def generateCRCLoop : List Int → Int → Int × Bool
  | [], sum => (sum, false)
  | c :: rest, sum =>
    let sum1 := if c ≥ 32 then sum + c else sum
    if c = 10 then (sum1, true) else generateCRCLoop rest sum1

/-- Source function `STeensy::generateCRC` (steensy.cpp 212-235): the three characters written to
`crc`, and the returned `gotNewline`. -/
def generateCRC (cmd : List Int) : List Int × Bool :=
  let r := generateCRCLoop cmd 0
  (snprintfCRC (Int.tmod r.1 99 + 1), r.2)

/-- The summing loop of `STeensy::crcCheck` (steensy.cpp 565-570) over all
characters after the 3-character checksum field. -/
def crcCheckLoop : List Int → Int → Int
  | [], sum => sum
  | c :: rest, sum => crcCheckLoop rest (if c ≥ 32 then sum + c else sum)

/-- The two numbers `STeensy::crcCheck` compares (steensy.cpp 571-572): `q1`, the
checksum recomputed over the text after the field, and `q2`, the number the two
digits encode.  `none` when the line does not start with `;` and two digits. -/
def crcCheckQ : List Int → Option (Int × Int)
  | 59 :: d1 :: d2 :: rest =>
    if isdigit d1 && isdigit d2 then
      some (Int.tmod (crcCheckLoop rest 0) 99 + 1, (d1 - 48) * 10 + d2 - 48)
    else none
  | _ => none

/-- Source function `STeensy::crcCheck` (steensy.cpp 555-579), the returned `dataOK`: it is set
to true as soon as the line starts with `;` and two digits; the comparison of
`q1` with `q2` only decides whether a message is printed. -/
def crcCheck (msg : List Int) : Bool :=
  match crcCheckQ msg with
  | some _ => true
  | none => false

/-- Whether `STeensy::crcCheck` prints its "CRC check failed" message (steensy.cpp 573-574). -/
def crcCheckPrintsFailure (msg : List Int) : Bool :=
  match crcCheckQ msg with
  | some q => decide (q.1 ≠ q.2)
  | none => false

/-- The line `STeensy::sendDirect` writes for `message` (steensy.cpp 245-256): the
checksum field in front, and a newline appended unless `generateCRC` met one. -/
def sendDirectLine (message : List Int) : List Int :=
  let g := generateCRC message
  let cmd := g.1 ++ message
  if g.2 then cmd else cmd ++ [10]

/-- Sum of the character values that are at least a space (32). -/
def sumFromSpace (l : List Int) : Int := (l.filter (fun c => decide (c ≥ 32))).sum

/-- Sum of the character values that are greater than a space (32). -/
def sumAboveSpace (l : List Int) : Int := (l.filter (fun c => decide (c > 32))).sum

/-- The characters of a string up to and including its first newline. -/
def uptoNewline : List Int → List Int
  | [] => []
  | c :: rest => if c = 10 then [c] else c :: uptoNewline rest

/-- The character values of a text (used for concrete inputs). -/
def chars (s : String) : List Int := s.toList.map (fun c => (c.toNat : Int))

end STeensy

/-- The constant `M_PI` of `math.h`: the `double` nearest to pi,
`0x400921FB54442D18 = 884279719003555 / 2^48`. -/
def M_PI : ℚ := 884279719003555 / 281474976710656

/-- C `fabs` / `fabsf`. -/
def fabsf (x : ℚ) : ℚ := if x < 0 then -x else x

/-- C `copysignf(1.0, x)` on exact values: -1 for a negative `x`, otherwise 1. -/
def copysignOne (x : ℚ) : ℚ := if x < 0 then -1 else 1

/-- The angle fold used by `UPID::pid` (upid.cpp 97-100) and `MPose::run`
(mpose.cpp 172-179): one turn is subtracted above `M_PI`, one added below `-M_PI`. -/
def foldAngle (a : ℚ) : ℚ :=
  if a > M_PI then a - 2 * M_PI
  else if a < -M_PI then a + 2 * M_PI
  else a

/-- A `UTime`: the `timeval` it wraps and its `valid` flag (utime.h). -/
structure UTime where
  tv_sec : Int
  tv_usec : Int
  valid : Bool
deriving DecidableEq, Repr

namespace UTime

/-- Source function `UTime::clear` (utime.cpp 53-58), also the state after the default constructor. -/
def clear : UTime := { tv_sec := 0, tv_usec := 0, valid := false }

/-- Source function `UTime::getDecSec(UTime t1)` (utime.cpp 80-83), which is also `operator-`
(utime.h 184-185): the time of `t` compared to `t1` in decimal seconds. -/
def getDecSec (t t1 : UTime) : ℚ :=
  ((t.tv_sec - t1.tv_sec : Int) : ℚ) + ((t.tv_usec - t1.tv_usec : Int) : ℚ) * (1 / 1000000)

/-- Source function `UTime::getTimePassed` (utime.cpp 87-92) when the clock reads `now`. -/
def getTimePassed (t now : UTime) : ℚ := getDecSec now t

end UTime

/-! ### PID controller (`src/src/upid.cpp`, `src/src/upid.h`) -/

/-- The fields of a `UPID` object that `setup`, `pid` and `resetHistory` use. -/
structure UPID where
  kp : ℚ
  taui : ℚ
  taud : ℚ
  alpha : ℚ
  angleFolding : Bool
  limited : Bool
  r : ℚ
  m : ℚ
  sampleTime : ℚ
  ep1 : ℚ
  up1 : ℚ
  ui1 : ℚ
  le0 : ℚ
  le1 : ℚ
  lu1 : ℚ
  ie : ℚ
  u : ℚ
  useIntegrator : Bool
  useLead : Bool

namespace UPID

/-- A `UPID` object after construction (upid.h 73-101): the members with an
initialiser have its value; the members without one (`kp`, `taui`, `taud`,
`alpha`, `sampleTime`, `le0`, `le1`, `lu1`, `ie`) are indeterminate in the
source and are given as `junk`. -/
def constructed (junk : ℚ) : UPID :=
  { kp := junk, taui := junk, taud := junk, alpha := junk, angleFolding := false,
    limited := false, r := 0, m := 0, sampleTime := junk, ep1 := 0, up1 := 0, ui1 := 0,
    le0 := junk, le1 := junk, lu1 := junk, ie := junk, u := 0,
    useIntegrator := false, useLead := false }

/-- Source function `UPID::doAngleFolding` (upid.h 65-68). -/
def doAngleFolding (s : UPID) (doFolding : Bool) : UPID := { s with angleFolding := doFolding }

/-- Source function `UPID::setup` (upid.cpp 32-66). -/
def setup (s : UPID) (sTime proportional lead_tau lead_alpha tau_integrator : ℚ) : UPID :=
  let useIntegrator := decide (tau_integrator > 1 / 1000)
  let useLead := decide (lead_tau > 1 / 1000)
  let lu0 := sTime + 2 * lead_tau * lead_alpha
  { s with
    kp := proportional
    taud := lead_tau
    alpha := lead_alpha
    taui := tau_integrator
    useIntegrator := useIntegrator
    sampleTime := sTime
    useLead := useLead
    le0 := if useLead then (sTime + 2 * lead_tau) / lu0 else 1
    le1 := if useLead then (sTime - 2 * lead_tau) / lu0 else 0
    lu1 := if useLead then (sTime - 2 * lead_alpha * lead_tau) / lu0 else 0
    ie := if useIntegrator then sTime / (tau_integrator * 2) else 0 }

/-- Source function `UPID::pid` (upid.cpp 90-156): the returned control value and the object afterwards. -/
def pid (s : UPID) (reference measurement : ℚ) (limitingIsActive : Bool) : ℚ × UPID :=
  let e0 := reference - measurement
  let e := if s.angleFolding then foldAngle e0 else e0
  let ep0 := e * s.kp
  let up0 := s.le0 * ep0 + s.le1 * s.ep1 - s.lu1 * s.up1
  let ui0 :=
    if limitingIsActive || !s.useIntegrator then s.ui1
    else s.ie * up0 + s.ie * s.up1 + s.ui1
  let u := ui0 + up0
  (u, { s with u := u, ep1 := ep0, ui1 := ui0, up1 := up0,
               r := reference, m := measurement, limited := limitingIsActive })

/-- Source function `UPID::resetHistory` (upid.cpp 158-163). -/
def resetHistory (s : UPID) : UPID := { s with ep1 := 0, ui1 := 0, up1 := 0 }

end UPID

/-! ### Heading controller interface and mixer (`src/src/cheading.h`, `src/cmixer.cpp`, `src/cmixer.h`) -/

/-- The members of `CHeading` (cheading.h): the reference set by the mixer, the
controller output `u` read back by the mixer, and the control state. -/
structure CHeading where
  turnrateControl : Bool
  turnrateRef : ℚ
  headingRef : ℚ
  desiredHeading : ℚ
  u : ℚ
  limited : Bool
  maxTurnrate : ℚ
  pid : UPID
  poseUpdateCnt : Int
  lastPose : UTime

namespace CHeading

/-- Source function `CHeading::setRef` (cheading.cpp 103-108). -/
def setRef (s : CHeading) (useTurnrate : Bool) (turnrate absHeading : ℚ) : CHeading :=
  { s with turnrateControl := useTurnrate, turnrateRef := turnrate, headingRef := absHeading }

/-- Source function `CHeading::getTurnrate` (cheading.h 60). -/
def getTurnrate (s : CHeading) : ℚ := s.u

end CHeading

/-- The enumeration of `CMixer::headingMode` (cmixer.h 98). -/
inductive HeadingMode where
  | HM_TURNRATE
  | HM_ABS_HEADING
  | HM_EDGE
deriving DecidableEq, Repr

/-- The members of `CMixer` (cmixer.h 88-126), without the log file and its time stamp. -/
structure CMixer where
  updateCnt : Int
  desiredHeading : ℚ
  headingMode : HeadingMode
  linVel : ℚ
  manualOverride : Bool
  manualLinVel : ℚ
  manualTurnrateRef : ℚ
  autoLinVel : ℚ
  autoTurnrateRef : ℚ
  wheelbase : ℚ
  velDif : ℚ
  turnRadius : ℚ
  wheelVelRef0 : ℚ
  wheelVelRef1 : ℚ

namespace CMixer

/-- A `CMixer` object after construction (cmixer.h 88-126); the members without
an initialiser (`wheelbase`, `velDif`, `turnRadius`) are given. -/
def constructed (wheelbase velDif turnRadius : ℚ) : CMixer :=
  { updateCnt := 0, desiredHeading := 0, headingMode := HeadingMode.HM_TURNRATE, linVel := 0,
    manualOverride := false, manualLinVel := 0, manualTurnrateRef := 0,
    autoLinVel := 0, autoTurnrateRef := 0,
    wheelbase := wheelbase, velDif := velDif, turnRadius := turnRadius,
    wheelVelRef0 := 0, wheelVelRef1 := 0 }

/-- Source function `CMixer::updateWheelVelocity` (cmixer.cpp 150-179); `heading` is the global
heading controller whose output `getTurnrate()` is read.  The arithmetic is exact here;
`updateWheelVelocityFloat` is the same function with every operation rounded. -/
def updateWheelVelocity (s : CMixer) (heading : CHeading) : CMixer :=
  let velDif := s.wheelbase * heading.getTurnrate
  let v1 := s.linVel + velDif / 2
  let v0 := v1 - velDif
  let minTurnrate : ℚ := 1 / 1000
  let turnRadius :=
    if heading.getTurnrate > minTurnrate || heading.getTurnrate < -minTurnrate then
      s.linVel / heading.getTurnrate
    else if velDif > 0 then s.linVel / minTurnrate
    else s.linVel / -minTurnrate
  { s with velDif := velDif, turnRadius := turnRadius, wheelVelRef0 := v0, wheelVelRef1 := v1,
           updateCnt := s.updateCnt + 1 }

end CMixer

/-! ### Odometry (`src/mpose.cpp`, `src/mpose.h`, `src/src/sencoder.h`) -/

/-- The members of `SEncoder` that `MPose::run` reads (sencoder.h 62-64). -/
structure SEncoder where
  updateCnt : Int
  encTime : UTime
  enc0 : Int
  enc1 : Int

/-- The members of `MPose` (mpose.h 59-106) together with the local variables of
`MPose::run` that live across iterations (`loop`, `encLast`, `encTimeLast`). -/
structure MPose where
  gear : ℚ
  wheelDiameter : ℚ
  encTickPerRev : ℚ
  distPerTick : ℚ
  wheelBase : ℚ
  x : ℚ
  y : ℚ
  h : ℚ
  dist : ℚ
  turned : ℚ
  poseTime : UTime
  wheelVel0 : ℚ
  wheelVel1 : ℚ
  turnrate : ℚ
  turnRadius : ℚ
  robVel : ℚ
  updateCnt : Int
  encoderUpdateCnt : Int
  x2 : ℚ
  y2 : ℚ
  h2 : ℚ
  dist2 : ℚ
  turned2 : ℚ
  loop : Int
  encLast0 : Int
  encLast1 : Int
  encTimeLast0 : UTime
  encTimeLast1 : UTime

namespace MPose

/-- An `MPose` object after construction (mpose.h 59-106) at the entry of `run`
(mpose.cpp 100-105), where `encTimeLast` is set to the clock reading `now`. -/
def constructed (now : UTime) : MPose :=
  { gear := 10, wheelDiameter := 9 / 100, encTickPerRev := 64,
    distPerTick := ((9 / 100 : ℚ) * M_PI) / 10 / 64, wheelBase := 22 / 100,
    x := 0, y := 0, h := 0, dist := 0, turned := 0, poseTime := UTime.clear,
    wheelVel0 := 0, wheelVel1 := 0, turnrate := 0, turnRadius := 0, robVel := 0,
    updateCnt := 0, encoderUpdateCnt := 0,
    x2 := 0, y2 := 0, h2 := 0, dist2 := 0, turned2 := 0,
    loop := 0, encLast0 := 0, encLast1 := 0, encTimeLast0 := now, encTimeLast1 := now }

/-- The geometry part of `MPose::setup` (mpose.cpp 52-56); the four values are
the ones read from the configuration. -/
def setup (s : MPose) (gear wheelDiameter : ℚ) (encTickPerRev : Int) (wheelBase : ℚ) : MPose :=
  { s with
    gear := gear
    wheelDiameter := wheelDiameter
    encTickPerRev := (encTickPerRev : ℚ)
    wheelBase := wheelBase
    distPerTick := (wheelDiameter * M_PI) / gear / (encTickPerRev : ℚ) }

/-- What the body of the wheel loop (mpose.cpp 127-155) computes for one wheel. -/
structure WheelStep where
  dt : ℚ
  de : Int
  dd : ℚ
  encLast : Int
  encTimeLast : UTime
  wheelVel : ℚ

/-- One pass of the wheel loop (mpose.cpp 129-154) for a wheel with new count
`enc`, previous count `encLast` (already replaced by `enc` in the first two
updates), time of its last change `encTimeLast` and previous velocity `wheelVel`. -/
def wheelStep (distPerTick : ℚ) (t : UTime) (enc encLast : Int) (encTimeLast : UTime)
    (wheelVel : ℚ) : WheelStep :=
  let dt := UTime.getDecSec t encTimeLast
  let de0 := enc - encLast
  let de := if de0.natAbs > 1000 then 0 else de0
  let dd := (de : ℚ) * distPerTick
  if enc ≠ encLast then
    { dt := dt, de := de, dd := dd, encLast := enc, encTimeLast := t, wheelVel := dd / dt }
  else
    { dt := dt, de := de, dd := dd, encLast := encLast, encTimeLast := encTimeLast,
      wheelVel := copysignOne wheelVel * distPerTick / dt }

/-- The value of `encLast[i]` used by an update (mpose.cpp 119-123): the new count
itself during the first two updates. -/
def encLastUsed (loop enc encLast : Int) : Int := if loop < 2 then enc else encLast

/-- The distance `dd[0]` of the left wheel computed by an update. -/
def dd0 (s : MPose) (encoder : SEncoder) : ℚ :=
  (wheelStep s.distPerTick encoder.encTime encoder.enc0
    (encLastUsed s.loop encoder.enc0 s.encLast0) s.encTimeLast0 s.wheelVel0).dd

/-- The distance `dd[1]` of the right wheel computed by an update. -/
def dd1 (s : MPose) (encoder : SEncoder) : ℚ :=
  (wheelStep s.distPerTick encoder.encTime encoder.enc1
    (encLastUsed s.loop encoder.enc1 s.encLast1) s.encTimeLast1 s.wheelVel1).dd

/-- One iteration of the loop of `MPose::run` (mpose.cpp 109-206) with the
encoder state `encoder`; `cosf` and `sinf` are the library functions.  The
arithmetic is exact here; `headingFloat` is the update of the heading with
every operation rounded. -/
def runStep (cosf sinf : ℚ → ℚ) (s : MPose) (encoder : SEncoder) : MPose :=
  if encoder.updateCnt ≠ s.encoderUpdateCnt then
    let t := encoder.encTime
    let w0 := wheelStep s.distPerTick t encoder.enc0
      (encLastUsed s.loop encoder.enc0 s.encLast0) s.encTimeLast0 s.wheelVel0
    let w1 := wheelStep s.distPerTick t encoder.enc1
      (encLastUsed s.loop encoder.enc1 s.encLast1) s.encTimeLast1 s.wheelVel1
    let dtt0 : ℚ := if w0.dt < 1 then w0.dt else 1
    let dtt : ℚ := if w1.dt < dtt0 then w1.dt else dtt0
    let dh := (w1.dd - w0.dd) / s.wheelBase
    let ds := (w0.dd + w1.dd) / 2
    let hMid := s.h + dh / 2
    let h2Mid := s.h2 + dh / 2
    let x := s.x + cosf hMid * ds
    let y := s.y + sinf hMid * ds
    let x2 := s.x2 + cosf h2Mid * ds
    let y2 := s.y2 + sinf h2Mid * ds
    let h := foldAngle (hMid + dh / 2)
    let h2 := foldAngle (h2Mid + dh / 2)
    let turnrate := dh / dtt
    let robVel := ds / dtt
    let minTurnrate : ℚ := 1 / 1000
    let turnRadius :=
      if fabsf turnrate > minTurnrate then robVel / turnrate
      else robVel / minTurnrate * copysignOne turnrate
    { s with
      encoderUpdateCnt := encoder.updateCnt
      encLast0 := w0.encLast
      encLast1 := w1.encLast
      encTimeLast0 := w0.encTimeLast
      encTimeLast1 := w1.encTimeLast
      wheelVel0 := w0.wheelVel
      wheelVel1 := w1.wheelVel
      x := x, y := y, h := h
      x2 := x2, y2 := y2, h2 := h2
      dist := s.dist + ds
      dist2 := s.dist2 + ds
      turned := s.turned + dh
      turned2 := s.turned2 + dh
      turnrate := turnrate
      robVel := robVel
      turnRadius := turnRadius
      poseTime := t
      updateCnt := s.updateCnt + 1
      loop := s.loop + 1 }
  else s

end MPose

namespace MPose

/-- An odometry state at pose (0, 0, 0) in which two updates have already been
handled and both wheels last changed at time 0. -/
def scenarioStart : MPose := { constructed ⟨0, 0, true⟩ with loop := 2 }

/-- The odometry state of the end-to-end scenario: `scenarioStart` with the
geometry set up with gear 19, wheel diameter 0.146 m, 64 ticks per revolution
and wheel base 0.243 m. -/
def scenarioState : MPose := setup scenarioStart 19 (146 / 1000) 64 (243 / 1000)

/-- The encoder sample of the end-to-end scenario: 100 new ticks on both wheels, 0.1 s later. -/
def scenarioEncoder : SEncoder :=
  { updateCnt := 1, encTime := ⟨0, 100000, true⟩, enc0 := 100, enc1 := 100 }

end MPose

/-! ### Motor controller (`src/src/cmotor.cpp`, `src/src/cmotor.h`) -/

/-- The members of `CMotor` that `CMotor::run` uses (cmotor.h 56-98) together with
its local variable `lastPose`, which lives across iterations. -/
structure CMotor where
  maxMotV : ℚ
  limited : Bool
  pid0 : UPID
  pid1 : UPID
  u0 : ℚ
  u1 : ℚ
  poseUpdateCnt : Int
  lastPose : UTime

namespace CMotor

/-- The raw output `pid[0].pid(vr[0], pose.wheelVel[0], limited)` of a control step
(cmotor.cpp 150). -/
def raw0 (s : CMotor) (pose : MPose) (mixer : CMixer) : ℚ :=
  (s.pid0.pid mixer.wheelVelRef0 pose.wheelVel0 s.limited).1

/-- The raw output `pid[1].pid(vr[1], pose.wheelVel[1], limited)` of a control step
(cmotor.cpp 151). -/
def raw1 (s : CMotor) (pose : MPose) (mixer : CMixer) : ℚ :=
  (s.pid1.pid mixer.wheelVelRef1 pose.wheelVel1 s.limited).1

/-- The time difference `lastPose - pose.poseTime` of a step (cmotor.cpp 145). -/
def stepDt (s : CMotor) (pose : MPose) : ℚ := UTime.getDecSec s.lastPose pose.poseTime

/-- One iteration of the loop of `CMotor::run` (cmotor.cpp 122-188) with the
odometry state `pose` and the mixer state `mixer`; the branch under `if (false)`
is never taken.  The voltages sent to the Teensy are `u0` and `u1` of the result.
The arithmetic is exact here; `limitFloat` is the output limiting with every
operation rounded. -/
def runStep (s : CMotor) (pose : MPose) (mixer : CMixer) : CMotor :=
  if pose.updateCnt ≠ s.poseUpdateCnt then
    let dt := UTime.getDecSec s.lastPose pose.poseTime
    let s1 : CMotor :=
      if dt < 1 then
        let r0 := s.pid0.pid mixer.wheelVelRef0 pose.wheelVel0 s.limited
        let r1 := s.pid1.pid mixer.wheelVelRef1 pose.wheelVel1 s.limited
        if fabsf r0.1 > s.maxMotV || fabsf r1.1 > s.maxMotV then
          let fac := if fabsf r0.1 > fabsf r1.1 then s.maxMotV / fabsf r0.1
                     else s.maxMotV / fabsf r1.1
          { s with pid0 := r0.2, pid1 := r1.2, limited := true,
                   u0 := r0.1 * fac, u1 := r1.1 * fac }
        else
          { s with pid0 := r0.2, pid1 := r1.2, limited := false, u0 := r0.1, u1 := r1.1 }
      else s
    { s1 with poseUpdateCnt := pose.updateCnt, lastPose := pose.poseTime }
  else s

/-- A motor controller as `CMotor::setup` leaves it with the default
configuration (kp 7, no lead, integrator 0.05 s, limit 10 V) and a sample time of 10 ms. -/
def sampleMotor : CMotor :=
  { maxMotV := 10, limited := false,
    pid0 := UPID.setup (UPID.constructed 0) (1 / 100) 7 0 1 (1 / 20),
    pid1 := UPID.setup (UPID.constructed 0) (1 / 100) 7 0 1 (1 / 20),
    u0 := 0, u1 := 0, poseUpdateCnt := 0, lastPose := UTime.clear }

/-- A pose sample with both wheels at rest, published at time 10 s. -/
def samplePose : MPose :=
  { MPose.scenarioState with updateCnt := 1, poseTime := ⟨10, 0, true⟩ }

/-- Mixer references of 1 m/s (left) and 2 m/s (right). -/
def sampleMixer : CMixer :=
  { CMixer.constructed (22 / 100) 0 0 with wheelVelRef0 := 1, wheelVelRef1 := 2 }

end CMotor

/-! ### Device link: connection, receive loop and outbound queue
(`src/src/steensy.cpp`, `src/steensy.h`) -/

/-- An entry of the outbound queue (steensy.h 39-69); `msg` is the text stored in
the character array. -/
structure UOutQueue where
  msg : List Int
  len : Int
  isSend : Bool
  queuedAt : UTime
  sendAt : UTime
  resendCnt : Int

namespace UOutQueue

/-- Source function `UOutQueue::compare` (steensy.h 63-68): `strncmp(&msg[3], got, strlen(got) - 1) == 0`;
for an empty `got` the count -1 becomes the largest `size_t` and the whole
strings are compared. -/
def compare (e : UOutQueue) (got : List Int) : Bool :=
  let n : Int := (got.length : Int) - 1
  if n < 0 then decide (e.msg.drop 3 = got)
  else decide ((e.msg.drop 3).take n.toNat = got.take n.toNat)

end UOutQueue

/-- The members of `STeensy` (steensy.h 81-235) used by the receive thread, the
local variables of `STeensy::run` that live across iterations (`ntpUpdate`,
`tit[9]`, `readIdleLoops`), and two records of what leaves the object:
`txLog`, the buffers handed to `write(usbport, ...)` in order, and `decoded`,
the texts handed to `decode`.  `rx` holds the `rxCnt` characters of the line
being assembled. -/
structure STeensy where
  teensyConnectionOpen : Bool
  usbport : Int
  rx : List Int
  justConnected : Bool
  confirmSend : Bool
  gotActivityRecently : Bool
  justConnectedTime : UTime
  lastRxTime : UTime
  lastTxTime : UTime
  gotCnt : Int
  sendCnt : Int
  connectErrCnt : Int
  stopUSB : Bool
  outQueue : List UOutQueue
  confirmTimeout : ℚ
  confirmMismatchCnt : Int
  confirmRetryCnt : Int
  confirmRetryCntMax : Int
  confirmRetryDump : Int
  ntpUpdate : Bool
  tit9 : UTime
  readIdleLoops : Int
  txLog : List (List Int)
  decoded : List (List Int)

namespace STeensy

/-- What `read(usbport, &rx[rxCnt], 1)` delivers (steensy.cpp 411-424): one
character, nothing (a return of 0, or -1 with `EAGAIN`), or another error. -/
inductive ReadResult where
  | byte (c : Int)
  | noData
  | error

/-- How the write loop of `sendDirect` (steensy.cpp 267-292) ends: the number of
bytes the device has taken, and whether a write failed with an error other
than `EAGAIN` before all bytes were taken. -/
structure WriteOutcome where
  delivered : Nat
  lost : Bool

/-- What the environment supplies to one iteration of the receive loop: the
clock reading, the value `open` would return, the result of `read`, the byte
stored in front of `rx` (read by the test at steensy.cpp 442 while `rxCnt` is 0),
and the outcomes of the first and second `sendDirect` of the iteration. -/
structure Env where
  now : UTime
  openResult : Int
  readResult : ReadResult
  rxMinus1 : Int
  send1 : WriteOutcome
  send2 : WriteOutcome

/-- The `STeensy` object with the initial member values of steensy.h 81-235 at the
entry of the loop of `run` (steensy.cpp 348-360) when the clock reads `now`
(`setup` replaces `confirmTimeout` by the configured value). -/
def atRunEntry (now : UTime) : STeensy :=
  { teensyConnectionOpen := false, usbport := -1, rx := [], justConnected := false,
    confirmSend := false, gotActivityRecently := true,
    justConnectedTime := UTime.clear, lastRxTime := UTime.clear, lastTxTime := UTime.clear,
    gotCnt := 0, sendCnt := 0, connectErrCnt := 0, stopUSB := false, outQueue := [],
    confirmTimeout := 3 / 100, confirmMismatchCnt := 0, confirmRetryCnt := 0,
    confirmRetryCntMax := 50, confirmRetryDump := 0,
    ntpUpdate := false, tit9 := now, readIdleLoops := 0, txLog := [], decoded := [] }

/-- Source function `STeensy::closeUSB` (steensy.cpp 321-340). -/
def closeUSB (s : STeensy) : STeensy :=
  if s.teensyConnectionOpen then
    { s with teensyConnectionOpen := false, usbport := -1, justConnected := false,
             confirmSend := false, outQueue := [] }
  else s

/-- Source function `STeensy::sendDirect` (steensy.cpp 237-317) when the clock reads `now` and the
write loop ends as `w` says; returns the object afterwards and `sendOK`. -/
def sendDirect (s : STeensy) (now : UTime) (w : WriteOutcome) (message : List Int) :
    STeensy × Bool :=
  if s.teensyConnectionOpen && decide (message.head? ≠ some 35) then
    let cmd := sendDirectLine message
    let n := cmd.length
    let d := min w.delivered n
    let lostConnection := w.lost && decide (d < n)
    let s1 := { s with sendCnt := s.sendCnt + 1, txLog := s.txLog ++ [cmd] }
    if lostConnection then (closeUSB s1, decide (d = n))
    else ({ s1 with lastTxTime := now }, decide (d = n))
  else (s, false)

/-- Source function `STeensy::openToTeensy` (steensy.cpp 614-677). -/
def openToTeensy (env : Env) (s : STeensy) : STeensy :=
  if s.usbport ≠ -1 then s
  else if env.openResult = -1 then
    { s with usbport := -1, connectErrCnt := s.connectErrCnt + 1, teensyConnectionOpen := false }
  else
    let s1 := { s with usbport := env.openResult, connectErrCnt := 0,
                       teensyConnectionOpen := true, justConnected := true,
                       justConnectedTime := env.now }
    let s2 := (sendDirect s1 env.now env.send1 (chars "hbti\n")).1
    let s3 := (sendDirect s2 env.now env.send2 (chars "sub hbt 50\n")).1
    { s3 with gotActivityRecently := true, lastRxTime := env.now }

/-- Source function `STeensy::messageConfirmed` (steensy.cpp 582-608) for the received line `confirm`. -/
def messageConfirmed (s : STeensy) (confirm : List Int) : STeensy :=
  match s.outQueue with
  | [] => s
  | e :: rest =>
    if e.isSend then
      if e.compare (confirm.drop 11) then { s with outQueue := rest }
      else { s with confirmMismatchCnt := s.confirmMismatchCnt + 1 }
    else s

/-- The text of a character array as a C string: the characters before the first NUL. -/
def cstr (l : List Int) : List Int := l.takeWhile (fun c => decide (c ≠ 0))

/-- The receive buffer after the character `c` has been stored and counted
(steensy.cpp 411, 432-440): appended to a line under assembly, or starting a
line when it is `;`, or not counted. -/
def rxAppend (s : STeensy) (c : Int) : List Int :=
  if s.rx ≠ [] then s.rx ++ [c] else if c = 59 then [c] else []

/-- The test `rx[rxCnt-1] == '\n'` (steensy.cpp 442) after the character `c`. -/
def lineComplete (env : Env) (s : STeensy) (c : Int) : Bool :=
  let lastChar : Int := match (rxAppend s c).getLast? with
    | some l => l
    | none => env.rxMinus1
  decide (lastChar = 10)

/-- The test `strncmp(okMsg, "confirm", 7) == 0` on the text after the
checksum field of `line` (steensy.cpp 452-454). -/
def isConfirm (line : List Int) : Bool := decide ((line.drop 3).take 7 = chars "confirm")

/-- The handling of one received character `c` (steensy.cpp 428-476); lines are
taken to be shorter than the buffer (`MAX_RX_CNT` = 1000 characters). -/
def receiveChar (env : Env) (s : STeensy) (c : Int) : STeensy :=
  if lineComplete env s c then
    let line := cstr (rxAppend s c)
    let s1 : STeensy :=
      if crcCheck line then
        if isConfirm line then messageConfirmed { s with confirmSend := true } line
        else { s with decoded := s.decoded ++ [line.drop 3] }
      else s
    { s1 with gotActivityRecently := true, lastRxTime := env.now, rx := [],
              gotCnt := s1.gotCnt + 1 }
  else { s with rx := rxAppend s c }

/-- The play-out of the outbound queue at the end of a connected iteration
(steensy.cpp 492-539) when the clock reads `now`. -/
def runQueue (now : UTime) (s : STeensy) : STeensy :=
  match s.outQueue with
  | [] => s
  | e :: rest =>
    if !e.isSend then
      if s.teensyConnectionOpen then
        { s with
          outQueue := { e with sendAt := now, isSend := true, resendCnt := e.resendCnt + 1 } :: rest
          txLog := s.txLog ++ [e.msg.take e.len.toNat] }
      else s
    else
      let dt := UTime.getTimePassed e.sendAt now
      if dt > s.confirmTimeout then
        if e.resendCnt < s.confirmRetryCntMax then
          { s with outQueue := { e with isSend := false } :: rest,
                   confirmRetryCnt := s.confirmRetryCnt + 1 }
        else
          { s with outQueue := rest, confirmRetryDump := s.confirmRetryDump + 1 }
      else s

/-- The start of the branch "we are connected" (steensy.cpp 394-403): while no name
has been received the identification request is sent again. -/
def identifyPart (env : Env) (s : STeensy) : STeensy :=
  if s.justConnected then
    let a := (sendDirect s env.now env.send1 (chars "hbti\n")).1
    let b := (sendDirect a env.now env.send2 (chars "leave\n")).1
    { b with justConnected := false }
  else s

/-- The activity test of a connected iteration (steensy.cpp 404-407). -/
def activityPart (env : Env) (s : STeensy) : STeensy :=
  if s.gotActivityRecently && decide (UTime.getTimePassed s.lastRxTime env.now > 2) then
    { s with gotActivityRecently := false }
  else s

/-- The read of one character and its handling (steensy.cpp 408-491). -/
def readPart (env : Env) (s : STeensy) : STeensy :=
  match env.readResult with
  | ReadResult.error => closeUSB s
  | ReadResult.noData => { s with readIdleLoops := s.readIdleLoops + 1 }
  | ReadResult.byte c => receiveChar env s c

/-- The branch "we are connected" of an iteration (steensy.cpp 391-540). -/
def connected (env : Env) (s : STeensy) : STeensy :=
  runQueue env.now (readPart env (activityPart env (identifyPart env s)))

/-- The condition under which an iteration closes the connection (steensy.cpp 363-373). -/
def closeCondition (env : Env) (s : STeensy) : Bool :=
  !s.ntpUpdate &&
    ((s.teensyConnectionOpen && !s.gotActivityRecently &&
        decide (UTime.getTimePassed s.lastRxTime env.now > 10))
     || (s.justConnected && decide (UTime.getTimePassed s.justConnectedTime env.now > 20)))

/-- One iteration of the loop of `STeensy::run` (steensy.cpp 361-551); all clock
readings of the iteration are `env.now`. -/
def runIter (env : Env) (s : STeensy) : STeensy :=
  let s1 : STeensy :=
    if closeCondition env s then closeUSB s
    else if !s.teensyConnectionOpen then openToTeensy env s
    else connected env s
  { s1 with ntpUpdate := decide (UTime.getTimePassed s.tit9 env.now > 2), tit9 := env.now }

/-- The iterations of the receive loop for a sequence of environments. -/
def runIters : List Env → STeensy → STeensy
  | [], s => s
  | env :: rest, s => runIters rest (runIter env s)

/-- The states `a` and `b` agree on everything the play-out of the queue reads or writes. -/
def AgreeOnQueue (a b : STeensy) : Prop :=
  a.teensyConnectionOpen = b.teensyConnectionOpen ∧ a.justConnected = b.justConnected ∧
  a.confirmTimeout = b.confirmTimeout ∧ a.confirmRetryCntMax = b.confirmRetryCntMax ∧
  a.outQueue = b.outQueue ∧ a.txLog = b.txLog ∧
  a.confirmRetryDump = b.confirmRetryDump ∧ a.confirmRetryCnt = b.confirmRetryCnt

/-- The queue entry that `sendToQueue` builds for `sub enc 8`: the text from the
`!` marker on with the checksum field of `generateCRC` in front, not yet sent. -/
def queuedEntry : UOutQueue :=
  { msg := (generateCRC (chars "!sub enc 8\n")).1 ++ chars "!sub enc 8\n"
    len := 14
    isSend := false
    queuedAt := ⟨0, 0, true⟩
    sendAt := UTime.clear
    resendCnt := 0 }

/-- A state with the link open and identified, the last line received at time 0
and `queuedEntry` alone in the outbound queue; the counters and the retry
budget (50) are those of a new `STeensy` object. -/
def queueStart : STeensy :=
  { atRunEntry ⟨0, 0, true⟩ with
    teensyConnectionOpen := true, usbport := 3, lastRxTime := ⟨0, 0, true⟩,
    outQueue := [queuedEntry] }

/-- An environment in which nothing is received, with the clock at `usec` microseconds. -/
def quietEnv (usec : Nat) : Env :=
  { now := ⟨0, (usec : Int), true⟩, openResult := -1, readResult := ReadResult.noData,
    rxMinus1 := 0, send1 := ⟨0, false⟩, send2 := ⟨0, false⟩ }

/-- A schedule of `n` quiet iterations, 50 ms apart, the first one at 50 ms. -/
def quietSchedule (n : Nat) : List Env :=
  (List.range n).map (fun i => quietEnv (50000 * (i + 1)))

/-- A state with the link open, no activity flagged, the last line received at
time 0 and three commands queued. -/
def idleLink : STeensy :=
  { queueStart with gotActivityRecently := false,
                    outQueue := [queuedEntry, queuedEntry, queuedEntry] }

end STeensy

/-- A value `x` lies within 1 % of the positive nominal value `a`. -/
def withinOnePercent (x a : ℚ) : Prop := a * 99 / 100 ≤ x ∧ x ≤ a * 101 / 100

/-! ### Angle wrap of the PID error (`src/src/upid.cpp` 94-102) -/

namespace UPID

/-- The error `e` that `UPID::pid` multiplies by `kp` (upid.cpp 94-102): the
difference of reference and measurement, folded when angle folding is on. -/
def pidError (s : UPID) (reference measurement : ℚ) : ℚ :=
  if s.angleFolding then foldAngle (reference - measurement) else reference - measurement

end UPID

/-! ### Mixer inputs (`src/cmixer.cpp` 85-148) and pose reset (`src/mpose.cpp` 214-222) -/

namespace CMixer

/-- Source function `CMixer::updateVelocities` (cmixer.cpp 130-148) on the mixer and the global
heading controller. -/
def updateVelocities (s : CMixer) (heading : CHeading) : CMixer × CHeading :=
  let s1 : CMixer :=
    if s.manualOverride then { s with linVel := s.manualLinVel }
    else { s with linVel := s.autoLinVel }
  let h1 : CHeading :=
    if s.manualOverride then heading.setRef true s.manualTurnrateRef s.desiredHeading
    else heading.setRef (decide (s.headingMode ≠ HeadingMode.HM_ABS_HEADING))
      s.autoTurnrateRef s.desiredHeading
  (updateWheelVelocity s1 h1, h1)

/-- Source function `CMixer::setDesiredHeading` (cmixer.cpp 85-90). -/
def setDesiredHeading (s : CMixer) (heading : CHeading) (h : ℚ) : CMixer × CHeading :=
  updateVelocities { s with desiredHeading := h, headingMode := HeadingMode.HM_ABS_HEADING } heading

/-- Source function `CMixer::setVelocity` (cmixer.cpp 92-96). -/
def setVelocity (s : CMixer) (heading : CHeading) (linearVelocity : ℚ) : CMixer × CHeading :=
  updateVelocities { s with autoLinVel := linearVelocity } heading

/-- Source function `CMixer::setTurnrate` (cmixer.cpp 98-103). -/
def setTurnrate (s : CMixer) (heading : CHeading) (turnVelocity : ℚ) : CMixer × CHeading :=
  updateVelocities
    { s with autoTurnrateRef := turnVelocity, headingMode := HeadingMode.HM_TURNRATE } heading

/-- Source function `CMixer::setInModeTurnrate` (cmixer.cpp 105-109). -/
def setInModeTurnrate (s : CMixer) (heading : CHeading) (turnVelocity : ℚ) :
    CMixer × CHeading :=
  updateVelocities { s with autoTurnrateRef := turnVelocity } heading

/-- Source function `CMixer::setManualControl` (cmixer.cpp 111-117). -/
def setManualControl (s : CMixer) (heading : CHeading) (manual : Bool) (linVel rotVel : ℚ) :
    CMixer × CHeading :=
  updateVelocities
    { s with manualOverride := manual, manualLinVel := linVel, manualTurnrateRef := rotVel }
    heading

/-- A call of one of the four setters of the autonomous set-points. -/
inductive AutoCall where
  | setVelocity (linearVelocity : ℚ)
  | setTurnrate (turnVelocity : ℚ)
  | setInModeTurnrate (turnVelocity : ℚ)
  | setDesiredHeading (h : ℚ)

/-- The effect of one call of an autonomous setter on mixer and heading controller. -/
def applyCall (st : CMixer × CHeading) : AutoCall → CMixer × CHeading
  | AutoCall.setVelocity v => setVelocity st.1 st.2 v
  | AutoCall.setTurnrate w => setTurnrate st.1 st.2 w
  | AutoCall.setInModeTurnrate w => setInModeTurnrate st.1 st.2 w
  | AutoCall.setDesiredHeading h => setDesiredHeading st.1 st.2 h

/-- The effect of a sequence of calls of autonomous setters. -/
def applyCalls (st : CMixer × CHeading) (calls : List AutoCall) : CMixer × CHeading :=
  calls.foldl applyCall st

/-- The autonomous set-points as the specification words them: linear velocity,
turn-rate reference, desired heading, and whether the heading mode is absolute heading. -/
structure AutoValues where
  linVel : ℚ
  turnrate : ℚ
  heading : ℚ
  absHeading : Bool

/-- The most recently set autonomous values after one more call: `setVelocity`
replaces the velocity, `setTurnrate` the turn-rate (selecting turn-rate mode),
`setInModeTurnrate` the turn-rate only, `setDesiredHeading` the heading
(selecting absolute-heading mode). -/
def AutoValues.after (a : AutoValues) : AutoCall → AutoValues
  | AutoCall.setVelocity v => { a with linVel := v }
  | AutoCall.setTurnrate w => { a with turnrate := w, absHeading := false }
  | AutoCall.setInModeTurnrate w => { a with turnrate := w }
  | AutoCall.setDesiredHeading h => { a with heading := h, absHeading := true }

/-- The autonomous values a mixer state holds. -/
def autoValues (s : CMixer) : AutoValues :=
  { linVel := s.autoLinVel, turnrate := s.autoTurnrateRef, heading := s.desiredHeading,
    absHeading := decide (s.headingMode = HeadingMode.HM_ABS_HEADING) }

end CMixer

namespace MPose

/-- Source function `MPose::resetPose` (mpose.cpp 214-222) on the pose, the global mixer and the
global heading controller. -/
def resetPose (s : MPose) (mixer : CMixer) (heading : CHeading) : MPose × CMixer × CHeading :=
  let s1 : MPose := { s with x := 0, y := 0, h := 0, dist := 0, turned := 0 }
  let m := mixer.setDesiredHeading heading 0
  (s1, m.1, m.2)

/-- The iterations of the loop of `MPose::run` for a sequence of encoder states. -/
def runSteps (cosf sinf : ℚ → ℚ) : List SEncoder → MPose → MPose
  | [], s => s
  | encoder :: rest, s => runSteps cosf sinf rest (runStep cosf sinf s encoder)

end MPose

namespace CMotor

/-- The motor controller `sampleMotor` with its previous pose sample taken at time 10 s. -/
def lateMotor : CMotor := { sampleMotor with lastPose := ⟨10, 0, true⟩ }

/-- A pose sample with both wheels at rest, published at time 12 s. -/
def latePose : MPose := { samplePose with poseTime := ⟨12, 0, true⟩ }

end CMotor

/-! ### Queued send (`src/src/steensy.cpp` 46-73, 184-210, `src/steensy.h` 39-57) -/

namespace UOutQueue

/-- The size `MML` of the character array `msg` (steensy.h 42). -/
def MML : Int := 400

/-- Source function `UOutQueue::setMessage` (steensy.cpp 46-73): the entry afterwards and the
returned `isOK`.  When the message is too long only `msg[3]` and `len` are written. -/
def setMessage (e : UOutQueue) (message : List Int) : UOutQueue × Bool :=
  let len0 : Int := min (message.length : Int) MML
  if len0 + 5 < MML then
    let body : List Int := 33 :: message
    let body1 : List Int := if body.getLast? ≠ some 10 then body ++ [10] else body
    let cc := (STeensy.generateCRC body1).1
    ({ e with msg := cc.take 3 ++ body1, len := len0 + 4 + (if body.getLast? ≠ some 10 then 1 else 0) },
      true)
  else ({ e with msg := e.msg.set 3 33, len := len0 }, false)

/-- The constructor `UOutQueue(const char * msg)` (steensy.h 51-57) when the clock
reads `now`; `junk` is the indeterminate content of the new character array. -/
def create (junk : List Int) (message : List Int) (now : UTime) : UOutQueue :=
  let e0 : UOutQueue :=
    { msg := junk, len := 0, isSend := false, queuedAt := UTime.clear, sendAt := UTime.clear,
      resendCnt := 0 }
  { (setMessage e0 message).1 with queuedAt := now, isSend := false, resendCnt := 0 }

end UOutQueue

namespace STeensy

/-- Source function `STeensy::sendToQueue` (steensy.cpp 199-210): the new entry is pushed at the
back of the queue. -/
def sendToQueue (s : STeensy) (junk : List Int) (now : UTime) (message : List Int) : STeensy :=
  { s with outQueue := s.outQueue ++ [UOutQueue.create junk message now] }

/-- Source function `STeensy::send` (steensy.cpp 184-197): the object afterwards and the
returned `sendOK`. -/
def send (s : STeensy) (junk : List Int) (now : UTime) (w : WriteOutcome) (message : List Int)
    (direct : Bool) : STeensy × Bool :=
  if direct then sendDirect s now w message
  else (sendToQueue s junk now message, false)

/-- The head entry `queuedEntry` after its first transmission at 50 ms. -/
def sentEntry : UOutQueue :=
  { queuedEntry with isSend := true, sendAt := ⟨0, 50000, true⟩, resendCnt := 1 }

/-- The state `queueStart` with its queued command sent and waiting for the confirm. -/
def waitingForConfirm : STeensy := { queueStart with outQueue := [sentEntry] }

end STeensy

/-! ### Line sensor edge detection (`src/src/medge.cpp` 38-213, `src/src/medge.h` 57-98) -/

/-- The members of `MEdge` that `setup` and `findEdge` read or write (medge.h 61-91).  The
arrays of 8 integers are functions of the index; only the indices 0..7 exist. -/
structure MEdge where
  calibWhite : Nat → Int
  calibBlack : Nat → Int
  sensorWidth : ℚ
  calibrationValid : Bool
  whiteThresholdPm : Int
  width : ℚ
  edgeValid : Bool
  leftEdge : ℚ
  rightEdge : ℚ
  ls : Nat → Int
  eeL : Int
  ddL : Int
  eeR : Int
  ddR : Int
  l : Int
  r : Int

namespace MEdge

/-- What stops `findEdge` short of returning: an integer division by zero, or the read of
an array element outside 0..7. -/
inductive Fault where
  | divisionByZero
  | outOfBounds

/-- The initial member values of medge.h 61-91; `junk` stands for the members without an
initialiser. -/
def constructed (junk : Int) : MEdge :=
  { calibWhite := fun _ => junk, calibBlack := fun _ => junk, sensorWidth := junk,
    calibrationValid := true, whiteThresholdPm := junk, width := 0, edgeValid := false,
    leftEdge := 0, rightEdge := 0, ls := fun _ => 0,
    eeL := junk, ddL := junk, eeR := junk, ddR := junk, l := junk, r := junk }

/-- The loop over the black calibration values of `MEdge::setup` (medge.cpp 55-59) for the
indices still to visit: each pass assigns `calibrationValid` anew. -/
def setupLoop (white black : Nat → Int) : List Nat → Bool → Bool
  | [], valid => valid
  | i :: rest, _ => setupLoop white black rest (decide (white i - black i > 10))

/-- Source function `MEdge::setup` (medge.cpp 38-72), the part that sets the calibration: `white i`
and `black i` are the numbers `strtol` reads at position `i` of the two configured lists,
`threshold` and `width` the configured white threshold and sensor width. -/
def setup (s : MEdge) (white black : Nat → Int) (threshold : Int) (width : ℚ) : MEdge :=
  { s with calibWhite := white, calibBlack := black,
           calibrationValid := setupLoop white black (List.range 8) s.calibrationValid,
           whiteThresholdPm := threshold, sensorWidth := width }

/-- The normalising loop of `MEdge::findEdge` (medge.cpp 142-156) for the indices still to
visit, on the pair of `ls` and `lineValid`; the integer division truncates towards zero and
stops the function when the divisor is 0.  (The local sum `vsum` is not used afterwards.) -/
def normLoop (s : MEdge) (edgeRaw : Nat → Int) :
    List Nat → (Nat → Int) × Bool → Except Fault ((Nat → Int) × Bool)
  | [], st => Except.ok st
  | i :: rest, st =>
    if s.calibWhite i - s.calibBlack i = 0 then Except.error Fault.divisionByZero
    else
      let v0 : Int := Int.tdiv ((edgeRaw i - s.calibBlack i) * 1000)
        (s.calibWhite i - s.calibBlack i)
      let v : Int := if v0 > 1000 then 1000 else if v0 < 0 then 0 else v0
      normLoop s edgeRaw rest
        (fun j => if j = i then v else st.1 j, st.2 || decide (v > s.whiteThresholdPm))

/-- The search loop for the left edge (medge.cpp 168-172), `for (l = 0; l < 7; l++)`, from
the value `l` with `fuel` passes left; 7 passes always reach the exit. -/
def leftLoop (ls : Nat → Int) (thr : Int) : Nat → Nat → Nat
  | 0, l => l
  | fuel + 1, l =>
    if l < 7 then (if ls (l + 1) > thr then l else leftLoop ls thr fuel (l + 1)) else l

/-- The search loop for the right edge (medge.cpp 185-189), `for (r = 7; r > 0; r--)`, from
the value `r`. -/
def rightLoop (ls : Nat → Int) (thr : Int) : Nat → Nat
  | 0 => 0
  | r + 1 => if ls r > thr then r + 1 else rightLoop ls thr r

/-- The left edge in sensor units (medge.cpp 163-179). -/
def leftPart (s : MEdge) : Except Fault MEdge :=
  if s.ls 0 > s.whiteThresholdPm then Except.ok { s with leftEdge := 0 }
  else
    let l := leftLoop s.ls s.whiteThresholdPm 7 0
    if l + 1 > 7 then Except.error Fault.outOfBounds
    else
      let eeL := s.whiteThresholdPm - s.ls l
      let ddL := s.ls (l + 1) - s.ls l
      Except.ok { s with l := l, eeL := eeL, ddL := ddL,
                         leftEdge := if ddL > 0 then (l : ℚ) + (eeL : ℚ) / (ddL : ℚ)
                                     else s.leftEdge }

/-- The right edge in sensor units (medge.cpp 181-196). -/
def rightPart (s : MEdge) : Except Fault MEdge :=
  if s.ls 7 > s.whiteThresholdPm then Except.ok { s with rightEdge := 7 }
  else
    let r := rightLoop s.ls s.whiteThresholdPm 7
    if r = 0 then Except.error Fault.outOfBounds
    else
      let eeR := s.whiteThresholdPm - s.ls r
      let ddR := s.ls (r - 1) - s.ls r
      Except.ok { s with r := r, eeR := eeR, ddR := ddR,
                         rightEdge := if ddR > 0 then (r : ℚ) - (eeR : ℚ) / (ddR : ℚ)
                                      else s.rightEdge }

/-- The scaling to metres and the width (medge.cpp 204-208). -/
def scalePart (s : MEdge) : MEdge :=
  let left := -((s.leftEdge * s.sensorWidth / 7) - s.sensorWidth / 2)
  let right := -((s.rightEdge * s.sensorWidth / 7) - s.sensorWidth / 2)
  { s with leftEdge := left, rightEdge := right, width := left - right }

/-- Source function `MEdge::findEdge` (medge.cpp 128-212) for the raw readings `edgeRaw`. -/
def findEdge (s : MEdge) (edgeRaw : Nat → Int) : Except Fault MEdge :=
  if !s.calibrationValid then
    Except.ok { s with leftEdge := 0, rightEdge := 0, edgeValid := false }
  else
    match normLoop s edgeRaw (List.range 8) (s.ls, false) with
    | Except.error f => Except.error f
    | Except.ok (ls, lineValid) =>
      let s1 : MEdge := { s with ls := ls, edgeValid := lineValid }
      if lineValid then
        match leftPart s1 with
        | Except.error f => Except.error f
        | Except.ok s2 =>
          match rightPart s2 with
          | Except.error f => Except.error f
          | Except.ok s3 => Except.ok (scalePart s3)
      else Except.ok (scalePart { s1 with leftEdge := 7 / 2, rightEdge := 7 / 2 })

/-- Whether `findEdge` stops at an integer division by zero. -/
def dividesByZero (s : MEdge) (edgeRaw : Nat → Int) : Bool :=
  match findEdge s edgeRaw with
  | Except.error Fault.divisionByZero => true
  | _ => false

/-- The value of `edgeValid` that `findEdge` reports, when it returns. -/
def reportsValid (s : MEdge) (edgeRaw : Nat → Int) : Option Bool :=
  match findEdge s edgeRaw with
  | Except.ok s1 => some s1.edgeValid
  | Except.error _ => none

/-- White calibration values with sensor 0 at `w0` and the other sensors at 1000. -/
def whiteWith (w0 : Int) : Nat → Int := fun i => if i = 0 then w0 else 1000

/-- Black calibration values 0 for every sensor. -/
def blackZero : Nat → Int := fun _ => 0

/-- The object after `setup` with white values `whiteWith w0`, black values 0, the white
threshold 700 and the sensor width 0.12 m. -/
def calibrated (w0 : Int) : MEdge := setup (constructed 0) (whiteWith w0) blackZero 700 (12 / 100)

/-- Raw readings: 900 on sensors 3 and 4 and 100 elsewhere, a line under the middle. -/
def midLine : Nat → Int := fun i => if i = 3 ∨ i = 4 then 900 else 100

end MEdge

/-! ### Heading controller step (`src/src/cheading.cpp` 112-163) -/

namespace CHeading

/-- The time difference `pose.poseTime - lastPose` of a step (cheading.cpp 128). -/
def stepDt (s : CHeading) (pose : MPose) : ℚ := UTime.getDecSec pose.poseTime s.lastPose

/-- The value of `desiredHeading` a step computes (cheading.cpp 131-136). -/
def stepDesired (s : CHeading) (pose : MPose) : ℚ :=
  if s.turnrateControl then s.desiredHeading + s.turnrateRef * stepDt s pose else s.headingRef

/-- The raw output `pid.pid(desiredHeading, pose.h, limited)` of a control step
(cheading.cpp 139). -/
def raw (s : CHeading) (pose : MPose) : ℚ :=
  (s.pid.pid (stepDesired s pose) pose.h s.limited).1

/-- One iteration of the loop of `CHeading::run` (cheading.cpp 116-162) with the odometry
state `pose`, the flag `motor.limited` and the mixer, whose `updateWheelVelocity` is called
at the close of a step. -/
def runStep (s : CHeading) (pose : MPose) (motorLimited : Bool) (mixer : CMixer) :
    CHeading × CMixer :=
  if pose.updateCnt ≠ s.poseUpdateCnt then
    let dt := UTime.getDecSec pose.poseTime s.lastPose
    let desired :=
      if s.turnrateControl then s.desiredHeading + s.turnrateRef * dt else s.headingRef
    let s1 : CHeading :=
      { s with poseUpdateCnt := pose.updateCnt, lastPose := pose.poseTime,
               desiredHeading := desired }
    let s2 : CHeading :=
      if dt < 1 then
        let r := s.pid.pid desired pose.h s.limited
        if fabsf r.1 > s.maxTurnrate || motorLimited then
          { s1 with pid := r.2, limited := true,
                    u := if r.1 > s.maxTurnrate then s.maxTurnrate
                         else if r.1 < -s.maxTurnrate then -s.maxTurnrate else r.1 }
        else { s1 with pid := r.2, limited := false, u := r.1 }
      else s1
    (s2, mixer.updateWheelVelocity s2)
  else (s, mixer)

/-- A heading controller as `CHeading::setup` leaves it with gain 10, no lead, an
integrator of 0.5 s, a limit of 3 rad/s and a sample time of 10 ms, in absolute-heading mode
with the reference 1 rad; its previous pose sample was taken at 10 s. -/
def sampleHeading : CHeading :=
  { turnrateControl := false, turnrateRef := 0, headingRef := 1, desiredHeading := 0, u := 0,
    limited := false, maxTurnrate := 3,
    pid := (UPID.setup (UPID.constructed 0) (1 / 100) 10 0 1 (1 / 2)).doAngleFolding true,
    poseUpdateCnt := 0, lastPose := ⟨10, 0, true⟩ }

/-- A pose sample at heading 0, published 10 ms after the previous one of `sampleHeading`. -/
def samplePose : MPose :=
  { MPose.scenarioState with updateCnt := 1, poseTime := ⟨10, 10000, true⟩ }

/-- The pose sample following `samplePose`, 10 ms later. -/
def nextPose : MPose :=
  { MPose.scenarioState with updateCnt := 2, poseTime := ⟨10, 20000, true⟩ }

end CHeading

/-! ### Edge controller (`src/src/cedge.cpp` 142-195, `src/src/cedge.h` 50-82) -/

/-- The members of `CEdge` that `CEdge::run` uses (cedge.h 50-82) together with its local
variables `wasEnabled` and `updateCnt`, which live across iterations. -/
structure CEdge where
  maxTurnrate : ℚ
  followLeft : Bool
  followOffset : ℚ
  pid : UPID
  u : ℚ
  limited : Bool
  measuredValue : ℚ
  wasEnabled : Bool
  updateCnt : Int

namespace CEdge

/-- One iteration of the loop of `CEdge::run` (cedge.cpp 147-193): `medgeUpdateCnt` and
`medge` are the update counter and the state of the edge detection, `motorLimited` is
`motor.limited`, and `mixer` and `heading` are the global mixer and heading controller that
`mixer.setInModeTurnrate` writes to. -/
def runStep (s : CEdge) (medgeUpdateCnt : Int) (medge : MEdge) (motorLimited : Bool)
    (mixer : CMixer) (heading : CHeading) : CEdge × CMixer × CHeading :=
  if medgeUpdateCnt ≠ s.updateCnt then
    if mixer.headingMode = HeadingMode.HM_EDGE then
      let measured := if s.followLeft then medge.leftEdge else medge.rightEdge
      let s1 : CEdge :=
        if medge.edgeValid then
          let r := s.pid.pid s.followOffset measured s.limited
          let u := -r.1
          if u > s.maxTurnrate then
            { s with measuredValue := measured, pid := r.2, limited := true,
                     u := s.maxTurnrate }
          else if u < -s.maxTurnrate then
            { s with measuredValue := measured, pid := r.2, limited := true,
                     u := -s.maxTurnrate }
          else { s with measuredValue := measured, pid := r.2, limited := motorLimited, u := u }
        else { s with measuredValue := measured, u := 0, limited := motorLimited }
      let m := mixer.setInModeTurnrate heading s1.u
      ({ s1 with wasEnabled := true, updateCnt := medgeUpdateCnt }, m.1, m.2)
    else if s.wasEnabled then
      let m := mixer.setInModeTurnrate heading 0
      ({ s with wasEnabled := false, u := 0, pid := s.pid.resetHistory,
                updateCnt := medgeUpdateCnt }, m.1, m.2)
    else ({ s with updateCnt := medgeUpdateCnt }, mixer, heading)
  else (s, mixer, heading)

/-- What one iteration of `CEdge::run` reads from outside: the update counter and the state
of the edge detection, and `motor.limited`. -/
structure Sample where
  updateCnt : Int
  medge : MEdge
  motorLimited : Bool

/-- The iterations of the loop of `CEdge::run` for a sequence of samples, with no other
call to the mixer in between. -/
def runSteps : List Sample → CEdge × CMixer × CHeading → CEdge × CMixer × CHeading
  | [], st => st
  | a :: rest, st =>
    runSteps rest (runStep st.1 a.updateCnt a.medge a.motorLimited st.2.1 st.2.2)

/-- The two controllers `p` and `q` carry the same configuration: the gain, the filter and
integrator coefficients and the two switches that `UPID::pid` reads. -/
def SameSetup (p q : UPID) : Prop :=
  p.kp = q.kp ∧ p.le0 = q.le0 ∧ p.le1 = q.le1 ∧ p.lu1 = q.lu1 ∧ p.ie = q.ie ∧
  p.useIntegrator = q.useIntegrator ∧ p.angleFolding = q.angleFolding

/-- An edge controller as `CEdge::setup` leaves it with gain 1, no lead, an integrator of
1 s, a sample time of 1 s and a limit of 10 rad/s, following the right edge with offset 0,
at the entry of `run` with the update counter 0. -/
def sampleEdge : CEdge :=
  { maxTurnrate := 10, followLeft := false, followOffset := 0,
    pid := UPID.setup (UPID.constructed 0) 1 1 0 1 1,
    u := 0, limited := false, measuredValue := 0, wasEnabled := false, updateCnt := 0 }

/-- An edge detection state with a valid edge, the right edge at `right` metres. -/
def edgeAt (right : ℚ) : MEdge :=
  { MEdge.constructed 0 with edgeValid := true, leftEdge := right, rightEdge := right }

/-- A mixer in turn-rate mode with wheel base 0.22 m. -/
def turnrateMixer : CMixer := CMixer.constructed (22 / 100) 0 0

/-- A mixer in edge-follow mode with wheel base 0.22 m. -/
def edgeMixer : CMixer :=
  { CMixer.constructed (22 / 100) 0 0 with headingMode := HeadingMode.HM_EDGE }

/-- The edge controller after one sample handled in edge-follow mode with the edge on the
reference and `motor.limited` set. -/
def enabledEdge : CEdge :=
  (runStep sampleEdge 1 (edgeAt 0) true edgeMixer CHeading.sampleHeading).1

end CEdge

namespace CMixer

/-- Source function `CMixer::setEdgeMode` (cmixer.cpp 119-127) on the mixer and the global edge
controller. -/
def setEdgeMode (s : CMixer) (cedge : CEdge) (leftEdge : Bool) (offset : ℚ) : CMixer × CEdge :=
  ({ s with headingMode := HeadingMode.HM_EDGE },
   { cedge with followLeft := leftEdge, followOffset := offset })

end CMixer

namespace CEdge

/-- The edge controller `enabledEdge` after its next sample, handled in turn-rate mode: it
has left edge-follow mode. -/
def afterLeaving : CEdge :=
  (runStep enabledEdge 2 (edgeAt 0) false turnrateMixer CHeading.sampleHeading).1

end CEdge

namespace MPose

/-- An encoder sample with unchanged counts, 0.1 s after the last change of `scenarioState`. -/
def restEncoder : SEncoder :=
  { updateCnt := 1, encTime := ⟨0, 100000, true⟩, enc0 := 0, enc1 := 0 }

/-- An encoder sample with one new tick on both wheels, 1 s after the last change of
`scenarioState`. -/
def slowTick : SEncoder :=
  { updateCnt := 1, encTime := ⟨1, 0, true⟩, enc0 := 1, enc1 := 1 }

/-- The encoder sample 10 ms after `slowTick`, with unchanged counts. -/
def soonAfter : SEncoder :=
  { updateCnt := 2, encTime := ⟨1, 10000, true⟩, enc0 := 1, enc1 := 1 }

end MPose

namespace STeensy

/-- A state with the link open and identified and nothing queued, in which the last line was
received and the last iteration ended when the clock read 5 s. -/
def receiving : STeensy :=
  { atRunEntry ⟨5, 0, true⟩ with
    teensyConnectionOpen := true, usbport := 3, lastRxTime := ⟨5, 0, true⟩ }

/-- An environment with the clock at `sec` seconds and `usec` microseconds and the result
`r` of `read`; `open` would fail and every write is taken in full. -/
def clockEnv (sec usec : Int) (r : ReadResult) : Env :=
  { now := ⟨sec, usec, true⟩, openResult := -1, readResult := r,
    rxMinus1 := 0, send1 := ⟨1000, false⟩, send2 := ⟨1000, false⟩ }

end STeensy

namespace STeensy

/-- No entry of the queue `q` other than its head has been sent: the flag `isSend` is false
and `resendCnt` is 0 for every entry behind the head. -/
def TailFresh (q : List UOutQueue) : Prop :=
  ∀ e ∈ q.tail, e.isSend = false ∧ e.resendCnt = 0

/-- The calls that change an `STeensy` object: one iteration of the receive loop, a queued
send and a direct send. -/
inductive Op where
  | iter (env : Env)
  | queued (junk : List Int) (now : UTime) (message : List Int)
  | direct (now : UTime) (w : WriteOutcome) (message : List Int)

/-- The effect of one call. -/
def applyOp (s : STeensy) : Op → STeensy
  | Op.iter env => runIter env s
  | Op.queued junk now message => sendToQueue s junk now message
  | Op.direct now w message => (sendDirect s now w message).1

/-- The effect of a sequence of calls. -/
def applyOps (s : STeensy) (ops : List Op) : STeensy := ops.foldl applyOp s

/-- The messages of the queued entries, from the head on. -/
def queuedMsgs (s : STeensy) : List (List Int) := s.outQueue.map (fun e => e.msg)

/-- From `a` to `b` the queue is only played out: a queue with a fresh tail keeps a fresh
tail, and the messages queued in `b` are a trailing part of those queued in `a` (entries
are removed at the head only, none is added or reordered). -/
def Plays (a b : STeensy) : Prop :=
  (TailFresh a.outQueue → TailFresh b.outQueue) ∧ queuedMsgs b <:+ queuedMsgs a

end STeensy

/-! ### Turn radius in mixer and odometry (`src/cmixer.cpp` 164-170, `src/mpose.cpp` 187-196) -/

namespace CMixer

end CMixer

namespace MPose

end MPose

namespace CHeading

end CHeading

/-! ### Calls on a PID controller (`src/src/upid.cpp` 90-163, `src/src/upid.h` 65-68) -/

namespace UPID

/-- A call on a configured controller: `pid`, `resetHistory` or `doAngleFolding`. -/
inductive Op where
  | pid (reference measurement : ℚ) (limitingIsActive : Bool)
  | resetHistory
  | doAngleFolding (doFolding : Bool)

/-- The controller after one call. -/
def applyOp (s : UPID) : Op → UPID
  | Op.pid r m l => (s.pid r m l).2
  | Op.resetHistory => s.resetHistory
  | Op.doAngleFolding b => s.doAngleFolding b

/-- The controller after a sequence of calls. -/
def applyOps (s : UPID) (ops : List Op) : UPID := ops.foldl applyOp s

/-- The controller is in pure proportional mode with gain `kp`: no lead, no integrator, and
an integrator state of 0. -/
def Proportional (s : UPID) (kp : ℚ) : Prop :=
  s.kp = kp ∧ s.le0 = 1 ∧ s.le1 = 0 ∧ s.lu1 = 0 ∧ s.useIntegrator = false ∧ s.ui1 = 0

end UPID

namespace MEdge

end MEdge

namespace MEdge

end MEdge

namespace STeensy

end STeensy

namespace MPose

/-- The odometry object at the entry of the loop of `MPose::run` when the clock
reads 0, after `setup` with gear 19, wheel diameter 0.146 m, 64 ticks per
revolution and wheel base 0.243 m: pose (0, 0, 0), no update handled yet. -/
def programStart : MPose := setup (constructed ⟨0, 0, true⟩) 19 (146 / 1000) 64 (243 / 1000)

/-- Encoder sample number `n` of a run with one sample every 0.1 s: taken at
`n / 10` s, with the counts `enc0` and `enc1`. -/
def sampleAt (n : Nat) (enc0 enc1 : Int) : SEncoder :=
  { updateCnt := (n : Int), encTime := ⟨0, 100000 * (n : Int), true⟩, enc0 := enc0, enc1 := enc1 }

/-- The first three samples of a run that starts at rest: two samples with the
counts at 0, then 100 new ticks on both wheels. -/
def fromRest : List SEncoder := [sampleAt 1 0 0, sampleAt 2 0 0, sampleAt 3 100 100]

/-- The odometry state reached from `programStart` over the samples `fromRest`
(with stand-ins for `cosf` and `sinf` that are exact at 0), followed by a call
of `resetPose`: three updates handled, both wheels last changed at 0.3 s,
pose (0, 0, 0). -/
def scenarioReached : MPose :=
  (resetPose (runSteps (fun a => 1 - a * a / 2) (fun a => a) fromRest programStart)
    (CMixer.constructed (243 / 1000) 0 0) (CHeading.setRef
      { turnrateControl := false, turnrateRef := 0, headingRef := 0, desiredHeading := 0, u := 0,
        limited := false, maxTurnrate := 3, pid := UPID.constructed 0, poseUpdateCnt := 0,
        lastPose := UTime.clear } false 0 0)).1

end MPose

/-! ### Single and double precision (`float`, `double`)

Where a claim depends on the rounding of the arithmetic (mixer kinematics,
motor saturation, the heading fold) the code is embedded a second time with
every operation rounded as the hardware does: to nearest, ties to even, in
binary32 for `float` and binary64 for `double`.  The rounded values are still
rationals; a magnitude above the largest finite value, which the hardware
turns into an infinity, stays finite here, so statements on rounded code
carry a bound on their inputs wherever such a magnitude can arise. -/

/-- The integer nearest to `y`, the even one of the two when `y` lies half-way
between two integers. -/
def roundEven (y : ℚ) : Int :=
  if y - ⌊y⌋ < 1 / 2 then ⌊y⌋
  else if 1 / 2 < y - ⌊y⌋ then ⌊y⌋ + 1
  else if ⌊y⌋ % 2 = 0 then ⌊y⌋ else ⌊y⌋ + 1

/-- The binary exponent of a positive `a`, found by doubling or halving `a` at
most `fuel` times until it lies in [1, 2). -/
def ilog2Aux : Nat → ℚ → Int
  | 0, _ => 0
  | fuel + 1, a =>
    if a < 1 then ilog2Aux fuel (a * 2) - 1
    else if 2 ≤ a then ilog2Aux fuel (a / 2) + 1
    else 0

/-- The binary exponent of a positive `a`: the `e` with `2^e ≤ a < 2^(e+1)`;
numerator plus denominator is more fuel than the search needs. -/
def ilog2 (a : ℚ) : Int := ilog2Aux (a.num.natAbs + a.den) a

/-- The value nearest to `a ≥ 0` in the binary floating-point format with
`prec` significant bits and least exponent `emin`, ties to the even
significand; below `2^emin` the spacing stays that of the least exponent
(subnormal numbers). -/
def roundMag (prec : Nat) (emin : Int) (a : ℚ) : ℚ :=
  (roundEven (a / 2 ^ (max (ilog2 a) emin - ((prec : Int) - 1))) : ℚ)
    * 2 ^ (max (ilog2 a) emin - ((prec : Int) - 1))

/-- Rounding to nearest, ties to even, in the format with `prec` significant
bits and least exponent `emin`: the magnitude is rounded, the sign kept. -/
def roundBin (prec : Nat) (emin : Int) (x : ℚ) : ℚ :=
  if x < 0 then -roundMag prec emin (-x) else roundMag prec emin x

/-- The `float` (IEEE 754 binary32: 24 significant bits, least exponent -126)
nearest to `x`: the result of a `float` operation whose exact result is `x`. -/
def toFloat (x : ℚ) : ℚ := roundBin 24 (-126) x

/-- The `double` (IEEE 754 binary64: 53 significant bits, least exponent -1022)
nearest to `x`: the result of a `double` operation whose exact result is `x`. -/
def toDouble (x : ℚ) : ℚ := roundBin 53 (-1022) x

/-- The `float` nearest to `M_PI`, `0x40490FDB = 13176795 / 2^22`, about
3.14159274; it is larger than `M_PI`. -/
def PI_F : ℚ := 13176795 / 4194304

namespace CMixer

/-- Source function `CMixer::updateWheelVelocity` (cmixer.cpp 150-179) in single precision:
`wheelbase`, `linVel`, `velDif`, `v0`, `v1`, `turnRadius` and the turn rate are
`float`, so the product, the division by 2, the sum, the difference and the
quotients are each rounded to `float`; the constant `minTurnrate` is the
`double` literal 0.001 stored in a `float`. -/
def updateWheelVelocityFloat (s : CMixer) (heading : CHeading) : CMixer :=
  let velDif := toFloat (s.wheelbase * heading.getTurnrate)
  let v1 := toFloat (s.linVel + toFloat (velDif / 2))
  let v0 := toFloat (v1 - velDif)
  let minTurnrate : ℚ := toFloat (toDouble (1 / 1000))
  let turnRadius :=
    if heading.getTurnrate > minTurnrate || heading.getTurnrate < -minTurnrate then
      toFloat (s.linVel / heading.getTurnrate)
    else if velDif > 0 then toFloat (s.linVel / minTurnrate)
    else toFloat (s.linVel / -minTurnrate)
  { s with velDif := velDif, turnRadius := turnRadius, wheelVelRef0 := v0, wheelVelRef1 := v1,
           updateCnt := s.updateCnt + 1 }

/-- A mixer with wheel base 0.243 m (as a `float`) and linear velocity `linVel`. -/
def floatMixer (linVel : ℚ) : CMixer :=
  { constructed (toFloat (243 / 1000)) 0 0 with linVel := linVel }

/-- A heading controller whose output `getTurnrate()` is `u`. -/
def floatHeading (u : ℚ) : CHeading :=
  { turnrateControl := true, turnrateRef := u, headingRef := 0, desiredHeading := 0, u := u,
    limited := false, maxTurnrate := 3, pid := UPID.constructed 0, poseUpdateCnt := 0,
    lastPose := UTime.clear }

end CMixer

namespace CMotor

/-- The output limiting of a control step (cmotor.cpp 153-166) in single
precision, applied to the values `u0`, `u1` that the two `pid` calls returned:
the new `u[0]`, `u[1]` and `limited`.  The comparisons are exact; the quotient
`fac` and the two products are each rounded to `float`. -/
def limitFloat (maxMotV u0 u1 : ℚ) : ℚ × ℚ × Bool :=
  if fabsf u0 > maxMotV || fabsf u1 > maxMotV then
    let fac := if fabsf u0 > fabsf u1 then toFloat (maxMotV / fabsf u0)
               else toFloat (maxMotV / fabsf u1)
    (toFloat (u0 * fac), toFloat (u1 * fac), true)
  else (u0, u1, false)

end CMotor

namespace MPose

/-- The assignment `distPerTick = (wheelDiameter * M_PI) / gear / encTickPerRev`
(mpose.cpp 56, mpose.h 62): the `float` members are converted to `double`, the
product and the two quotients are rounded to `double`, and the result is
stored in a `float`. -/
def distPerTickFloat (wheelDiameter gear encTickPerRev : ℚ) : ℚ :=
  toFloat (toDouble (toDouble (toDouble (wheelDiameter * M_PI) / gear) / encTickPerRev))

/-- The assignment `dd[i] = float(de[i]) * distPerTick` (mpose.cpp 143). -/
def ddFloat (de : Int) (distPerTick : ℚ) : ℚ := toFloat ((de : ℚ) * distPerTick)

/-- The assignment `float dh = (dd[1] - dd[0])/wheelBase` (mpose.cpp 158): a
`float` difference and a `float` quotient. -/
def dhFloat (dd0 dd1 wheelBase : ℚ) : ℚ := toFloat (toFloat (dd1 - dd0) / wheelBase)

/-- The statement `h += dh/2.0` (mpose.cpp 163 and 169, and 164 and 170 for
`h2`): `h` and `dh` are converted to `double`, the quotient and the sum are
rounded to `double`, and the sum is stored in the `float` member. -/
def addHalfTurn (h dh : ℚ) : ℚ := toFloat (toDouble (h + toDouble (dh / 2)))

/-- The fold of the heading (mpose.cpp 172-175, and 176-179 for `h2`): the
comparisons with `M_PI` are made in `double`; `M_PI * 2` and the sum are
rounded to `double`, and the sum is stored in the `float` member. -/
def foldFloat (h : ℚ) : ℚ :=
  if h > M_PI then toFloat (toDouble (h - toDouble (M_PI * 2)))
  else if h < -M_PI then toFloat (toDouble (h + toDouble (M_PI * 2)))
  else h

/-- The heading `h` (and likewise `h2`) after an odometry update with the
increment `dh` (mpose.cpp 163-179): two half steps and the fold. -/
def headingFloat (h dh : ℚ) : ℚ := foldFloat (addHalfTurn (addHalfTurn h dh) dh)

end MPose

/-! ## Theorems -/

/-! ### Rounding to `float` and `double` -/

lemma roundEven_cases (y : ℚ) :
    (roundEven y = ⌊y⌋ ∧ y - ⌊y⌋ ≤ 1 / 2) ∨ (roundEven y = ⌊y⌋ + 1 ∧ 1 / 2 ≤ y - ⌊y⌋) := by
  unfold roundEven
  split_ifs with h1 h2 h3
  · exact Or.inl ⟨rfl, le_of_lt h1⟩
  · exact Or.inr ⟨rfl, le_of_lt h2⟩
  · exact Or.inl ⟨rfl, not_lt.mp h2⟩
  · exact Or.inr ⟨rfl, not_lt.mp h1⟩

lemma roundEven_le (y : ℚ) : (roundEven y : ℚ) ≤ y + 1 / 2 := by
  have h1 := Int.floor_le y
  rcases roundEven_cases y with ⟨h, _⟩ | ⟨h, h2⟩
  · rw [h]; linarith
  · rw [h]; push_cast; linarith

lemma roundEven_ge (y : ℚ) : y - 1 / 2 ≤ (roundEven y : ℚ) := by
  have h1 := Int.lt_floor_add_one y
  rcases roundEven_cases y with ⟨h, h2⟩ | ⟨h, _⟩
  · rw [h]; linarith
  · rw [h]; push_cast; linarith

lemma roundEven_intCast (n : Int) : roundEven (n : ℚ) = n := by
  simp [roundEven]

lemma roundEven_mono {y z : ℚ} (h : y ≤ z) : roundEven y ≤ roundEven z := by
  have hf : ⌊y⌋ ≤ ⌊z⌋ := Int.floor_mono h
  rcases lt_or_eq_of_le hf with hlt | heq
  · have h1 : roundEven y ≤ ⌊y⌋ + 1 := by
      rcases roundEven_cases y with ⟨h, _⟩ | ⟨h, _⟩ <;> omega
    have h2 : ⌊z⌋ ≤ roundEven z := by
      rcases roundEven_cases z with ⟨h, _⟩ | ⟨h, _⟩ <;> omega
    omega
  · unfold roundEven
    rw [heq]
    split_ifs <;> first | omega | (exfalso; linarith)

lemma roundEven_nonneg {y : ℚ} (h : 0 ≤ y) : 0 ≤ roundEven y := by
  have := roundEven_mono h
  rwa [show (0 : ℚ) = ((0 : Int) : ℚ) by norm_num, roundEven_intCast] at this

lemma ilog2Aux_spec : ∀ (fuel : Nat) (a : ℚ), 0 < a → 1 ≤ a * 2 ^ fuel → a < 2 * 2 ^ fuel →
    (2 : ℚ) ^ (ilog2Aux fuel a) ≤ a ∧ a < 2 ^ (ilog2Aux fuel a + 1) := by
  intro fuel
  induction fuel with
  | zero =>
    intro a _ h1 h2
    simp only [pow_zero, mul_one] at h1 h2
    simp only [ilog2Aux, zpow_zero, zero_add, zpow_one]
    exact ⟨h1, h2⟩
  | succ n ih =>
    intro a ha h1 h2
    have hp : (0 : ℚ) < 2 ^ n := by positivity
    have hp1 : (1 : ℚ) ≤ 2 ^ n := one_le_pow₀ (by norm_num)
    rw [pow_succ] at h1 h2
    unfold ilog2Aux
    split_ifs with c1 c2
    · obtain ⟨k1, k2⟩ := ih (a * 2) (by linarith) (by linarith) (by nlinarith)
      constructor
      · rw [zpow_sub_one₀ (by norm_num)]
        linarith
      · rw [sub_add_cancel]
        rw [zpow_add_one₀ (by norm_num)] at k2
        linarith
    · obtain ⟨k1, k2⟩ := ih (a / 2) (by linarith) (by nlinarith) (by linarith)
      constructor
      · rw [zpow_add_one₀ (by norm_num)]
        linarith
      · rw [zpow_add_one₀ (by norm_num)]
        linarith
    · simp only [zpow_zero, zero_add, zpow_one]
      exact ⟨not_lt.mp c1, not_le.mp c2⟩

lemma ilog2_spec (a : ℚ) (ha : 0 < a) :
    (2 : ℚ) ^ (ilog2 a) ≤ a ∧ a < 2 ^ (ilog2 a + 1) := by
  apply ilog2Aux_spec _ a ha
  · have hn : 0 < a.num := Rat.num_pos.mpr ha
    have hd : (0 : ℚ) < a.den := by exact_mod_cast a.den_pos
    have h2 : (a.den : ℚ) ≤ 2 ^ (a.num.natAbs + a.den) := by
      have : a.den < 2 ^ (a.num.natAbs + a.den) :=
        lt_of_lt_of_le (Nat.lt_two_pow a.den) (Nat.pow_le_pow_right (by norm_num) (by omega))
      exact_mod_cast le_of_lt this
    have h3 : (1 : ℚ) ≤ a * a.den := by
      rw [Rat.mul_den_eq_num]
      exact_mod_cast hn
    nlinarith
  · have hn : 0 < a.num := Rat.num_pos.mpr ha
    have hd : (1 : ℚ) ≤ a.den := by exact_mod_cast a.den_pos
    have h1 : a ≤ a.num.natAbs := by
      have e : ((a.num.natAbs : Int) : ℚ) = a.num := by
        rw [Int.natAbs_of_nonneg (le_of_lt hn)]
      have : a * a.den = a.num := Rat.mul_den_eq_num a
      have hnq : (0 : ℚ) < a.num := by exact_mod_cast hn
      have : a ≤ a.num := by nlinarith
      have e2 : ((a.num.natAbs : Int) : ℚ) = (a.num.natAbs : ℚ) := Int.cast_natCast _
      rw [← e2, e]
      exact this
    have h2 : (a.num.natAbs : ℚ) < 2 ^ (a.num.natAbs + a.den) := by
      have : a.num.natAbs < 2 ^ (a.num.natAbs + a.den) :=
        lt_of_lt_of_le (Nat.lt_two_pow _) (Nat.pow_le_pow_right (by norm_num) (by omega))
      exact_mod_cast this
    have hp : (0 : ℚ) < 2 ^ (a.num.natAbs + a.den) := by positivity
    linarith

lemma roundEven_zero : roundEven 0 = 0 := by
  have := roundEven_intCast 0
  simpa using this

lemma roundMag_zero (prec : Nat) (emin : Int) : roundMag prec emin 0 = 0 := by
  simp [roundMag, roundEven_zero]

lemma roundMag_nonneg (prec : Nat) (emin : Int) {a : ℚ} (ha : 0 ≤ a) :
    0 ≤ roundMag prec emin a := by
  unfold roundMag
  have hq : (0 : ℚ) < 2 ^ (max (ilog2 a) emin - ((prec : Int) - 1)) := zpow_pos (by norm_num) _
  have h1 : 0 ≤ roundEven (a / 2 ^ (max (ilog2 a) emin - ((prec : Int) - 1))) :=
    roundEven_nonneg (div_nonneg ha (le_of_lt hq))
  have h2 : (0 : ℚ) ≤ (roundEven (a / 2 ^ (max (ilog2 a) emin - ((prec : Int) - 1))) : ℚ) := by
    exact_mod_cast h1
  exact mul_nonneg h2 (le_of_lt hq)

/-- The rounding error is at most half the spacing. -/
lemma roundMag_error_spacing (prec : Nat) (emin : Int) (a : ℚ) :
    |roundMag prec emin a - a| ≤ 2 ^ (max (ilog2 a) emin - (prec : Int)) := by
  unfold roundMag
  generalize max (ilog2 a) emin = e
  have hq : (0 : ℚ) < 2 ^ (e - ((prec : Int) - 1)) := zpow_pos (by norm_num) _
  have h1 := roundEven_le (a / 2 ^ (e - ((prec : Int) - 1)))
  have h2 := roundEven_ge (a / 2 ^ (e - ((prec : Int) - 1)))
  have e1 : (2 : ℚ) ^ (e - (prec : Int)) = 2 ^ (e - ((prec : Int) - 1)) / 2 := by
    rw [show e - (prec : Int) = e - ((prec : Int) - 1) - 1 by ring, zpow_sub_one₀ (by norm_num)]
    ring
  rw [e1]
  generalize (2 : ℚ) ^ (e - ((prec : Int) - 1)) = q at hq h1 h2 ⊢
  generalize (roundEven (a / q) : ℚ) = n at h1 h2 ⊢
  have ha : a = a / q * q := by field_simp
  rw [abs_le]
  constructor
  · nlinarith
  · nlinarith

lemma roundMag_error (prec : Nat) (emin : Int) {a : ℚ} (ha : 0 ≤ a) :
    |roundMag prec emin a - a| ≤ a / 2 ^ prec + 2 ^ (emin - (prec : Int)) := by
  rcases eq_or_lt_of_le ha with h0 | hpos
  · rw [← h0, roundMag_zero]
    simp only [sub_zero, abs_zero, zero_div, zero_add]
    exact le_of_lt (zpow_pos (by norm_num) _)
  · have h := roundMag_error_spacing prec emin a
    have hp : (0 : ℚ) < 2 ^ prec := by positivity
    have h2 : (0 : ℚ) < 2 ^ (emin - (prec : Int)) := zpow_pos (by norm_num) _
    have h3 : (0 : ℚ) ≤ a / 2 ^ prec := div_nonneg ha (le_of_lt hp)
    rcases le_total (ilog2 a) emin with hle | hge
    · rw [max_eq_right hle] at h
      linarith
    · rw [max_eq_left hge] at h
      have hs := (ilog2_spec a hpos).1
      have e1 : (2 : ℚ) ^ (ilog2 a - (prec : Int)) = 2 ^ (ilog2 a) / 2 ^ prec := by
        rw [zpow_sub₀ (by norm_num), zpow_natCast]
      rw [e1] at h
      have h4 : (2 : ℚ) ^ (ilog2 a) / 2 ^ prec ≤ a / 2 ^ prec :=
        div_le_div_of_nonneg_right hs (le_of_lt hp)
      linarith

lemma roundBin_neg (prec : Nat) (emin : Int) (x : ℚ) :
    roundBin prec emin (-x) = -roundBin prec emin x := by
  unfold roundBin
  rcases lt_trichotomy x 0 with h | h | h
  · rw [if_neg (by linarith), if_pos h, neg_neg]
  · rw [h]; simp [roundMag_zero]
  · rw [if_pos (by linarith), if_neg (by linarith), neg_neg]

lemma roundBin_error (prec : Nat) (emin : Int) (x : ℚ) :
    |roundBin prec emin x - x| ≤ |x| / 2 ^ prec + 2 ^ (emin - (prec : Int)) := by
  unfold roundBin
  split_ifs with h
  · have := roundMag_error prec emin (a := -x) (by linarith)
    rw [abs_of_neg h]
    rw [show -roundMag prec emin (-x) - x = -(roundMag prec emin (-x) - -x) by ring, abs_neg]
    exact this
  · have := roundMag_error prec emin (a := x) (not_lt.mp h)
    rw [abs_of_nonneg (not_lt.mp h)]
    exact this

lemma ilog2_unique {a : ℚ} (ha : 0 < a) (k : Int) (h1 : (2 : ℚ) ^ k ≤ a) (h2 : a < 2 ^ (k + 1)) :
    ilog2 a = k := by
  obtain ⟨s1, s2⟩ := ilog2_spec a ha
  have c1 : ilog2 a < k + 1 :=
    (zpow_lt_zpow_iff_right₀ (by norm_num : (1 : ℚ) < 2)).mp (lt_of_le_of_lt s1 h2)
  have c2 : k < ilog2 a + 1 :=
    (zpow_lt_zpow_iff_right₀ (by norm_num : (1 : ℚ) < 2)).mp (lt_of_le_of_lt h1 s2)
  omega

lemma ilog2_mono {a b : ℚ} (ha : 0 < a) (hab : a ≤ b) : ilog2 a ≤ ilog2 b := by
  obtain ⟨s1, _⟩ := ilog2_spec a ha
  obtain ⟨_, t2⟩ := ilog2_spec b (lt_of_lt_of_le ha hab)
  have c : ilog2 a < ilog2 b + 1 :=
    (zpow_lt_zpow_iff_right₀ (by norm_num : (1 : ℚ) < 2)).mp
      (lt_of_le_of_lt s1 (lt_of_le_of_lt hab t2))
  omega

lemma spacing_mul_pow (e : Int) (prec : Nat) :
    (2 : ℚ) ^ prec * 2 ^ (e - ((prec : Int) - 1)) = 2 ^ (e + 1) := by
  rw [← zpow_natCast, ← zpow_add₀ (by norm_num : (2 : ℚ) ≠ 0)]
  congr 1
  ring

lemma spacing_mul_pow_pred (e : Int) (prec : Nat) (hp : 1 ≤ prec) :
    (2 : ℚ) ^ (prec - 1) * 2 ^ (e - ((prec : Int) - 1)) = 2 ^ e := by
  rw [← zpow_natCast, ← zpow_add₀ (by norm_num : (2 : ℚ) ≠ 0)]
  congr 1
  have : ((prec - 1 : Nat) : Int) = (prec : Int) - 1 := by omega
  rw [this]
  ring

/-- A positive value is rounded to at most the next power of two. -/
lemma roundMag_le_pow (prec : Nat) (emin : Int) {a : ℚ} (ha : 0 < a) :
    roundMag prec emin a ≤ 2 ^ (max (ilog2 a) emin + 1) := by
  have hs := (ilog2_spec a ha).2
  have hle : (2 : ℚ) ^ (ilog2 a + 1) ≤ 2 ^ (max (ilog2 a) emin + 1) :=
    zpow_le_zpow_right₀ (by norm_num) (by have := le_max_left (ilog2 a) emin; omega)
  have hlt : a < 2 ^ (max (ilog2 a) emin + 1) := lt_of_lt_of_le hs hle
  unfold roundMag
  generalize max (ilog2 a) emin = e at hlt ⊢
  have hq : (0 : ℚ) < 2 ^ (e - ((prec : Int) - 1)) := zpow_pos (by norm_num) _
  have hm := spacing_mul_pow e prec
  have h1 : a / 2 ^ (e - ((prec : Int) - 1)) ≤ (((2 : Int) ^ prec : Int) : ℚ) := by
    rw [div_le_iff₀ hq]
    push_cast
    rw [hm]
    exact le_of_lt hlt
  have h2 := roundEven_mono h1
  rw [roundEven_intCast] at h2
  have h3 : (roundEven (a / 2 ^ (e - ((prec : Int) - 1))) : ℚ) ≤ (2 : ℚ) ^ prec := by
    exact_mod_cast h2
  calc (roundEven (a / 2 ^ (e - ((prec : Int) - 1))) : ℚ) * 2 ^ (e - ((prec : Int) - 1))
      ≤ 2 ^ prec * 2 ^ (e - ((prec : Int) - 1)) := mul_le_mul_of_nonneg_right h3 (le_of_lt hq)
    _ = 2 ^ (e + 1) := hm

/-- A value of at least `2^emin` is rounded to at least the power of two below it. -/
lemma roundMag_ge_pow (prec : Nat) (emin : Int) (hp : 1 ≤ prec) {a : ℚ} (ha : 0 < a)
    (he : emin ≤ ilog2 a) : (2 : ℚ) ^ (ilog2 a) ≤ roundMag prec emin a := by
  have hs := (ilog2_spec a ha).1
  unfold roundMag
  rw [max_eq_left he]
  generalize ilog2 a = e at hs ⊢
  have hq : (0 : ℚ) < 2 ^ (e - ((prec : Int) - 1)) := zpow_pos (by norm_num) _
  have hm := spacing_mul_pow_pred e prec hp
  have h1 : (((2 : Int) ^ (prec - 1) : Int) : ℚ) ≤ a / 2 ^ (e - ((prec : Int) - 1)) := by
    rw [le_div_iff₀ hq]
    push_cast
    rw [hm]
    exact hs
  have h2 := roundEven_mono h1
  rw [roundEven_intCast] at h2
  have h3 : (2 : ℚ) ^ (prec - 1) ≤ (roundEven (a / 2 ^ (e - ((prec : Int) - 1))) : ℚ) := by
    exact_mod_cast h2
  calc (2 : ℚ) ^ e = 2 ^ (prec - 1) * 2 ^ (e - ((prec : Int) - 1)) := hm.symm
    _ ≤ (roundEven (a / 2 ^ (e - ((prec : Int) - 1))) : ℚ) * 2 ^ (e - ((prec : Int) - 1)) :=
      mul_le_mul_of_nonneg_right h3 (le_of_lt hq)

lemma roundMag_mono (prec : Nat) (emin : Int) (hp : 1 ≤ prec) {a b : ℚ} (ha : 0 ≤ a)
    (hab : a ≤ b) : roundMag prec emin a ≤ roundMag prec emin b := by
  rcases eq_or_lt_of_le ha with h0 | hpos
  · rw [← h0, roundMag_zero]
    exact roundMag_nonneg prec emin (le_trans ha hab)
  · have hb : 0 < b := lt_of_lt_of_le hpos hab
    have hl := ilog2_mono hpos hab
    rcases eq_or_lt_of_le (max_le_max hl (le_refl emin)) with heq | hlt
    · unfold roundMag
      rw [heq]
      have hq : (0 : ℚ) < 2 ^ (max (ilog2 b) emin - ((prec : Int) - 1)) := zpow_pos (by norm_num) _
      have h1 : a / 2 ^ (max (ilog2 b) emin - ((prec : Int) - 1))
          ≤ b / 2 ^ (max (ilog2 b) emin - ((prec : Int) - 1)) :=
        div_le_div_of_nonneg_right hab (le_of_lt hq)
      have h2 : (roundEven (a / 2 ^ (max (ilog2 b) emin - ((prec : Int) - 1))) : ℚ)
          ≤ (roundEven (b / 2 ^ (max (ilog2 b) emin - ((prec : Int) - 1))) : ℚ) := by
        exact_mod_cast roundEven_mono h1
      exact mul_le_mul_of_nonneg_right h2 (le_of_lt hq)
    · have hbe : emin < ilog2 b := by
        by_contra hc
        rw [max_eq_right (not_lt.mp hc)] at hlt
        have := le_max_right (ilog2 a) emin
        omega
      have hmb : max (ilog2 b) emin = ilog2 b := max_eq_left (le_of_lt hbe)
      rw [hmb] at hlt
      have h1 := roundMag_le_pow prec emin hpos
      have h2 := roundMag_ge_pow prec emin hp hb (le_of_lt hbe)
      have h3 : (2 : ℚ) ^ (max (ilog2 a) emin + 1) ≤ 2 ^ (ilog2 b) :=
        zpow_le_zpow_right₀ (by norm_num) (by omega)
      linarith

lemma roundBin_nonneg (prec : Nat) (emin : Int) {x : ℚ} (hx : 0 ≤ x) :
    0 ≤ roundBin prec emin x := by
  unfold roundBin
  rw [if_neg (not_lt.mpr hx)]
  exact roundMag_nonneg prec emin hx

lemma roundBin_nonpos (prec : Nat) (emin : Int) {x : ℚ} (hx : x ≤ 0) :
    roundBin prec emin x ≤ 0 := by
  have h := roundBin_nonneg prec emin (x := -x) (by linarith)
  rw [roundBin_neg] at h
  linarith

lemma roundBin_mono (prec : Nat) (emin : Int) (hp : 1 ≤ prec) {x y : ℚ} (hxy : x ≤ y) :
    roundBin prec emin x ≤ roundBin prec emin y := by
  rcases le_total 0 x with hx | hx
  · unfold roundBin
    rw [if_neg (not_lt.mpr hx), if_neg (not_lt.mpr (le_trans hx hxy))]
    exact roundMag_mono prec emin hp hx hxy
  · rcases le_total 0 y with hy | hy
    · exact le_trans (roundBin_nonpos prec emin hx) (roundBin_nonneg prec emin hy)
    · have h := roundMag_mono prec emin hp (a := -y) (b := -x) (by linarith) (by linarith)
      have ex : roundBin prec emin x = -roundMag prec emin (-x) := by
        rcases eq_or_lt_of_le hx with h0 | hneg
        · rw [h0]; simp [roundBin, roundMag_zero]
        · unfold roundBin; rw [if_pos hneg]
      have ey : roundBin prec emin y = -roundMag prec emin (-y) := by
        rcases eq_or_lt_of_le hy with h0 | hneg
        · rw [h0]; simp [roundBin, roundMag_zero]
        · unfold roundBin; rw [if_pos hneg]
      rw [ex, ey]
      linarith

lemma toFloat_error (x : ℚ) : |toFloat x - x| ≤ |x| / 2 ^ 24 + 1 / 2 ^ 150 := by
  have h := roundBin_error 24 (-126) x
  have e : (2 : ℚ) ^ ((-126 : Int) - ((24 : Nat) : Int)) = 1 / 2 ^ 150 := by
    rw [show (-126 : Int) - ((24 : Nat) : Int) = -((150 : Nat) : Int) by norm_num, zpow_neg,
      zpow_natCast, one_div]
  rw [e] at h
  exact h

lemma toFloat_mono {x y : ℚ} (h : x ≤ y) : toFloat x ≤ toFloat y :=
  roundBin_mono 24 (-126) (by norm_num) h

lemma toDouble_mono {x y : ℚ} (h : x ≤ y) : toDouble x ≤ toDouble y :=
  roundBin_mono 53 (-1022) (by norm_num) h

lemma toFloat_neg (x : ℚ) : toFloat (-x) = -toFloat x := roundBin_neg 24 (-126) x

lemma toDouble_neg (x : ℚ) : toDouble (-x) = -toDouble x := roundBin_neg 53 (-1022) x

lemma toFloat_nonneg {x : ℚ} (h : 0 ≤ x) : 0 ≤ toFloat x := roundBin_nonneg 24 (-126) h

lemma toFloat_abs (x : ℚ) : |toFloat x| = toFloat |x| := by
  rcases le_total 0 x with h | h
  · rw [abs_of_nonneg h, abs_of_nonneg (toFloat_nonneg h)]
  · have h2 : toFloat x ≤ 0 := roundBin_nonpos 24 (-126) h
    rw [abs_of_nonpos h, abs_of_nonpos h2, toFloat_neg]

/-- The bound of one rounding, in the form used for error propagation. -/
lemma toFloat_near (x : ℚ) :
    |toFloat x - x| ≤ |x| / 16777216 + 1 / 2 ^ 150 ∧
    |toFloat x| ≤ |x| + (|x| / 16777216 + 1 / 2 ^ 150) := by
  have h := toFloat_error x
  norm_num at h
  refine ⟨by norm_num; exact h, ?_⟩
  have h2 : |toFloat x| ≤ |toFloat x - x| + |x| := by
    have := abs_add (toFloat x - x) x
    simpa using this
  norm_num
  linarith

lemma toFloat_one : toFloat 1 = 1 := by decide!

lemma fabsf_abs (x : ℚ) : fabsf x = |x| := by
  unfold fabsf
  split
  · rename_i h; rw [abs_of_neg h]
  · rename_i h; rw [abs_of_nonneg (not_lt.mp h)]


namespace STeensy

/-! ### Checksum field -/

lemma snprintfCRC_two_digits (v : Int) (h1 : 1 ≤ v) (h2 : v ≤ 99) :
    snprintfCRC v = [59, 48 + v / 10, 48 + v % 10] := by
  interval_cases v <;> rfl

lemma sumFromSpace_nonneg (l : List Int) : 0 ≤ sumFromSpace l := by
  unfold sumFromSpace
  apply List.sum_nonneg
  intro c hc
  have h := (List.mem_filter.mp hc).2
  have h32 : c ≥ 32 := by simpa using h
  omega

lemma sumFromSpace_cons (c : Int) (l : List Int) :
    sumFromSpace (c :: l) = (if c ≥ 32 then c else 0) + sumFromSpace l := by
  unfold sumFromSpace
  by_cases h : c ≥ 32 <;> simp [List.filter_cons, h]

lemma generateCRCLoop_eq (l : List Int) (s : Int) :
    generateCRCLoop l s = (s + sumFromSpace (uptoNewline l), decide (10 ∈ l)) := by
  induction l generalizing s with
  | nil => simp [generateCRCLoop, uptoNewline, sumFromSpace]
  | cons c rest ih =>
    by_cases hc : c = 10
    · subst hc
      simp [generateCRCLoop, uptoNewline, sumFromSpace]
    · have hne : ¬ (10 = c) := fun h => hc h.symm
      by_cases h32 : c ≥ 32
      · simp [generateCRCLoop, uptoNewline, hc, hne, h32, ih, sumFromSpace_cons, add_assoc]
      · simp [generateCRCLoop, uptoNewline, hc, hne, h32, ih, sumFromSpace_cons]

lemma crcCheckLoop_eq (l : List Int) (s : Int) :
    crcCheckLoop l s = s + sumFromSpace l := by
  induction l generalizing s with
  | nil => simp [crcCheckLoop, sumFromSpace]
  | cons c rest ih =>
    by_cases h32 : c ≥ 32
    · simp [crcCheckLoop, h32, ih, sumFromSpace_cons, add_assoc]
    · simp [crcCheckLoop, h32, ih, sumFromSpace_cons]

/-- The checksum number of a text: one more than the sum, modulo 99, of the
character values from a space up. -/
lemma tmod_checksum_range (S : Int) (h : 0 ≤ S) :
    Int.tmod S 99 + 1 = S % 99 + 1 ∧ 1 ≤ S % 99 + 1 ∧ S % 99 + 1 ≤ 99 := by
  have h1 : Int.tmod S 99 = S % 99 := Int.tmod_eq_emod h (by norm_num)
  refine ⟨by rw [h1], ?_, ?_⟩ <;> omega

/-- What `generateCRC` writes for every command: `;` and the two decimal digits
of `(S mod 99) + 1`, where `S` sums the characters with value at least 32 (the
space included) up to and including the first newline; it returns whether a
newline was met. -/
lemma generateCRC_eq (cmd : List Int) :
    generateCRC cmd =
      ([59, 48 + (sumFromSpace (uptoNewline cmd) % 99 + 1) / 10,
            48 + (sumFromSpace (uptoNewline cmd) % 99 + 1) % 10], decide (10 ∈ cmd)) := by
  have hS := sumFromSpace_nonneg (uptoNewline cmd)
  obtain ⟨e, h1, h2⟩ := tmod_checksum_range _ hS
  simp only [generateCRC, generateCRCLoop_eq, zero_add, e]
  rw [snprintfCRC_two_digits _ h1 h2]

lemma uptoNewline_sum_of_last (p : List Int) (h : 10 ∉ p.dropLast) :
    sumFromSpace (uptoNewline p) = sumFromSpace p := by
  induction p with
  | nil => rfl
  | cons c rest ih =>
    cases rest with
    | nil => by_cases hc : c = 10 <;> simp [uptoNewline, hc]
    | cons d rest2 =>
      have hmem : 10 ∉ c :: (d :: rest2).dropLast := by simpa [List.dropLast] using h
      have hc : ¬ (c = 10) := fun e => hmem (by simp [e])
      have hrest : 10 ∉ (d :: rest2).dropLast := fun e => hmem (List.mem_cons_of_mem _ e)
      have ih2 := ih hrest
      simp only [uptoNewline, hc, if_false] at ih2 ⊢
      rw [sumFromSpace_cons, sumFromSpace_cons c, ih2]

lemma sumFromSpace_append_newline (p : List Int) :
    sumFromSpace (p ++ [10]) = sumFromSpace p := by
  simp [sumFromSpace, List.filter_append]

lemma crcCheckQ_field (q : Int) (h1 : 1 ≤ q) (h2 : q ≤ 99) (rest : List Int) :
    crcCheckQ ([59, 48 + q / 10, 48 + q % 10] ++ rest) =
      some (Int.tmod (crcCheckLoop rest 0) 99 + 1, q) := by
  have hd1 : isdigit (48 + q / 10) = true := by
    simp only [isdigit, Bool.and_eq_true, decide_eq_true_eq]; omega
  have hd2 : isdigit (48 + q % 10) = true := by
    simp only [isdigit, Bool.and_eq_true, decide_eq_true_eq]; omega
  have hq : (48 + q / 10 - 48) * 10 + (48 + q % 10) - 48 = q := by omega
  simp only [List.cons_append, List.nil_append, crcCheckQ, hd1, hd2, Bool.and_self, if_true, hq]

/-- C1 (code evaluated at the failing input).  For the command `sub hbt 50`
`generateCRC` writes `;22`: the two spaces are part of the sum
(813 = 99 * 8 + 21), whereas the sum of the characters greater than a space
(749 = 99 * 7 + 56) would give `;57`. -/
theorem generateCRC_counts_space :
    generateCRC (chars "sub hbt 50\n") = (chars ";22", true) ∧
    sumFromSpace (uptoNewline (chars "sub hbt 50\n")) = 813 ∧
    sumAboveSpace (uptoNewline (chars "sub hbt 50\n")) = 749 ∧
    snprintfCRC (sumAboveSpace (uptoNewline (chars "sub hbt 50\n")) % 99 + 1) = chars ";57" := by
  decide

/-- C2 (as stated, refuted).  For the payload `stop`, newline, `motv 3 3`, newline
the framed line carries the number 59 in its checksum field (only `stop` is
summed by `generateCRC`), while `crcCheck` recomputes 85 over the whole text
after the field. -/
theorem crc_roundtrip_fails_after_newline :
    sendDirectLine (chars "stop\nmotv 3 3\n") = chars ";59stop\nmotv 3 3\n" ∧
    crcCheckQ (sendDirectLine (chars "stop\nmotv 3 3\n")) = some (85, 59) := by
  decide

/-- C2 (amended).  For every payload `p` that has no newline before its last
character, the line built from `generateCRC p` and `p` (with the newline that
`sendDirect` appends when `p` has none, or without it) passes the two digits test of
`crcCheck`, and the checksum `q1` recomputed over the text after the
3-character field equals the number `q2` the field encodes; that number lies in
1..99. -/
theorem crc_roundtrip (p : List Int) (h : 10 ∉ p.dropLast) :
    ∃ q : Int, 1 ≤ q ∧ q ≤ 99 ∧
      (generateCRC p).1 = [59, 48 + q / 10, 48 + q % 10] ∧
      crcCheckQ (sendDirectLine p) = some (q, q) ∧
      crcCheckQ ((generateCRC p).1 ++ p) = some (q, q) := by
  have hS := sumFromSpace_nonneg p
  obtain ⟨e, h1, h2⟩ := tmod_checksum_range _ hS
  have hg := generateCRC_eq p
  rw [uptoNewline_sum_of_last p h] at hg
  refine ⟨sumFromSpace p % 99 + 1, h1, h2, by rw [hg], ?_, ?_⟩
  · unfold sendDirectLine
    simp only [hg]
    split
    · rw [crcCheckQ_field _ h1 h2, crcCheckLoop_eq, zero_add, e]
    · rw [List.append_assoc, crcCheckQ_field _ h1 h2, crcCheckLoop_eq, zero_add,
        sumFromSpace_append_newline, e]
  · rw [hg, crcCheckQ_field _ h1 h2, crcCheckLoop_eq, zero_add, e]

/-- Witness of `crc_roundtrip` at the payload `motv 1.50 1.50` with its newline. -/
theorem crc_roundtrip_witness :
    10 ∉ (chars "motv 1.50 1.50\n").dropLast ∧
    ∃ q : Int, 1 ≤ q ∧ q ≤ 99 ∧
      (generateCRC (chars "motv 1.50 1.50\n")).1 = [59, 48 + q / 10, 48 + q % 10] ∧
      crcCheckQ (sendDirectLine (chars "motv 1.50 1.50\n")) = some (q, q) ∧
      crcCheckQ ((generateCRC (chars "motv 1.50 1.50\n")).1 ++ chars "motv 1.50 1.50\n")
        = some (q, q) :=
  ⟨by decide, crc_roundtrip (chars "motv 1.50 1.50\n") (by decide)⟩

/-- The return value of `crcCheck` only depends on the first three characters:
it is true exactly when the line starts with `;` and two decimal digits. -/
lemma crcCheck_eq_true_iff (msg : List Int) :
    crcCheck msg = true ↔
      ∃ d1 d2 rest, msg = 59 :: d1 :: d2 :: rest ∧ isdigit d1 = true ∧ isdigit d2 = true := by
  unfold crcCheck
  constructor
  · intro hc
    match msg, hc with
    | 59 :: d1 :: d2 :: rest, hc =>
      refine ⟨d1, d2, rest, rfl, ?_⟩
      by_cases hd : (isdigit d1 && isdigit d2) = true
      · simpa using hd
      · simp [crcCheckQ, hd] at hc
  · rintro ⟨d1, d2, rest, rfl, h1, h2⟩
    simp [crcCheckQ, h1, h2]

/-- C3 (code evaluated at the failing input).  The received line `;01hbt 1`
has the recomputed checksum `q1 = 4` but carries `q2 = 1`; `crcCheck` prints
its failure message and still returns true, so the receive loop, on the
newline that completes the line, hands the text `hbt 1` to `decode`. -/
theorem crcCheck_accepts_mismatch :
    crcCheckQ (chars ";01hbt 1\n") = some (4, 1) ∧
    crcCheckPrintsFailure (chars ";01hbt 1\n") = true ∧
    crcCheck (chars ";01hbt 1\n") = true ∧
    (receiveChar (quietEnv 0) { queueStart with rx := chars ";01hbt 1" } 10).decoded
      = [chars "hbt 1\n"] := by
  decide

end STeensy

namespace UPID

/-! ### PID recurrence -/

end UPID

namespace UPID

end UPID

namespace CMixer

/-- Error propagation through the four rounded operations of the mixer: the
product, its half, the sum and the difference. -/
lemma mixer_rounding (v P : ℚ) :
    let velDif := toFloat P
    let v1 := toFloat (v + toFloat (velDif / 2))
    let v0 := toFloat (v1 - velDif)
    |(v1 - v0) - P| ≤ (|v| + |P|) / 2 ^ 22 + 1 / 2 ^ 148 ∧
    |(v0 + v1) / 2 - v| ≤ (|v| + |P|) / 2 ^ 22 + 1 / 2 ^ 148 := by
  intro velDif v1 v0
  obtain ⟨a1, b1⟩ := toFloat_near P
  obtain ⟨a2, b2⟩ := toFloat_near (velDif / 2)
  obtain ⟨a3, b3⟩ := toFloat_near (v + toFloat (velDif / 2))
  obtain ⟨a4, b4⟩ := toFloat_near (v1 - velDif)
  have t1 : |velDif / 2| = |velDif| / 2 := by rw [abs_div]; norm_num
  have t2 := abs_add v (toFloat (velDif / 2))
  have t3 := abs_sub v1 velDif
  rw [t1] at a2 b2
  change |velDif - P| ≤ _ at a1
  change |velDif| ≤ _ at b1
  change |v1 - _| ≤ _ at a3
  change |v1| ≤ _ at b3
  change |v0 - _| ≤ _ at a4
  generalize toFloat (velDif / 2) = hd at a2 b2 a3 b3 t2
  have hP := abs_nonneg P
  have hv := abs_nonneg v
  constructor
  · have e : (v1 - v0) - P = (velDif - P) - (v0 - (v1 - velDif)) := by ring
    rw [e]
    have t4 := abs_sub (velDif - P) (v0 - (v1 - velDif))
    norm_num at a1 b1 a2 b2 a3 b3 a4 t4 ⊢
    linarith
  · have e : (v0 + v1) / 2 - v
        = (hd - velDif / 2) + (v1 - (v + hd)) + (v0 - (v1 - velDif)) / 2 := by ring
    rw [e]
    have t4 := abs_add ((hd - velDif / 2) + (v1 - (v + hd))) ((v0 - (v1 - velDif)) / 2)
    have t5 := abs_add (hd - velDif / 2) (v1 - (v + hd))
    have t6 : |(v0 - (v1 - velDif)) / 2| = |v0 - (v1 - velDif)| / 2 := by rw [abs_div]; norm_num
    rw [t6] at t4
    norm_num at a1 b1 a2 b2 a3 b3 a4 t4 t5 ⊢
    linarith

/-- C5 (as stated, refuted).  In the single-precision arithmetic of the code,
with wheel base 0.243, linear velocity 0.30 and turn rate 0.10 (each the
nearest `float`) `updateWheelVelocity` stores the references
9658643 / 2^25 and 327313 / 2^20, whose difference is neither
`wheelbase * w` nor the stored `velDif`; and with linear velocity 0.25 and
turn rate 0.70 the mean of the references is 16777215 / 2^26, not 0.25. -/
theorem mixer_identities_inexact :
    (updateWheelVelocityFloat (floatMixer (toFloat (3 / 10)))
      (floatHeading (toFloat (1 / 10)))).wheelVelRef0 = 9658643 / 33554432 ∧
    (updateWheelVelocityFloat (floatMixer (toFloat (3 / 10)))
      (floatHeading (toFloat (1 / 10)))).wheelVelRef1 = 327313 / 1048576 ∧
    (updateWheelVelocityFloat (floatMixer (toFloat (3 / 10)))
      (floatHeading (toFloat (1 / 10)))).velDif = 13045963 / 536870912 ∧
    (floatMixer (toFloat (3 / 10))).wheelbase * (floatHeading (toFloat (1 / 10))).getTurnrate
      = 109437472897971 / 4503599627370496 ∧
    (327313 / 1048576 : ℚ) - 9658643 / 33554432 ≠ 109437472897971 / 4503599627370496 ∧
    (327313 / 1048576 : ℚ) - 9658643 / 33554432 ≠ 13045963 / 536870912 ∧
    (floatMixer (1 / 4)).linVel = 1 / 4 ∧
    (updateWheelVelocityFloat (floatMixer (1 / 4))
      (floatHeading (toFloat (7 / 10)))).wheelVelRef0 = 5534803 / 33554432 ∧
    (updateWheelVelocityFloat (floatMixer (1 / 4))
      (floatHeading (toFloat (7 / 10)))).wheelVelRef1 = 2810603 / 8388608 ∧
    ((5534803 / 33554432 : ℚ) + 2810603 / 8388608) / 2 ≠ 1 / 4 := by
  refine ⟨by decide!, by decide!, by decide!, by decide!, by norm_num, by norm_num, rfl,
    by decide!, by decide!, by norm_num⟩

/-- C5 (amended).  After `updateWheelVelocity` in the single-precision arithmetic
of the code, for every linear velocity `linVel` and every turn rate `w`
delivered by the heading controller (of a size that keeps every intermediate
value finite), the right reference minus the left one is `wheelbase * w`, and
their mean is the linear velocity, up to rounding: each differs from its
exact value by at most `(|linVel| + |wheelbase * w|) / 2^22 + 2^-148`. -/
theorem mixer_kinematics (s : CMixer) (heading : CHeading)
    (_hfin : |s.linVel| + |s.wheelbase * heading.getTurnrate| ≤ 2 ^ 126) :
    |((updateWheelVelocityFloat s heading).wheelVelRef1
        - (updateWheelVelocityFloat s heading).wheelVelRef0)
        - s.wheelbase * heading.getTurnrate|
      ≤ (|s.linVel| + |s.wheelbase * heading.getTurnrate|) / 2 ^ 22 + 1 / 2 ^ 148 ∧
    |((updateWheelVelocityFloat s heading).wheelVelRef0
        + (updateWheelVelocityFloat s heading).wheelVelRef1) / 2 - s.linVel|
      ≤ (|s.linVel| + |s.wheelbase * heading.getTurnrate|) / 2 ^ 22 + 1 / 2 ^ 148 :=
  mixer_rounding s.linVel (s.wheelbase * heading.getTurnrate)

/-- Witness of `mixer_kinematics` at wheel base 0.243, linear velocity 0.30 and
turn rate 0.10, where the identities are not exact. -/
theorem mixer_kinematics_witness :
    |(floatMixer (toFloat (3 / 10))).linVel|
      + |(floatMixer (toFloat (3 / 10))).wheelbase
          * (floatHeading (toFloat (1 / 10))).getTurnrate| ≤ 2 ^ 126 ∧
    |((updateWheelVelocityFloat (floatMixer (toFloat (3 / 10)))
          (floatHeading (toFloat (1 / 10)))).wheelVelRef1
        - (updateWheelVelocityFloat (floatMixer (toFloat (3 / 10)))
          (floatHeading (toFloat (1 / 10)))).wheelVelRef0)
        - (floatMixer (toFloat (3 / 10))).wheelbase
          * (floatHeading (toFloat (1 / 10))).getTurnrate|
      ≤ (|(floatMixer (toFloat (3 / 10))).linVel|
          + |(floatMixer (toFloat (3 / 10))).wheelbase
              * (floatHeading (toFloat (1 / 10))).getTurnrate|) / 2 ^ 22 + 1 / 2 ^ 148 ∧
    |((updateWheelVelocityFloat (floatMixer (toFloat (3 / 10)))
          (floatHeading (toFloat (1 / 10)))).wheelVelRef0
        + (updateWheelVelocityFloat (floatMixer (toFloat (3 / 10)))
          (floatHeading (toFloat (1 / 10)))).wheelVelRef1) / 2
        - (floatMixer (toFloat (3 / 10))).linVel|
      ≤ (|(floatMixer (toFloat (3 / 10))).linVel|
          + |(floatMixer (toFloat (3 / 10))).wheelbase
              * (floatHeading (toFloat (1 / 10))).getTurnrate|) / 2 ^ 22 + 1 / 2 ^ 148 :=
  ⟨by decide!,
   mixer_kinematics (floatMixer (toFloat (3 / 10))) (floatHeading (toFloat (1 / 10)))
    (by decide!)⟩

end CMixer

namespace MPose

/-! ### Odometry -/

end MPose

namespace MPose

end MPose

namespace MPose

/-! ### End-to-end scenario -/

lemma scenario_distPerTick (s0 : MPose) (wheelBase : ℚ) :
    (setup s0 19 (146 / 1000) 64 wheelBase).distPerTick
      = 12910483897451903 / 34227357168015769600 := by
  simp only [setup, M_PI]
  norm_num

lemma foldAngle_zero : foldAngle 0 = 0 := by
  unfold foldAngle M_PI
  norm_num

lemma scenario_step (cosf sinf : ℚ → ℚ) (s0 : MPose) (wheelBase : ℚ) (encoder : SEncoder)
    (hcos : cosf 0 = 1) (hsin : sinf 0 = 0)
    (hloop : 2 ≤ s0.loop) (hpose : s0.x = 0 ∧ s0.y = 0 ∧ s0.h = 0)
    (hnew : encoder.updateCnt ≠ s0.encoderUpdateCnt)
    (h0 : encoder.enc0 = s0.encLast0 + 100) (h1 : encoder.enc1 = s0.encLast1 + 100)
    (ht0 : UTime.getDecSec encoder.encTime s0.encTimeLast0 = 1 / 10)
    (ht1 : UTime.getDecSec encoder.encTime s0.encTimeLast1 = 1 / 10) :
    (runStep cosf sinf (setup s0 19 (146 / 1000) 64 wheelBase) encoder).robVel
      = 1000 * (12910483897451903 / 34227357168015769600) ∧
    (runStep cosf sinf (setup s0 19 (146 / 1000) 64 wheelBase) encoder).x
      = 100 * (12910483897451903 / 34227357168015769600) ∧
    (runStep cosf sinf (setup s0 19 (146 / 1000) 64 wheelBase) encoder).turnrate = 0 ∧
    (runStep cosf sinf (setup s0 19 (146 / 1000) 64 wheelBase) encoder).y = 0 ∧
    (runStep cosf sinf (setup s0 19 (146 / 1000) 64 wheelBase) encoder).h = 0 := by
  obtain ⟨px, py, ph⟩ := hpose
  have hd := scenario_distPerTick s0 wheelBase
  have hl2 : ¬ s0.loop < 2 := not_lt.mpr hloop
  have e0 : encoder.enc0 - s0.encLast0 = 100 := by omega
  have e1 : encoder.enc1 - s0.encLast1 = 100 := by omega
  have n0 : encoder.enc0 ≠ s0.encLast0 := by omega
  have n1 : encoder.enc1 ≠ s0.encLast1 := by omega
  have hnew2 : encoder.updateCnt ≠ (setup s0 19 (146 / 1000) 64 wheelBase).encoderUpdateCnt := hnew
  have w0 : wheelStep (setup s0 19 (146 / 1000) 64 wheelBase).distPerTick encoder.encTime
      encoder.enc0 (encLastUsed s0.loop encoder.enc0 s0.encLast0) s0.encTimeLast0 s0.wheelVel0
      = { dt := 1 / 10, de := 100, dd := 100 * (12910483897451903 / 34227357168015769600),
          encLast := encoder.enc0, encTimeLast := encoder.encTime,
          wheelVel := 100 * (12910483897451903 / 34227357168015769600) / (1 / 10) } := by
    simp [wheelStep, encLastUsed, hl2, e0, n0, ht0, hd]
  have w1 : wheelStep (setup s0 19 (146 / 1000) 64 wheelBase).distPerTick encoder.encTime
      encoder.enc1 (encLastUsed s0.loop encoder.enc1 s0.encLast1) s0.encTimeLast1 s0.wheelVel1
      = { dt := 1 / 10, de := 100, dd := 100 * (12910483897451903 / 34227357168015769600),
          encLast := encoder.enc1, encTimeLast := encoder.encTime,
          wheelVel := 100 * (12910483897451903 / 34227357168015769600) / (1 / 10) } := by
    simp [wheelStep, encLastUsed, hl2, e1, n1, ht1, hd]
  have hs : (setup s0 19 (146 / 1000) 64 wheelBase).loop = s0.loop := rfl
  have hsx : (setup s0 19 (146 / 1000) 64 wheelBase).x = 0 := px
  have hsy : (setup s0 19 (146 / 1000) 64 wheelBase).y = 0 := py
  have hsh : (setup s0 19 (146 / 1000) 64 wheelBase).h = 0 := ph
  have hl0 : (setup s0 19 (146 / 1000) 64 wheelBase).encLast0 = s0.encLast0 := rfl
  have hl1 : (setup s0 19 (146 / 1000) 64 wheelBase).encLast1 = s0.encLast1 := rfl
  have ht0' : (setup s0 19 (146 / 1000) 64 wheelBase).encTimeLast0 = s0.encTimeLast0 := rfl
  have ht1' : (setup s0 19 (146 / 1000) 64 wheelBase).encTimeLast1 = s0.encTimeLast1 := rfl
  have hv0 : (setup s0 19 (146 / 1000) 64 wheelBase).wheelVel0 = s0.wheelVel0 := rfl
  have hv1 : (setup s0 19 (146 / 1000) 64 wheelBase).wheelVel1 = s0.wheelVel1 := rfl
  simp only [runStep, if_pos hnew2, hs, hl0, hl1, ht0', ht1', hv0, hv1, w0, w1, hsx, hsy, hsh]
  refine ⟨?_, ?_, ?_, ?_, ?_⟩
  · norm_num
  · norm_num [hcos]
  · norm_num
  · norm_num [hsin]
  · norm_num [foldAngle_zero]

end MPose

namespace MPose

/-- The first update of a run takes the new counts as the previous ones: no
distance is seen, whatever the counts are. -/
lemma first_update (cosf sinf : ℚ → ℚ) :
    (runStep cosf sinf programStart (sampleAt 1 100 100)).robVel = 0 ∧
    (runStep cosf sinf programStart (sampleAt 1 100 100)).x = 0 := by
  simp [runStep, wheelStep, encLastUsed, programStart, sampleAt, setup, constructed]

/-- The third update of a run from rest divides the distance of its 100 ticks
by the 0.3 s since the start of `run`. -/
lemma from_rest_robVel :
    (runSteps (fun a => 1 - a * a / 2) (fun a => a) fromRest programStart).robVel
      = 1000 / 3 * (12910483897451903 / 34227357168015769600) := by
  simp [fromRest, runSteps, runStep, wheelStep, encLastUsed, programStart, sampleAt, setup,
    constructed, UTime.getDecSec, copysignOne, M_PI]
  norm_num

/-- C8 (as stated, refuted).  With wheel diameter 0.146, gear 19 and 64 ticks per
revolution `setup` computes `distPerTick = 0.146 * M_PI / 19 / 64`, which is
about 3.772e-4 m and not within 1 % of 1.879e-4 m; the scenario sample then
gives `robVel` about 0.3772 m/s, not within 1 % of 0.1879 m/s.  Nor does every
sample with 100 new ticks that arrives 0.1 s after the previous one give
0.3772 m/s: as the first sample of a run (`programStart`) it gives `robVel` = 0
and `x` = 0, and as the third sample of a run whose first two samples had the
wheels at rest (`fromRest`) it gives about 0.1257 m/s, the distance divided by
the 0.3 s since the start of `run`. -/
theorem scenario_fails_as_stated :
    scenarioState.distPerTick = 12910483897451903 / 34227357168015769600 ∧
    withinOnePercent scenarioState.distPerTick (3772 / 10000000) ∧
    ¬ withinOnePercent scenarioState.distPerTick (1879 / 10000000) ∧
    ¬ withinOnePercent
        (runStep (fun a => 1 - a * a / 2) (fun a => a) scenarioState scenarioEncoder).robVel
        (1879 / 10000) ∧
    (runStep (fun a => 1 - a * a / 2) (fun a => a) programStart (sampleAt 1 100 100)).robVel = 0 ∧
    (runStep (fun a => 1 - a * a / 2) (fun a => a) programStart (sampleAt 1 100 100)).x = 0 ∧
    withinOnePercent
      (runSteps (fun a => 1 - a * a / 2) (fun a => a) fromRest programStart).robVel
      (1257 / 10000) ∧
    ¬ withinOnePercent
      (runSteps (fun a => 1 - a * a / 2) (fun a => a) fromRest programStart).robVel
      (3772 / 10000) := by
  have hd : scenarioState.distPerTick = 12910483897451903 / 34227357168015769600 :=
    scenario_distPerTick scenarioStart (243 / 1000)
  have hr : (runStep (fun a => 1 - a * a / 2) (fun a => a) scenarioState scenarioEncoder).robVel
      = 1000 * (12910483897451903 / 34227357168015769600) :=
    (scenario_step (fun a => 1 - a * a / 2) (fun a => a) scenarioStart
      (243 / 1000) scenarioEncoder (by norm_num) rfl
      (by decide) ⟨rfl, rfl, rfl⟩ (by decide) (by decide) (by decide)
      (by norm_num [UTime.getDecSec, scenarioEncoder, scenarioStart, constructed])
      (by norm_num [UTime.getDecSec, scenarioEncoder, scenarioStart, constructed])).1
  have hf := first_update (fun a => 1 - a * a / 2) (fun a => a)
  refine ⟨hd, ?_, ?_, ?_, hf.1, hf.2, ?_, ?_⟩
  · rw [hd]; unfold withinOnePercent; norm_num
  · rw [hd]; unfold withinOnePercent; norm_num
  · rw [hr]; unfold withinOnePercent; norm_num
  · rw [from_rest_robVel]; unfold withinOnePercent; norm_num
  · rw [from_rest_robVel]; unfold withinOnePercent; norm_num

/-- C8 (amended).  With wheel diameter 0.146, gear 19, 64 ticks per revolution
and a wheel base other than 0, the `distPerTick` computed by `setup` is
3.772e-4 m to within 1 %; and once the loop of `run` has handled its first two
updates (`2 ≤ loop`), a sample with 100 new ticks on both wheels that arrives
0.1 s after the time recorded for the last tick change of each wheel (the
previous sample, when both wheels moved in it), starting from pose (0, 0, 0),
yields `robVel` = 0.3772 m/s and `x` = 0.03772 m (each within 1 %),
`turnrate` = 0, `y` = 0 and `h` = 0.  (With a wheel base of 0 the code divides
0 by 0 in `dh`.) -/
theorem end_to_end_scenario (cosf sinf : ℚ → ℚ) (s0 : MPose) (wheelBase : ℚ)
    (encoder : SEncoder)
    (hcos : cosf 0 = 1) (hsin : sinf 0 = 0) (_hwb : wheelBase ≠ 0)
    (hloop : 2 ≤ s0.loop) (hpose : s0.x = 0 ∧ s0.y = 0 ∧ s0.h = 0)
    (hnew : encoder.updateCnt ≠ s0.encoderUpdateCnt)
    (h0 : encoder.enc0 = s0.encLast0 + 100) (h1 : encoder.enc1 = s0.encLast1 + 100)
    (ht0 : UTime.getDecSec encoder.encTime s0.encTimeLast0 = 1 / 10)
    (ht1 : UTime.getDecSec encoder.encTime s0.encTimeLast1 = 1 / 10) :
    withinOnePercent (setup s0 19 (146 / 1000) 64 wheelBase).distPerTick (3772 / 10000000) ∧
    withinOnePercent
      (runStep cosf sinf (setup s0 19 (146 / 1000) 64 wheelBase) encoder).robVel
      (3772 / 10000) ∧
    withinOnePercent
      (runStep cosf sinf (setup s0 19 (146 / 1000) 64 wheelBase) encoder).x (3772 / 100000) ∧
    (runStep cosf sinf (setup s0 19 (146 / 1000) 64 wheelBase) encoder).turnrate = 0 ∧
    (runStep cosf sinf (setup s0 19 (146 / 1000) 64 wheelBase) encoder).y = 0 ∧
    (runStep cosf sinf (setup s0 19 (146 / 1000) 64 wheelBase) encoder).h = 0 := by
  obtain ⟨hv, hx, htr, hy, hh⟩ :=
    scenario_step cosf sinf s0 wheelBase encoder hcos hsin hloop hpose hnew h0 h1 ht0 ht1
  refine ⟨?_, ?_, ?_, htr, hy, hh⟩
  · rw [scenario_distPerTick]; unfold withinOnePercent; norm_num
  · rw [hv]; unfold withinOnePercent; norm_num
  · rw [hx]; unfold withinOnePercent; norm_num

/-- Witness of `end_to_end_scenario` at `scenarioReached`, the state a run reaches
from `programStart` over three samples and a call of `resetPose`, and the
fourth sample of that run, with polynomial stand-ins for `cosf` and `sinf`
that are exact at 0. -/
theorem end_to_end_scenario_witness :
    scenarioReached.loop = 3 ∧
    withinOnePercent (setup scenarioReached 19 (146 / 1000) 64 (243 / 1000)).distPerTick
      (3772 / 10000000) ∧
    withinOnePercent
      (runStep (fun a => 1 - a * a / 2) (fun a => a)
        (setup scenarioReached 19 (146 / 1000) 64 (243 / 1000)) (sampleAt 4 200 200)).robVel
      (3772 / 10000) ∧
    withinOnePercent
      (runStep (fun a => 1 - a * a / 2) (fun a => a)
        (setup scenarioReached 19 (146 / 1000) 64 (243 / 1000)) (sampleAt 4 200 200)).x
      (3772 / 100000) ∧
    (runStep (fun a => 1 - a * a / 2) (fun a => a)
      (setup scenarioReached 19 (146 / 1000) 64 (243 / 1000)) (sampleAt 4 200 200)).turnrate = 0 ∧
    (runStep (fun a => 1 - a * a / 2) (fun a => a)
      (setup scenarioReached 19 (146 / 1000) 64 (243 / 1000)) (sampleAt 4 200 200)).y = 0 ∧
    (runStep (fun a => 1 - a * a / 2) (fun a => a)
      (setup scenarioReached 19 (146 / 1000) 64 (243 / 1000)) (sampleAt 4 200 200)).h = 0 :=
  ⟨rfl, end_to_end_scenario (fun a => 1 - a * a / 2) (fun a => a) scenarioReached (243 / 1000)
    (sampleAt 4 200 200) (by norm_num) rfl (by norm_num)
    (by decide) ⟨rfl, rfl, rfl⟩ (by decide) (by decide) (by decide)
    (by
      have e : scenarioReached.encTimeLast0 = ⟨0, 300000, true⟩ := rfl
      rw [e]
      norm_num [UTime.getDecSec, sampleAt])
    (by
      have e : scenarioReached.encTimeLast1 = ⟨0, 300000, true⟩ := rfl
      rw [e]
      norm_num [UTime.getDecSec, sampleAt])⟩

end MPose

namespace CMotor

/-! ### Motor saturation scaling -/

lemma fabsf_eq_abs (x : ℚ) : fabsf x = |x| := by
  unfold fabsf
  split
  · rename_i h; rw [abs_of_neg h]
  · rename_i h; rw [abs_of_nonneg (not_lt.mp h)]

lemma runStep_limited (s : CMotor) (pose : MPose) (mixer : CMixer)
    (hnew : pose.updateCnt ≠ s.poseUpdateCnt) (hdt : stepDt s pose < 1)
    (hsat : fabsf (raw0 s pose mixer) > s.maxMotV ∨ fabsf (raw1 s pose mixer) > s.maxMotV) :
    (runStep s pose mixer).u0 = raw0 s pose mixer
        * (s.maxMotV / max (fabsf (raw0 s pose mixer)) (fabsf (raw1 s pose mixer))) ∧
    (runStep s pose mixer).u1 = raw1 s pose mixer
        * (s.maxMotV / max (fabsf (raw0 s pose mixer)) (fabsf (raw1 s pose mixer))) ∧
    (runStep s pose mixer).limited = true := by
  have hc : (decide (fabsf (raw0 s pose mixer) > s.maxMotV)
      || decide (fabsf (raw1 s pose mixer) > s.maxMotV)) = true := by
    simpa using hsat
  unfold stepDt at hdt
  unfold raw0 raw1 at hc
  by_cases hgt : fabsf (raw0 s pose mixer) > fabsf (raw1 s pose mixer)
  · have hm : max (fabsf (raw0 s pose mixer)) (fabsf (raw1 s pose mixer))
        = fabsf (raw0 s pose mixer) := max_eq_left (le_of_lt hgt)
    rw [hm]
    unfold raw0 raw1 at hgt ⊢
    simp only [runStep, if_pos hnew, if_pos hdt, hc, if_true, if_pos hgt]
    exact ⟨trivial, trivial, trivial⟩
  · have hm : max (fabsf (raw0 s pose mixer)) (fabsf (raw1 s pose mixer))
        = fabsf (raw1 s pose mixer) := max_eq_right (not_lt.mp hgt)
    rw [hm]
    unfold raw0 raw1 at hgt ⊢
    simp only [runStep, if_pos hnew, if_pos hdt, hc, if_true, if_neg hgt]
    exact ⟨trivial, trivial, trivial⟩

/-- The rounded reduction factor lies in [0, 1] and is near the exact quotient. -/
lemma factor_near (M m : ℚ) (hM : 0 < M) (hm : M < m) :
    0 ≤ toFloat (M / m) ∧ toFloat (M / m) ≤ 1 ∧
    |m * toFloat (M / m) - M| ≤ M / 16777216 + m / 2 ^ 150 := by
  have hmpos : 0 < m := lt_trans hM hm
  have hq : 0 ≤ M / m := le_of_lt (div_pos hM hmpos)
  have hq1 : M / m ≤ 1 := by rw [div_le_one hmpos]; exact le_of_lt hm
  refine ⟨toFloat_nonneg hq, ?_, ?_⟩
  · have := toFloat_mono hq1
    rwa [toFloat_one] at this
  · have h := (toFloat_near (M / m)).1
    rw [abs_of_nonneg hq] at h
    have e : m * toFloat (M / m) - M = m * (toFloat (M / m) - M / m) := by
      field_simp
      ring
    rw [e, abs_mul, abs_of_pos hmpos]
    have h2 := mul_le_mul_of_nonneg_left h (le_of_lt hmpos)
    have e2 : m * (M / m / 16777216 + 1 / 2 ^ 150) = M / 16777216 + m / 2 ^ 150 := by
      field_simp
      ring
    rw [e2] at h2
    exact h2

/-- The output of larger magnitude after scaling is the limit up to two roundings. -/
lemma scaled_big (M u : ℚ) (hM : 0 < M) (hu : M < |u|) :
    |(|toFloat (u * toFloat (M / |u|))|) - M| ≤ M / 2 ^ 22 + (|u| + 1) / 2 ^ 149 := by
  obtain ⟨f0, _, f2⟩ := factor_near M |u| hM hu
  have hmpos : 0 < |u| := lt_trans hM hu
  rw [toFloat_abs, abs_mul, abs_of_nonneg f0]
  obtain ⟨a, _⟩ := toFloat_near (|u| * toFloat (M / |u|))
  have hp : 0 ≤ |u| * toFloat (M / |u|) := mul_nonneg (le_of_lt hmpos) f0
  rw [abs_of_nonneg hp] at a
  generalize |u| * toFloat (M / |u|) = p at a f2 hp
  generalize toFloat p = r at a
  generalize |u| = m at f2 hmpos
  rw [abs_le] at a f2 ⊢
  norm_num at a f2 ⊢
  constructor <;> linarith

lemma scaled_small (f u v : ℚ) (hf : 0 ≤ f) (h : |v| ≤ |u|) :
    |toFloat (v * f)| ≤ |toFloat (u * f)| := by
  rw [toFloat_abs, toFloat_abs, abs_mul, abs_mul, abs_of_nonneg hf]
  exact toFloat_mono (mul_le_mul_of_nonneg_right h hf)

lemma scaled_ratio (f u0 u1 : ℚ) (hf0 : 0 ≤ f) (hf1 : f ≤ 1) :
    |toFloat (u0 * f) * u1 - toFloat (u1 * f) * u0|
      ≤ |u0 * u1| / 2 ^ 23 + (|u0| + |u1|) / 2 ^ 150 := by
  obtain ⟨a0, _⟩ := toFloat_near (u0 * f)
  obtain ⟨a1, _⟩ := toFloat_near (u1 * f)
  have e : toFloat (u0 * f) * u1 - toFloat (u1 * f) * u0
      = (toFloat (u0 * f) - u0 * f) * u1 - (toFloat (u1 * f) - u1 * f) * u0 := by ring
  rw [e]
  have t := abs_sub ((toFloat (u0 * f) - u0 * f) * u1) ((toFloat (u1 * f) - u1 * f) * u0)
  rw [abs_mul, abs_mul] at t
  rw [abs_mul, abs_of_nonneg hf0] at a0 a1
  have h0 := abs_nonneg u0
  have h1 := abs_nonneg u1
  have k0 : |toFloat (u0 * f) - u0 * f| * |u1| ≤ (|u0| * f / 16777216 + 1 / 2 ^ 150) * |u1| :=
    mul_le_mul_of_nonneg_right a0 h1
  have k1 : |toFloat (u1 * f) - u1 * f| * |u0| ≤ (|u1| * f / 16777216 + 1 / 2 ^ 150) * |u0| :=
    mul_le_mul_of_nonneg_right a1 h0
  have k2 : |u0| * |u1| * f ≤ |u0| * |u1| := by
    have := mul_le_mul_of_nonneg_left hf1 (mul_nonneg h0 h1)
    simpa using this
  rw [abs_mul]
  generalize |toFloat (u0 * f) - u0 * f| * |u1| = A at t k0
  generalize |toFloat (u1 * f) - u1 * f| * |u0| = B at t k1
  generalize |u0| = x0 at h0 k0 k1 k2 ⊢
  generalize |u1| = x1 at h1 k0 k1 k2 ⊢
  have k0b : A ≤ x0 * x1 * f / 16777216 + x1 / 2 ^ 150 := by
    calc A ≤ (x0 * f / 16777216 + 1 / 2 ^ 150) * x1 := k0
      _ = x0 * x1 * f / 16777216 + x1 / 2 ^ 150 := by ring
  have k1b : B ≤ x0 * x1 * f / 16777216 + x0 / 2 ^ 150 := by
    calc B ≤ (x1 * f / 16777216 + 1 / 2 ^ 150) * x0 := k1
      _ = x0 * x1 * f / 16777216 + x0 / 2 ^ 150 := by ring
  generalize x0 * x1 * f = y at k0b k1b k2
  norm_num at k0b k1b ⊢
  linarith

lemma limitFloat_limited (M u0 u1 : ℚ) (hsat : fabsf u0 > M ∨ fabsf u1 > M) :
    limitFloat M u0 u1 =
      (toFloat (u0 * toFloat (M / max (fabsf u0) (fabsf u1))),
       toFloat (u1 * toFloat (M / max (fabsf u0) (fabsf u1))), true) := by
  have hc : (decide (fabsf u0 > M) || decide (fabsf u1 > M)) = true := by
    simpa using hsat
  by_cases hgt : fabsf u0 > fabsf u1
  · rw [max_eq_left (le_of_lt hgt)]
    simp only [limitFloat, hc, if_true, if_pos hgt]
  · rw [max_eq_right (not_lt.mp hgt)]
    simp only [limitFloat, hc, if_true, if_neg hgt]

lemma limitFloat_unlimited (M u0 u1 : ℚ) (hsat : ¬ (fabsf u0 > M ∨ fabsf u1 > M)) :
    limitFloat M u0 u1 = (u0, u1, false) := by
  have hc : ¬ ((decide (fabsf u0 > M) || decide (fabsf u1 > M)) = true) := by
    simpa using hsat
  simp only [limitFloat, if_neg hc]

/-- C6 (as stated, refuted).  In the single-precision arithmetic of the code,
with the limit 10 V and the raw outputs 0.6069589 and -17.45454 (each the
nearest `float`) the factor is rounded to 4805975 / 2^23 and the scaled
outputs are 5834059 / 2^24 and -10485761 / 2^20: the larger one has magnitude
10.00000095, above the limit, and `u0' * u1` differs from `u1' * u0`.  A raw
output of 39 V alone is scaled to the same 10.00000095 V. -/
theorem scaled_output_exceeds_limit :
    toFloat (6069589 / 10000000) = 10183081 / 16777216 ∧
    toFloat (-(1745454 / 100000)) = -(4575603 / 262144) ∧
    limitFloat 10 (10183081 / 16777216) (-(4575603 / 262144))
      = (5834059 / 16777216, -(10485761 / 1048576), true) ∧
    fabsf (-(10485761 / 1048576)) > 10 ∧
    (5834059 / 16777216 : ℚ) * (-(4575603 / 262144))
      ≠ -(10485761 / 1048576) * (10183081 / 16777216) ∧
    limitFloat 10 39 0 = (10485761 / 1048576, 0, true) := by
  refine ⟨by decide!, by decide!, by decide!, by decide!, by norm_num, by decide!⟩

/-- C6 (amended).  The output limiting of a control step in the
single-precision arithmetic of the code, for a limit `maxMotV > 0` and raw
PID outputs `u0`, `u1`: if one of them exceeds `maxMotV` in magnitude, both are
multiplied by the same factor, the `float` nearest to
`maxMotV / max(|u0|, |u1|)`, each product rounded to `float`, so that the
larger-magnitude output has the magnitude `maxMotV` up to rounding (within
`maxMotV / 2^22 + (max(|u0|, |u1|) + 1) / 2^149`), the other does not exceed
the larger one in magnitude, the ratio is kept up to rounding
(`|u0' * u1 - u1' * u0| ≤ |u0 * u1| / 2^23 + (|u0| + |u1|) / 2^150`) and
`limited` is true; otherwise the outputs are the raw ones and `limited` is
false. -/
theorem motor_saturation (maxMotV u0 u1 : ℚ) (hmax : 0 < maxMotV) :
    ((fabsf u0 > maxMotV ∨ fabsf u1 > maxMotV) →
      (limitFloat maxMotV u0 u1).1
        = toFloat (u0 * toFloat (maxMotV / max (fabsf u0) (fabsf u1))) ∧
      (limitFloat maxMotV u0 u1).2.1
        = toFloat (u1 * toFloat (maxMotV / max (fabsf u0) (fabsf u1))) ∧
      (fabsf u1 ≤ fabsf u0 →
        |fabsf (limitFloat maxMotV u0 u1).1 - maxMotV|
          ≤ maxMotV / 2 ^ 22 + (fabsf u0 + 1) / 2 ^ 149 ∧
        fabsf (limitFloat maxMotV u0 u1).2.1 ≤ fabsf (limitFloat maxMotV u0 u1).1) ∧
      (fabsf u0 ≤ fabsf u1 →
        |fabsf (limitFloat maxMotV u0 u1).2.1 - maxMotV|
          ≤ maxMotV / 2 ^ 22 + (fabsf u1 + 1) / 2 ^ 149 ∧
        fabsf (limitFloat maxMotV u0 u1).1 ≤ fabsf (limitFloat maxMotV u0 u1).2.1) ∧
      |(limitFloat maxMotV u0 u1).1 * u1 - (limitFloat maxMotV u0 u1).2.1 * u0|
        ≤ |u0 * u1| / 2 ^ 23 + (fabsf u0 + fabsf u1) / 2 ^ 150 ∧
      (limitFloat maxMotV u0 u1).2.2 = true) ∧
    (¬ (fabsf u0 > maxMotV ∨ fabsf u1 > maxMotV) →
      limitFloat maxMotV u0 u1 = (u0, u1, false)) := by
  refine ⟨?_, limitFloat_unlimited maxMotV u0 u1⟩
  intro hsat
  rw [limitFloat_limited maxMotV u0 u1 hsat]
  have hm : maxMotV < max (fabsf u0) (fabsf u1) := by
    rcases hsat with h | h
    · exact lt_of_lt_of_le h (le_max_left _ _)
    · exact lt_of_lt_of_le h (le_max_right _ _)
  obtain ⟨f0, f1, _⟩ := factor_near maxMotV _ hmax hm
  refine ⟨rfl, rfl, ?_, ?_, ?_, rfl⟩
  · intro hle
    have hmax0 : max (fabsf u0) (fabsf u1) = fabsf u0 := max_eq_left hle
    rw [hmax0] at hm f0 ⊢
    simp only [fabsf_abs] at hm hle f0 ⊢
    exact ⟨scaled_big maxMotV u0 hmax hm, scaled_small _ u0 u1 f0 hle⟩
  · intro hle
    have hmax1 : max (fabsf u0) (fabsf u1) = fabsf u1 := max_eq_right hle
    rw [hmax1] at hm f0 ⊢
    simp only [fabsf_abs] at hm hle f0 ⊢
    exact ⟨scaled_big maxMotV u1 hmax hm, scaled_small _ u1 u0 f0 hle⟩
  · simp only [fabsf_abs] at f0 f1 ⊢
    exact scaled_ratio _ u0 u1 f0 f1

/-- Witness of `motor_saturation` at the limit 10 V and the raw outputs
0.6069589 and -17.45454, where the scaled output misses the limit. -/
theorem motor_saturation_witness :
    (fabsf (10183081 / 16777216) > 10 ∨ fabsf (-(4575603 / 262144)) > 10) ∧
    fabsf (10183081 / 16777216) ≤ fabsf (-(4575603 / 262144)) ∧
    |fabsf (limitFloat 10 (10183081 / 16777216) (-(4575603 / 262144))).2.1 - 10|
      ≤ 10 / 2 ^ 22 + (fabsf (-(4575603 / 262144)) + 1) / 2 ^ 149 ∧
    fabsf (limitFloat 10 (10183081 / 16777216) (-(4575603 / 262144))).1
      ≤ fabsf (limitFloat 10 (10183081 / 16777216) (-(4575603 / 262144))).2.1 ∧
    (limitFloat 10 (10183081 / 16777216) (-(4575603 / 262144))).2.2 = true ∧
    limitFloat 10 1 2 = (1, 2, false) :=
  ⟨by decide!, by decide!,
   (((motor_saturation 10 (10183081 / 16777216) (-(4575603 / 262144)) (by norm_num)).1
      (by decide!)).2.2.2.1 (by decide!)).1,
   (((motor_saturation 10 (10183081 / 16777216) (-(4575603 / 262144)) (by norm_num)).1
      (by decide!)).2.2.2.1 (by decide!)).2,
   ((motor_saturation 10 (10183081 / 16777216) (-(4575603 / 262144)) (by norm_num)).1
      (by decide!)).2.2.2.2.2,
   (motor_saturation 10 1 2 (by norm_num)).2 (by decide!)⟩

end CMotor

namespace STeensy

/-! ### Inactivity close -/

/-- C10.  An iteration of the receive loop that starts with the link open,
`gotActivityRecently` false, more than 10 s since the last received line and no
time glitch flagged ends with the link closed (`teensyConnectionOpen` false,
`usbport` = -1, `justConnected` false) and the outbound queue empty, whatever
was queued before. -/
theorem inactivity_close (env : Env) (s : STeensy)
    (hopen : s.teensyConnectionOpen = true)
    (hact : s.gotActivityRecently = false)
    (htime : UTime.getTimePassed s.lastRxTime env.now > 10)
    (hntp : s.ntpUpdate = false) :
    (runIter env s).teensyConnectionOpen = false ∧
    (runIter env s).usbport = -1 ∧
    (runIter env s).justConnected = false ∧
    (runIter env s).outQueue = [] := by
  have hc : closeCondition env s = true := by
    simp [closeCondition, hopen, hact, htime, hntp]
  simp [runIter, hc, closeUSB, hopen]

end STeensy

namespace STeensy

/-! ### Queue reliability -/

lemma agree_refl (a : STeensy) : AgreeOnQueue a a :=
  ⟨rfl, rfl, rfl, rfl, rfl, rfl, rfl, rfl⟩

lemma activityPart_agree (env : Env) (s : STeensy) : AgreeOnQueue (activityPart env s) s := by
  unfold activityPart
  split
  · exact ⟨rfl, rfl, rfl, rfl, rfl, rfl, rfl, rfl⟩
  · exact agree_refl s

/-- Witness of `inactivity_close`: `idleLink` has three commands queued and
received its last line 11 s before the iteration. -/
theorem inactivity_close_witness :
    idleLink.outQueue.length = 3 ∧
    (runIter (quietEnv 11000000) idleLink).teensyConnectionOpen = false ∧
    (runIter (quietEnv 11000000) idleLink).usbport = -1 ∧
    (runIter (quietEnv 11000000) idleLink).justConnected = false ∧
    (runIter (quietEnv 11000000) idleLink).outQueue = [] :=
  ⟨rfl, inactivity_close (quietEnv 11000000) idleLink rfl rfl
    (by norm_num [UTime.getTimePassed, UTime.getDecSec, quietEnv, idleLink, queueStart,
      atRunEntry]) rfl⟩

end STeensy

namespace UPID

/-! ### Angle wrap of the PID error -/

lemma pid_uses_pidError (s : UPID) (r m : ℚ) (l : Bool) :
    (pid s r m l).2.ep1 = pidError s r m * s.kp := rfl

end UPID

namespace MPose

/-- C12.  The function `resetPose` sets the resettable frame to zero and leaves the
never-reset frame, the wheel velocities, turn-rate, turn radius, robot
velocity, pose time and update counter unchanged. -/
theorem resetPose_frame (s : MPose) (mixer : CMixer) (heading : CHeading) :
    (resetPose s mixer heading).1.x = 0 ∧ (resetPose s mixer heading).1.y = 0 ∧
    (resetPose s mixer heading).1.h = 0 ∧ (resetPose s mixer heading).1.dist = 0 ∧
    (resetPose s mixer heading).1.turned = 0 ∧
    (resetPose s mixer heading).1.x2 = s.x2 ∧ (resetPose s mixer heading).1.y2 = s.y2 ∧
    (resetPose s mixer heading).1.h2 = s.h2 ∧ (resetPose s mixer heading).1.dist2 = s.dist2 ∧
    (resetPose s mixer heading).1.turned2 = s.turned2 ∧
    (resetPose s mixer heading).1.wheelVel0 = s.wheelVel0 ∧
    (resetPose s mixer heading).1.wheelVel1 = s.wheelVel1 ∧
    (resetPose s mixer heading).1.turnrate = s.turnrate ∧
    (resetPose s mixer heading).1.turnRadius = s.turnRadius ∧
    (resetPose s mixer heading).1.robVel = s.robVel ∧
    (resetPose s mixer heading).1.poseTime = s.poseTime ∧
    (resetPose s mixer heading).1.updateCnt = s.updateCnt :=
  ⟨rfl, rfl, rfl, rfl, rfl, rfl, rfl, rfl, rfl, rfl, rfl, rfl, rfl, rfl, rfl, rfl, rfl⟩

end MPose

namespace CMixer

/-! ### Manual precedence -/

/-- One call of an autonomous setter under manual override: the manual set-points
stay in force and the call is recorded in the autonomous values. -/
lemma applyCall_manual (st : CMixer × CHeading) (c : AutoCall) (v w : ℚ)
    (hm : st.1.manualOverride = true) (hv : st.1.manualLinVel = v)
    (hw : st.1.manualTurnrateRef = w) :
    (applyCall st c).1.manualOverride = true ∧ (applyCall st c).1.manualLinVel = v ∧
    (applyCall st c).1.manualTurnrateRef = w ∧
    (applyCall st c).1.linVel = v ∧ (applyCall st c).2.turnrateControl = true ∧
    (applyCall st c).2.turnrateRef = w ∧
    autoValues (applyCall st c).1 = (autoValues st.1).after c := by
  cases c <;>
    simp [applyCall, setVelocity, setTurnrate, setInModeTurnrate, setDesiredHeading,
      updateVelocities, updateWheelVelocity, CHeading.setRef, autoValues, AutoValues.after,
      hm, hv, hw]

lemma applyCalls_manual (calls : List AutoCall) :
    ∀ (st : CMixer × CHeading) (v w : ℚ), st.1.manualOverride = true →
      st.1.manualLinVel = v → st.1.manualTurnrateRef = w →
      st.1.linVel = v → st.2.turnrateControl = true → st.2.turnrateRef = w →
      (applyCalls st calls).1.manualOverride = true ∧
      (applyCalls st calls).1.linVel = v ∧ (applyCalls st calls).2.turnrateControl = true ∧
      (applyCalls st calls).2.turnrateRef = w ∧
      autoValues (applyCalls st calls).1 = calls.foldl AutoValues.after (autoValues st.1) := by
  induction calls with
  | nil => intro st v w hm _ _ h1 h2 h3; exact ⟨hm, h1, h2, h3, rfl⟩
  | cons c rest ih =>
    intro st v w hm hv hw _ _ _
    obtain ⟨a1, a2, a3, a4, a5, a6, a7⟩ := applyCall_manual st c v w hm hv hw
    have h := ih (applyCall st c) v w a1 a2 a3 a4 a5 a6
    simp only [applyCalls, List.foldl_cons] at h ⊢
    rw [a7] at h
    exact h

lemma setManualControl_off (m : CMixer) (hd : CHeading) (a b : ℚ) :
    (setManualControl m hd false a b).1.linVel = (autoValues m).linVel ∧
    (setManualControl m hd false a b).2.turnrateRef = (autoValues m).turnrate ∧
    (setManualControl m hd false a b).2.headingRef = (autoValues m).heading ∧
    (setManualControl m hd false a b).2.turnrateControl = !(autoValues m).absHeading := by
  simp [setManualControl, updateVelocities, updateWheelVelocity, CHeading.setRef, autoValues]

/-- C13.  After `setManualControl(true, v, w)` and any sequence of calls of
`setVelocity`, `setTurnrate`, `setInModeTurnrate` and `setDesiredHeading`, the
mixer's linear velocity is `v` and the heading controller is in turn-rate mode
with reference `w`; after a following `setManualControl(false, a, b)` the
linear velocity, the turn-rate reference, the heading reference and the mode
are the most recently set autonomous values. -/
theorem manual_precedence (m : CMixer) (hd : CHeading) (v w a b : ℚ) (calls : List AutoCall) :
    (applyCalls (setManualControl m hd true v w) calls).1.manualOverride = true ∧
    (applyCalls (setManualControl m hd true v w) calls).1.linVel = v ∧
    (applyCalls (setManualControl m hd true v w) calls).2.turnrateControl = true ∧
    (applyCalls (setManualControl m hd true v w) calls).2.turnrateRef = w ∧
    (setManualControl (applyCalls (setManualControl m hd true v w) calls).1
        (applyCalls (setManualControl m hd true v w) calls).2 false a b).1.linVel
      = (calls.foldl AutoValues.after (autoValues m)).linVel ∧
    (setManualControl (applyCalls (setManualControl m hd true v w) calls).1
        (applyCalls (setManualControl m hd true v w) calls).2 false a b).2.turnrateRef
      = (calls.foldl AutoValues.after (autoValues m)).turnrate ∧
    (setManualControl (applyCalls (setManualControl m hd true v w) calls).1
        (applyCalls (setManualControl m hd true v w) calls).2 false a b).2.headingRef
      = (calls.foldl AutoValues.after (autoValues m)).heading ∧
    (setManualControl (applyCalls (setManualControl m hd true v w) calls).1
        (applyCalls (setManualControl m hd true v w) calls).2 false a b).2.turnrateControl
      = !(calls.foldl AutoValues.after (autoValues m)).absHeading := by
  have h0 : autoValues (setManualControl m hd true v w).1 = autoValues m := rfl
  obtain ⟨h1, h2, h3, h4, h5⟩ := applyCalls_manual calls (setManualControl m hd true v w) v w
    rfl rfl rfl rfl rfl rfl
  obtain ⟨g1, g2, g3, g4⟩ := setManualControl_off
    (applyCalls (setManualControl m hd true v w) calls).1
    (applyCalls (setManualControl m hd true v w) calls).2 a b
  rw [h5, h0] at g1 g2 g3 g4
  exact ⟨h1, h2, h3, h4, g1, g2, g3, g4⟩

end CMixer

namespace MPose

/-! ### Heading range -/

/-- In the binade [4, 8) a `float` is a multiple of `2^-21`. -/
lemma toFloat_grid (y : ℚ) (h1 : 4 ≤ y) (h2 : y < 8) :
    toFloat y = (roundEven (y * 2097152) : ℚ) / 2097152 := by
  have hpos : 0 < y := by linarith
  have hl : ilog2 y = 2 := ilog2_unique hpos 2 (by norm_num; exact h1) (by norm_num; exact h2)
  unfold toFloat roundBin
  rw [if_neg (not_lt.mpr (le_of_lt hpos))]
  unfold roundMag
  rw [hl]
  have e : (2 : ℚ) ^ (max (2 : Int) (-126) - (((24 : Nat) : Int) - 1)) = 1 / 2097152 := by
    rw [show max (2 : Int) (-126) - (((24 : Nat) : Int) - 1) = -((21 : Nat) : Int) by decide,
      zpow_neg, zpow_natCast]
    norm_num
  rw [e]
  rw [div_div_eq_mul_div, div_one, mul_one_div]

/-- No `float` lies between 13176794 / 2^21 and the next one, 13176795 / 2^21. -/
lemma float_gap (d : ℚ) (hf : toFloat d = d) (h : d < 13176795 / 2097152) :
    d ≤ 13176794 / 2097152 := by
  by_contra hc
  have hgt : 13176794 / 2097152 < d := not_le.mp hc
  have h8 : d < 8 := by linarith
  have h4 : (4 : ℚ) ≤ d := by linarith
  have hg := toFloat_grid d h4 h8
  rw [hf] at hg
  have hn : 13176794 < roundEven (d * 2097152) := by
    have : (13176794 : ℚ) < (roundEven (d * 2097152) : ℚ) := by
      rw [hg] at hgt
      rw [div_lt_div_iff_of_pos_right (by norm_num)] at hgt
      exact hgt
    exact_mod_cast this
  have hn2 : (13176795 : ℚ) ≤ (roundEven (d * 2097152) : ℚ) := by
    have : (13176795 : Int) ≤ roundEven (d * 2097152) := by omega
    exact_mod_cast this
  have : (13176795 : ℚ) / 2097152 ≤ d := by
    rw [hg]
    exact div_le_div_of_nonneg_right hn2 (by norm_num)
  linarith

lemma float_below_two_pi (d : ℚ) (hf : toFloat d = d) (h : d < 2 * M_PI) :
    d ≤ 13176794 / 2097152 := by
  apply float_gap d hf
  unfold M_PI at h
  linarith

/-- A `float` of magnitude below two times the number pi is below `2 * M_PI` too. -/
lemma float_below_real_two_pi (d : ℚ) (hf : toFloat d = d)
    (h : ((|d| : ℚ) : ℝ) < 2 * Real.pi) : fabsf d < 2 * M_PI := by
  have hpi := Real.pi_lt_d20
  have hlt : ((|d| : ℚ) : ℝ) < ((13176795 / 2097152 : ℚ) : ℝ) := by
    push_cast
    norm_num at hpi ⊢
    push_cast at h
    linarith
  have hq : |d| < 13176795 / 2097152 := by exact_mod_cast hlt
  have hfa : toFloat |d| = |d| := by rw [← toFloat_abs, hf]
  have := float_gap |d| hfa hq
  rw [fabsf_abs]
  unfold M_PI
  linarith

/-- The `float` 3.14159250 is at most the number pi, its double is below two
times pi, and `PI_F` is above pi. -/
lemma pi_between :
    (((13176794 / 4194304 : ℚ) : ℝ) ≤ Real.pi) ∧
    (((13176794 / 2097152 : ℚ) : ℝ) < 2 * Real.pi) ∧
    (Real.pi < ((PI_F : ℚ) : ℝ)) := by
  have h1 := Real.pi_gt_d20
  have h2 := Real.pi_lt_d20
  unfold PI_F
  push_cast
  refine ⟨?_, ?_, ?_⟩
  · norm_num at h1 ⊢
    linarith
  · norm_num at h1 ⊢
    linarith
  · norm_num at h2 ⊢
    linarith

lemma float_turn_bound (d : ℚ) (hf : toFloat d = d) (h : fabsf d < 2 * M_PI) :
    -(13176794 / 2097152) ≤ d ∧ d ≤ 13176794 / 2097152 := by
  rw [fabsf_abs, abs_lt] at h
  constructor
  · have := float_below_two_pi (-d) (by rw [toFloat_neg, hf]) (by linarith)
    linarith
  · exact float_below_two_pi d hf h.2

/-- Conversion to `double` and storage in a `float`. -/
lemma store_mono {x y : ℚ} (h : x ≤ y) : toFloat (toDouble x) ≤ toFloat (toDouble y) :=
  toFloat_mono (toDouble_mono h)

lemma store_neg (x : ℚ) : toFloat (toDouble (-x)) = -toFloat (toDouble x) := by
  rw [toDouble_neg, toFloat_neg]

lemma half_turn_exact : toDouble (13176794 / 2097152 / 2) = 13176794 / 2097152 / 2 := by decide!

lemma two_pi_exact : toDouble (M_PI * 2) = M_PI * 2 := by decide!

lemma first_half_top :
    toFloat (toDouble (PI_F + 13176794 / 2097152 / 2)) = 13176794 / 2097152 := by decide!

lemma second_half_top :
    toFloat (toDouble (13176794 / 2097152 + 13176794 / 2097152 / 2)) = 2470649 / 262144 := by
  decide!

lemma fold_top : toFloat (toDouble (2470649 / 262144 - M_PI * 2)) = PI_F := by decide!

lemma store_pi : toFloat (toDouble M_PI) = PI_F := by decide!

lemma addHalfTurn_bound (h d c : ℚ) (hh : -c ≤ h ∧ h ≤ c)
    (hd : -(13176794 / 2097152) ≤ d ∧ d ≤ 13176794 / 2097152) :
    -toFloat (toDouble (c + 13176794 / 2097152 / 2)) ≤ addHalfTurn h d ∧
    addHalfTurn h d ≤ toFloat (toDouble (c + 13176794 / 2097152 / 2)) := by
  have k1 : toDouble (d / 2) ≤ 13176794 / 2097152 / 2 := by
    have := toDouble_mono (show d / 2 ≤ 13176794 / 2097152 / 2 by linarith)
    rwa [half_turn_exact] at this
  have k2 : -(13176794 / 2097152 / 2) ≤ toDouble (d / 2) := by
    have := toDouble_mono (show -(13176794 / 2097152 / 2) ≤ d / 2 by linarith)
    rwa [toDouble_neg, half_turn_exact] at this
  unfold addHalfTurn
  constructor
  · rw [← store_neg]
    exact store_mono (by linarith)
  · exact store_mono (by linarith)

lemma foldFloat_bound (h : ℚ) (hh : -(2470649 / 262144) ≤ h ∧ h ≤ 2470649 / 262144) :
    -PI_F ≤ foldFloat h ∧ foldFloat h ≤ PI_F := by
  unfold foldFloat
  rw [two_pi_exact]
  split_ifs with c1 c2
  · constructor
    · have := store_mono (show -M_PI ≤ h - M_PI * 2 by linarith)
      rwa [store_neg, store_pi] at this
    · have := store_mono (show h - M_PI * 2 ≤ 2470649 / 262144 - M_PI * 2 by linarith)
      rwa [fold_top] at this
  · constructor
    · have := store_mono (show -(2470649 / 262144 - M_PI * 2) ≤ h + M_PI * 2 by linarith)
      rwa [store_neg, fold_top] at this
    · have := store_mono (show h + M_PI * 2 ≤ M_PI by linarith)
      rwa [store_pi] at this
  · have e : M_PI ≤ PI_F := by unfold M_PI PI_F; norm_num
    constructor <;> linarith

lemma headingFloat_range (h d : ℚ) (hh : -PI_F ≤ h ∧ h ≤ PI_F) (hf : toFloat d = d)
    (hd : fabsf d < 2 * M_PI) :
    -PI_F ≤ headingFloat h d ∧ headingFloat h d ≤ PI_F := by
  have hb := float_turn_bound d hf hd
  have h1 := addHalfTurn_bound h d PI_F hh hb
  rw [first_half_top] at h1
  have h2 := addHalfTurn_bound (addHalfTurn h d) d (13176794 / 2097152) h1 hb
  rw [second_half_top] at h2
  exact foldFloat_bound _ h2

lemma headingFloat_run : ∀ (ds : List ℚ) (h : ℚ), (-PI_F ≤ h ∧ h ≤ PI_F) →
    (∀ d ∈ ds, toFloat d = d ∧ fabsf d < 2 * M_PI) →
    -PI_F ≤ ds.foldl headingFloat h ∧ ds.foldl headingFloat h ≤ PI_F := by
  intro ds
  induction ds with
  | nil => intro h hh _; exact hh
  | cons d tl ih =>
    intro h hh hd
    have hd0 := hd d (List.mem_cons_self _ _)
    exact ih (headingFloat h d) (headingFloat_range h d hh hd0.1 hd0.2)
      (fun x hx => hd x (List.mem_cons_of_mem _ hx))

/-- C19 (as stated, refuted).  In the arithmetic of the code the heading
3.14159250 (the `float` 13176794 / 2^22, inside (-pi, pi]) with the increment
`dh` = 6.28318501 (the `float` 13176794 / 2^21, below 2 pi) is updated to
9.42477798 and folded to `PI_F` = 3.14159274, which is above `M_PI` and above the number pi.  The
heading 3.14159250 is published by an update from heading 0 with the increment
3.14159250, and both increments are computed from one and two ticks of the
right wheel with wheel diameter 0.99999994, gear 1, one tick per revolution
and wheel base 1. -/
theorem heading_exceeds_pi :
    toFloat (13176794 / 4194304) = 13176794 / 4194304 ∧
    toFloat (13176794 / 2097152) = 13176794 / 2097152 ∧
    (-M_PI < 13176794 / 4194304 ∧ (13176794 / 4194304 : ℚ) ≤ M_PI) ∧
    fabsf (13176794 / 2097152) < 2 * M_PI ∧
    addHalfTurn (addHalfTurn (13176794 / 4194304) (13176794 / 2097152)) (13176794 / 2097152)
      = 2470649 / 262144 ∧
    headingFloat (13176794 / 4194304) (13176794 / 2097152) = PI_F ∧
    M_PI < PI_F ∧
    headingFloat 0 (13176794 / 4194304) = 13176794 / 4194304 ∧
    [13176794 / 4194304, 13176794 / 2097152].foldl headingFloat 0 = PI_F ∧
    ((((13176794 / 4194304 : ℚ) : ℝ) ≤ Real.pi) ∧
      (((13176794 / 2097152 : ℚ) : ℝ) < 2 * Real.pi) ∧
      (Real.pi < ((PI_F : ℚ) : ℝ))) ∧
    toFloat (99999994 / 100000000) = 16777215 / 16777216 ∧
    distPerTickFloat (16777215 / 16777216) 1 1 = 13176794 / 4194304 ∧
    dhFloat (ddFloat 0 (13176794 / 4194304)) (ddFloat 1 (13176794 / 4194304)) 1
      = 13176794 / 4194304 ∧
    dhFloat (ddFloat 0 (13176794 / 4194304)) (ddFloat 2 (13176794 / 4194304)) 1
      = 13176794 / 2097152 := by
  refine ⟨by decide!, by decide!, by decide!, by decide!, by decide!, by decide!, by decide!,
    by decide!, by decide!, pi_between, by decide!, by decide!, by decide!, by decide!⟩

/-- C19 (amended).  In the arithmetic of the code: if the heading `h` lies in
the closed interval from `-PI_F` to `PI_F` before an odometry update, where
`PI_F` = 3.14159274 is the `float` nearest to `M_PI`, and the heading increment
is a `float` with `|dh| < 2 * M_PI` (or, which is the same for a `float`, below
two times the number pi), then `h` lies in that interval after the
update (`h2` is updated by the same statements); so from every such heading,
0 included, every heading published over a sequence of updates with such
increments lies in the interval.  Both ends are values the fold stores. -/
theorem heading_range (h : ℚ) (hh : -PI_F ≤ h ∧ h ≤ PI_F) :
    (∀ dh : ℚ, toFloat dh = dh → fabsf dh < 2 * M_PI →
      -PI_F ≤ headingFloat h dh ∧ headingFloat h dh ≤ PI_F) ∧
    (∀ dh : ℚ, toFloat dh = dh → ((|dh| : ℚ) : ℝ) < 2 * Real.pi →
      -PI_F ≤ headingFloat h dh ∧ headingFloat h dh ≤ PI_F) ∧
    (∀ dhs : List ℚ, (∀ dh ∈ dhs, toFloat dh = dh ∧ fabsf dh < 2 * M_PI) →
      ∀ n : Nat, -PI_F ≤ (dhs.take n).foldl headingFloat h ∧
        (dhs.take n).foldl headingFloat h ≤ PI_F) :=
  ⟨fun dh hf hd => headingFloat_range h dh hh hf hd,
   fun dh hf hd => headingFloat_range h dh hh hf (float_below_real_two_pi dh hf hd),
   fun dhs hd n => headingFloat_run (dhs.take n) h hh
    (fun x hx => hd x (List.mem_of_mem_take hx))⟩

/-- Witness of `heading_range` at the heading 3.14159250 and the increment
6.28318501, where the update stores `PI_F`, and at the mirrored values. -/
theorem heading_range_witness :
    (-PI_F ≤ 13176794 / 4194304 ∧ (13176794 / 4194304 : ℚ) ≤ PI_F) ∧
    toFloat (13176794 / 2097152) = 13176794 / 2097152 ∧
    fabsf (13176794 / 2097152) < 2 * M_PI ∧
    (-PI_F ≤ headingFloat (13176794 / 4194304) (13176794 / 2097152) ∧
      headingFloat (13176794 / 4194304) (13176794 / 2097152) ≤ PI_F) ∧
    headingFloat (-(13176794 / 4194304)) (-(13176794 / 2097152)) = -PI_F :=
  ⟨by decide!, by decide!, by decide!,
   (heading_range (13176794 / 4194304) (by decide!)).1 (13176794 / 2097152)
    (by decide!) (by decide!),
   by decide!⟩

end MPose

namespace CMotor

/-! ### Timing guard -/

/-- The guard of `CMotor::run` compares `lastPose - pose.poseTime`, the negative of
the elapsed time, with 1: whenever the elapsed time is not below -1 s the
control update is carried out. -/
lemma stepDt_neg_elapsed (s : CMotor) (pose : MPose) :
    stepDt s pose = -UTime.getDecSec pose.poseTime s.lastPose := by
  simp only [stepDt, UTime.getDecSec]
  push_cast
  ring

lemma late_raw : raw0 lateMotor latePose sampleMixer = 77 / 10 ∧
    raw1 lateMotor latePose sampleMixer = 154 / 10 := by
  constructor <;>
  · simp [raw0, raw1, lateMotor, latePose, sampleMotor, samplePose, sampleMixer, UPID.pid,
      UPID.setup, UPID.constructed, CMixer.constructed, MPose.scenarioState, MPose.setup,
      MPose.scenarioStart, MPose.constructed]
    norm_num

/-- C20 (code evaluated at the failing input).  The previous pose sample was
taken at 10 s and the current one at 12 s, so 2 s have elapsed; the step
computes `dt = lastPose - poseTime = -2`, finds it below 1 and carries out the
control update: the outputs change from 0 V to 5 V and 10 V, `limited` becomes
true and the PID history of the left wheel changes from 0 to 7.  The stored
time stamp advances to 12 s. -/
theorem timing_guard_never_skips :
    UTime.getDecSec latePose.poseTime lateMotor.lastPose = 2 ∧
    stepDt lateMotor latePose = -2 ∧
    lateMotor.u0 = 0 ∧ lateMotor.u1 = 0 ∧ lateMotor.limited = false ∧
    lateMotor.pid0.ep1 = 0 ∧
    (runStep lateMotor latePose sampleMixer).u0 = 5 ∧
    (runStep lateMotor latePose sampleMixer).u1 = 10 ∧
    (runStep lateMotor latePose sampleMixer).limited = true ∧
    (runStep lateMotor latePose sampleMixer).pid0.ep1 = 7 ∧
    (runStep lateMotor latePose sampleMixer).lastPose = latePose.poseTime := by
  have hnew : latePose.updateCnt ≠ lateMotor.poseUpdateCnt := by decide
  have hdt : stepDt lateMotor latePose < 1 := by
    norm_num [stepDt, UTime.getDecSec, lateMotor, latePose]
  have hs1 : fabsf (raw1 lateMotor latePose sampleMixer) > lateMotor.maxMotV := by
    rw [late_raw.2]
    norm_num [lateMotor, sampleMotor, fabsf]
  obtain ⟨h0, h1, hl⟩ := runStep_limited lateMotor latePose sampleMixer hnew hdt (Or.inr hs1)
  refine ⟨?_, ?_, rfl, rfl, rfl, rfl, ?_, ?_, hl, ?_, ?_⟩
  · norm_num [UTime.getDecSec, lateMotor, latePose]
  · norm_num [stepDt, UTime.getDecSec, lateMotor, latePose]
  · rw [h0, late_raw.1, late_raw.2]
    norm_num [lateMotor, sampleMotor, fabsf]
  · rw [h1, late_raw.1, late_raw.2]
    norm_num [lateMotor, sampleMotor, fabsf]
  · have hc : (decide (fabsf (raw0 lateMotor latePose sampleMixer) > lateMotor.maxMotV)
        || decide (fabsf (raw1 lateMotor latePose sampleMixer) > lateMotor.maxMotV)) = true := by
      simp [hs1]
    unfold stepDt at hdt
    unfold raw0 raw1 at hc
    simp only [runStep, if_pos hnew, if_pos hdt, hc, if_true]
    simp [lateMotor, latePose, sampleMotor, samplePose, sampleMixer, UPID.pid,
      UPID.setup, UPID.constructed, CMixer.constructed, MPose.scenarioState, MPose.setup,
      MPose.scenarioStart, MPose.constructed]
  · unfold runStep
    rw [if_pos hnew]

end CMotor

namespace UOutQueue

/-! ### Framing of a queued command -/

lemma getLast?_marker (message : List Int) :
    (33 :: message).getLast? = some 10 ↔ message.getLast? = some 10 := by
  cases message with
  | nil => simp
  | cons c rest => rw [List.getLast?_cons_cons]

lemma generateCRC_length (cmd : List Int) : (STeensy.generateCRC cmd).1.length = 3 := by
  rw [STeensy.generateCRC_eq]; rfl

lemma setMessage_fits (e : UOutQueue) (message : List Int)
    (h : (message.length : Int) + 5 < 400) :
    setMessage e message =
      ({ e with
          msg := (STeensy.generateCRC
                    (33 :: message ++ if message.getLast? = some 10 then [] else [10])).1
                  ++ (33 :: message ++ if message.getLast? = some 10 then [] else [10]),
          len := (message.length : Int) + 4 + (if message.getLast? = some 10 then 0 else 1) },
        true) := by
  have hmin : min (message.length : Int) 400 = message.length := min_eq_left (by omega)
  have h2 : (message.length : Int) + 5 < 400 := h
  by_cases hl : message.getLast? = some 10
  · have hb : (33 :: message).getLast? = some 10 := (getLast?_marker message).2 hl
    simp only [setMessage, MML, hmin, h2, if_true, hb, hl, ne_eq, not_true_eq_false, if_false,
      List.append_nil, add_zero]
    have h3 : List.take 3 (STeensy.generateCRC (33 :: message)).1
        = (STeensy.generateCRC (33 :: message)).1 :=
      List.take_of_length_le (by rw [generateCRC_length])
    rw [h3]
  · have hb : ¬ ((33 :: message).getLast? = some 10) := fun hh => hl ((getLast?_marker message).1 hh)
    simp only [setMessage, MML, hmin, h2, if_true, hb, hl, ne_eq, not_false_eq_true, if_false,
      List.cons_append]
    have h3 : List.take 3 (STeensy.generateCRC (33 :: (message ++ [10]))).1
        = (STeensy.generateCRC (33 :: (message ++ [10]))).1 :=
      List.take_of_length_le (by rw [generateCRC_length])
    rw [h3]

lemma setMessage_too_long (e : UOutQueue) (message : List Int)
    (h : ¬ ((message.length : Int) + 5 < 400)) : (setMessage e message).2 = false := by
  have hmin : ¬ (min (message.length : Int) 400 + 5 < 400) := by
    intro hh
    have := min_le_left (message.length : Int) 400
    rcases le_total (message.length : Int) 400 with hle | hle
    · rw [min_eq_left hle] at hh; exact h hh
    · rw [min_eq_right hle] at hh; omega
  simp only [setMessage, MML, hmin, if_false]

/-- C17.  For every message with `strlen(message) + 5 < 400`, `setMessage` returns true
and stores the checksum field followed by `!`, the message, and one added newline exactly
when the message does not already end in a newline; the checksum field is `generateCRC`
of the stored text from the `!` marker (4th byte) on, and `len` is the length of the
stored line.  For every message with `strlen(longer) + 5 >= 400` it returns false. -/
theorem setMessage_framing (e : UOutQueue) (message : List Int)
    (h : (message.length : Int) + 5 < 400) :
    (setMessage e message).2 = true ∧
    (setMessage e message).1.msg.drop 3
      = 33 :: message ++ (if message.getLast? = some 10 then [] else [10]) ∧
    (setMessage e message).1.msg.take 3
      = (STeensy.generateCRC ((setMessage e message).1.msg.drop 3)).1 ∧
    ((setMessage e message).1.msg.take 3).length = 3 ∧
    (setMessage e message).1.len = ((setMessage e message).1.msg.length : Int) ∧
    (∀ longer : List Int, ¬ ((longer.length : Int) + 5 < 400) →
      (setMessage e longer).2 = false) := by
  rw [setMessage_fits e message h]
  have hlen := generateCRC_length
    (33 :: message ++ if message.getLast? = some 10 then [] else [10])
  have hdrop : ((STeensy.generateCRC
        (33 :: message ++ if message.getLast? = some 10 then [] else [10])).1
        ++ (33 :: message ++ if message.getLast? = some 10 then [] else [10])).drop 3
      = 33 :: message ++ (if message.getLast? = some 10 then [] else [10]) := by
    exact List.drop_left' hlen
  have htake : ((STeensy.generateCRC
        (33 :: message ++ if message.getLast? = some 10 then [] else [10])).1
        ++ (33 :: message ++ if message.getLast? = some 10 then [] else [10])).take 3
      = (STeensy.generateCRC
        (33 :: message ++ if message.getLast? = some 10 then [] else [10])).1 := by
    exact List.take_left' hlen
  refine ⟨rfl, hdrop, ?_, ?_, ?_, fun longer hl => setMessage_too_long e longer hl⟩
  · show List.take 3 _ = (STeensy.generateCRC (List.drop 3 _)).1
    rw [htake, hdrop]
  · show (List.take 3 _).length = 3
    rw [htake, hlen]
  · show _ = ((List.length (_ ++ _) : Nat) : Int)
    rw [List.length_append, hlen]
    by_cases hl : message.getLast? = some 10
    · simp only [hl, if_true, List.append_nil, List.length_cons]; push_cast; ring
    · simp only [hl, if_false, List.cons_append, List.length_cons, List.length_append,
        List.length_nil]; push_cast; ring

/-- Witness of `setMessage_framing`: the command `sub enc 8` without a newline is stored as
the line `;02!sub enc 8` with the newline added, and a message of 395 characters is refused. -/
theorem setMessage_framing_witness :
    (((STeensy.chars "sub enc 8").length : Int) + 5 < 400) ∧
    (setMessage STeensy.queuedEntry (STeensy.chars "sub enc 8")).2 = true ∧
    (setMessage STeensy.queuedEntry (STeensy.chars "sub enc 8")).1.msg.drop 3
      = STeensy.chars "!sub enc 8\n" ∧
    (setMessage STeensy.queuedEntry (STeensy.chars "sub enc 8")).1.len = 14 ∧
    (setMessage STeensy.queuedEntry (List.replicate 395 65)).2 = false :=
  ⟨by decide,
   (setMessage_framing STeensy.queuedEntry (STeensy.chars "sub enc 8") (by decide)).1,
   (setMessage_framing STeensy.queuedEntry (STeensy.chars "sub enc 8") (by decide)).2.1.trans
     (by decide),
   (setMessage_framing STeensy.queuedEntry (STeensy.chars "sub enc 8") (by decide)).2.2.2.2.1.trans
     (by decide),
   (setMessage_framing STeensy.queuedEntry (STeensy.chars "sub enc 8") (by decide)).2.2.2.2.2
     (List.replicate 395 65) (by rw [List.length_replicate]; decide)⟩

end UOutQueue

namespace UOutQueue

/-! ### Confirm matching -/

/-- What `compare` tests for a payload of at least one character: the payload without
its last character is a leading part of the stored text from the `!` marker on. -/
lemma compare_iff_leading (e : UOutQueue) (got : List Int) (hne : got ≠ []) :
    e.compare got = true ↔ got.dropLast <+: e.msg.drop 3 := by
  have hpos : 0 < got.length := List.length_pos.mpr hne
  have hn : ¬ ((got.length : Int) - 1 < 0) := by omega
  have hnat : ((got.length : Int) - 1).toNat = got.length - 1 := by omega
  simp only [compare, hn, if_false, hnat, decide_eq_true_eq]
  rw [List.prefix_iff_eq_take, List.length_dropLast, List.dropLast_eq_take]
  exact eq_comm

end UOutQueue

namespace STeensy

/-- C14 (code evaluated at the failing input).  The head entry `sentEntry` holds the sent
command `!sub enc 8`.  The confirm line `;57confirm !sub`, whose payload `!sub` is not equal
to that command, removes the entry and leaves `confirmMismatchCnt` at 0, both when
`messageConfirmed` is called with the line and when the receive loop takes the newline that
completes it; so does the confirm line `;90confirm ` with an empty payload.  The payload
`!sub enc 80`, not a leading part of the command, is counted as a mismatch. -/
theorem confirm_leading_part_removes_head :
    waitingForConfirm.outQueue = [sentEntry] ∧ sentEntry.isSend = true ∧
    sentEntry.msg.drop 3 = chars "!sub enc 8\n" ∧
    (messageConfirmed waitingForConfirm (chars ";57confirm !sub\n")).outQueue = [] ∧
    (messageConfirmed waitingForConfirm (chars ";57confirm !sub\n")).confirmMismatchCnt = 0 ∧
    (receiveChar (quietEnv 60000) { waitingForConfirm with rx := chars ";57confirm !sub" }
      10).outQueue = [] ∧
    (messageConfirmed waitingForConfirm (chars ";90confirm \n")).outQueue = [] ∧
    (messageConfirmed waitingForConfirm (chars ";40confirm !sub enc 80\n")).outQueue
      = [sentEntry] ∧
    (messageConfirmed waitingForConfirm (chars ";40confirm !sub enc 80\n")).confirmMismatchCnt
      = 1 :=
  ⟨rfl, rfl, by decide, rfl, by decide, rfl, rfl, rfl, by decide⟩

end STeensy

namespace STeensy

/-! ### The outbound queue while the link is closed -/

lemma closeUSB_queue (s : STeensy) :
    (closeUSB s).outQueue = s.outQueue ∨ (closeUSB s).outQueue = [] := by
  unfold closeUSB
  split
  · exact Or.inr rfl
  · exact Or.inl rfl

lemma sendDirect_queue (s : STeensy) (now : UTime) (w : WriteOutcome) (message : List Int) :
    (sendDirect s now w message).1.outQueue = s.outQueue ∨
    (sendDirect s now w message).1.outQueue = [] := by
  unfold sendDirect
  split
  · simp only
    split
    · exact closeUSB_queue _
    · exact Or.inl rfl
  · exact Or.inl rfl

lemma sendDirect_empty (s : STeensy) (now : UTime) (w : WriteOutcome) (message : List Int)
    (h : s.outQueue = []) : (sendDirect s now w message).1.outQueue = [] := by
  rcases sendDirect_queue s now w message with hq | hq
  · rw [hq, h]
  · exact hq

lemma sendDirect_twice_queue (s : STeensy) (now : UTime) (w1 w2 : WriteOutcome)
    (m1 m2 : List Int) :
    (sendDirect (sendDirect s now w1 m1).1 now w2 m2).1.outQueue = s.outQueue ∨
    (sendDirect (sendDirect s now w1 m1).1 now w2 m2).1.outQueue = [] := by
  rcases sendDirect_queue (sendDirect s now w1 m1).1 now w2 m2 with h2 | h2
  · rcases sendDirect_queue s now w1 m1 with h1 | h1
    · exact Or.inl (h2.trans h1)
    · exact Or.inr (h2.trans h1)
  · exact Or.inr h2

lemma openToTeensy_queue (env : Env) (s : STeensy) :
    (openToTeensy env s).outQueue = s.outQueue ∨ (openToTeensy env s).outQueue = [] := by
  unfold openToTeensy
  split
  · exact Or.inl rfl
  · split
    · exact Or.inl rfl
    · exact sendDirect_twice_queue _ env.now env.send1 env.send2 _ _

lemma closeUSB_closed (s : STeensy) (h : s.teensyConnectionOpen = false) : closeUSB s = s := by
  simp only [closeUSB, h, Bool.false_eq_true, if_false]

lemma runIter_closed_queue (env : Env) (s : STeensy) (h : s.teensyConnectionOpen = false) :
    (runIter env s).outQueue = s.outQueue ∨ (runIter env s).outQueue = [] := by
  unfold runIter
  simp only [h, Bool.not_false, if_true, closeUSB_closed s h]
  split
  · exact Or.inl rfl
  · exact openToTeensy_queue env s

lemma openToTeensy_fails (env : Env) (s : STeensy) (h : s.teensyConnectionOpen = false)
    (hopen : env.openResult = -1) :
    (openToTeensy env s).outQueue = s.outQueue ∧ (openToTeensy env s).txLog = s.txLog ∧
    (openToTeensy env s).teensyConnectionOpen = false := by
  unfold openToTeensy
  split
  · exact ⟨rfl, rfl, h⟩
  · exact ⟨rfl, rfl, rfl⟩

lemma runIter_open_fails (env : Env) (s : STeensy) (h : s.teensyConnectionOpen = false)
    (hopen : env.openResult = -1) :
    (runIter env s).outQueue = s.outQueue ∧ (runIter env s).txLog = s.txLog ∧
    (runIter env s).teensyConnectionOpen = false := by
  unfold runIter
  rw [closeUSB_closed s h]
  by_cases hc : closeCondition env s = true
  · rw [if_pos hc]
    exact ⟨rfl, rfl, h⟩
  · rw [if_neg hc, if_pos (by rw [h]; rfl)]
    obtain ⟨o1, o2, o3⟩ := openToTeensy_fails env s h hopen
    exact ⟨o1, o2, o3⟩

lemma messageConfirmed_empty (s : STeensy) (line : List Int) (h : s.outQueue = []) :
    (messageConfirmed s line).outQueue = [] := by
  unfold messageConfirmed
  rw [h]
  exact h

lemma receiveChar_empty (env : Env) (s : STeensy) (c : Int) (h : s.outQueue = []) :
    (receiveChar env s c).outQueue = [] := by
  unfold receiveChar
  split
  · simp only
    split
    · split
      · exact messageConfirmed_empty _ _ h
      · exact h
    · exact h
  · exact h

lemma runQueue_empty (now : UTime) (s : STeensy) (h : s.outQueue = []) :
    (runQueue now s).outQueue = [] := by
  unfold runQueue
  rw [h]
  exact h

lemma connected_empty (env : Env) (s : STeensy) (h : s.outQueue = []) :
    (connected env s).outQueue = [] := by
  unfold connected
  apply runQueue_empty
  have h1 : (identifyPart env s).outQueue = [] := by
    unfold identifyPart
    split
    · exact sendDirect_empty _ _ _ _ (sendDirect_empty _ _ _ _ h)
    · exact h
  have h2 : (activityPart env (identifyPart env s)).outQueue = [] := by
    rw [(activityPart_agree env _).2.2.2.2.1]; exact h1
  unfold readPart
  split
  · rcases closeUSB_queue (activityPart env (identifyPart env s)) with hq | hq
    · rw [hq]; exact h2
    · exact hq
  · exact h2
  · exact receiveChar_empty _ _ _ h2

lemma runIter_empty (env : Env) (s : STeensy) (h : s.outQueue = []) :
    (runIter env s).outQueue = [] := by
  unfold runIter
  simp only
  split
  · rcases closeUSB_queue s with hq | hq
    · rw [hq]; exact h
    · exact hq
  · split
    · rcases openToTeensy_queue env s with hq | hq
      · rw [hq]; exact h
      · exact hq
    · exact connected_empty env s h

lemma runIters_empty : ∀ (envs : List Env) (s : STeensy), s.outQueue = [] →
    (runIters envs s).outQueue = []
  | [], _, h => h
  | env :: rest, s, h => runIters_empty rest (runIter env s) (runIter_empty env s h)

/-- C15 (as stated, refuted).  `closeUSB` leaves `idleLink` with the link closed and an empty
queue; a queued send of `sub enc 8` issued in that state returns false, leaves the link closed
and grows the queue from 0 to 1 entries. -/
theorem queued_send_grows_closed_queue :
    (closeUSB idleLink).teensyConnectionOpen = false ∧
    (closeUSB idleLink).outQueue.length = 0 ∧
    (send (closeUSB idleLink) [] ⟨12, 0, true⟩ ⟨0, false⟩ (chars "sub enc 8\n") false).2 = false ∧
    (send (closeUSB idleLink) [] ⟨12, 0, true⟩ ⟨0, false⟩ (chars "sub enc 8\n")
      false).1.teensyConnectionOpen = false ∧
    (send (closeUSB idleLink) [] ⟨12, 0, true⟩ ⟨0, false⟩ (chars "sub enc 8\n")
      false).1.outQueue.length = 1 ∧
    ((send (closeUSB idleLink) [] ⟨12, 0, true⟩ ⟨0, false⟩ (chars "sub enc 8\n")
      false).1.outQueue.map (fun e => e.msg)) = [chars ";02!sub enc 8\n"] :=
  ⟨rfl, rfl, rfl, rfl, rfl, by decide⟩

/-- C15 (amended).  While the link is not open (`teensyConnectionOpen` = false) the receive
loop never grows the outbound queue: an iteration leaves the queue as it is or empties it,
and when `open` fails it leaves the queue and the written lines unchanged and the link
closed.  A queued send (`send(message)` with `direct` = false) issued in that state appends
exactly one unsent entry, so the queue size grows by one, and the link stays closed.  A
queue that is empty stays empty over every run of the receive loop, that is, as long as no
queued send is issued. -/
theorem closed_link_queue (s : STeensy) (hclosed : s.teensyConnectionOpen = false) :
    (∀ env : Env, (runIter env s).outQueue = s.outQueue ∨ (runIter env s).outQueue = []) ∧
    (∀ env : Env, env.openResult = -1 →
      (runIter env s).outQueue = s.outQueue ∧ (runIter env s).txLog = s.txLog ∧
      (runIter env s).teensyConnectionOpen = false) ∧
    (∀ (junk : List Int) (now : UTime) (w : WriteOutcome) (message : List Int),
      (send s junk now w message false).1.outQueue
        = s.outQueue ++ [UOutQueue.create junk message now] ∧
      (send s junk now w message false).1.outQueue.length = s.outQueue.length + 1 ∧
      (UOutQueue.create junk message now).isSend = false ∧
      (send s junk now w message false).1.teensyConnectionOpen = false) ∧
    (s.outQueue = [] → ∀ envs : List Env, (runIters envs s).outQueue = []) := by
  refine ⟨fun env => runIter_closed_queue env s hclosed,
    fun env ho => runIter_open_fails env s hclosed ho, ?_,
    fun h envs => runIters_empty envs s h⟩
  intro junk now w message
  refine ⟨rfl, ?_, rfl, hclosed⟩
  show (s.outQueue ++ [UOutQueue.create junk message now]).length = _
  rw [List.length_append]; rfl

/-- Witness of `closed_link_queue`: the state `closeUSB idleLink`, closed with an emptied queue;
`open` fails in the quiet iterations. -/
theorem closed_link_queue_witness :
    (closeUSB idleLink).teensyConnectionOpen = false ∧
    (quietEnv 50000).openResult = -1 ∧ (closeUSB idleLink).outQueue = [] ∧
    (runIter (quietEnv 50000) (closeUSB idleLink)).outQueue = (closeUSB idleLink).outQueue ∧
    (runIters (quietSchedule 100) (closeUSB idleLink)).outQueue = [] ∧
    (send (closeUSB idleLink) [] ⟨12, 0, true⟩ ⟨0, false⟩ (chars "sub enc 8\n")
      false).1.outQueue.length = (closeUSB idleLink).outQueue.length + 1 :=
  ⟨rfl, rfl, rfl,
   ((closed_link_queue (closeUSB idleLink) rfl).2.1 (quietEnv 50000) rfl).1,
   (closed_link_queue (closeUSB idleLink) rfl).2.2.2 rfl (quietSchedule 100),
   ((closed_link_queue (closeUSB idleLink) rfl).2.2.1 [] ⟨12, 0, true⟩ ⟨0, false⟩
      (chars "sub enc 8\n")).2.1⟩

end STeensy

namespace STeensy

/-! ### Detection of a changed character -/

lemma sumFromSpace_append (l1 l2 : List Int) :
    sumFromSpace (l1 ++ l2) = sumFromSpace l1 + sumFromSpace l2 := by
  simp [sumFromSpace, List.filter_append, List.sum_append]

lemma uptoNewline_append (pre : List Int) (a : Int) (post : List Int) (h : 10 ∉ pre)
    (ha : a ≠ 10) : uptoNewline (pre ++ a :: post) = pre ++ a :: uptoNewline post := by
  induction pre with
  | nil => simp [uptoNewline, ha]
  | cons c rest ih =>
    have hc : ¬ (c = 10) := fun e => h (by simp [e])
    have hrest : 10 ∉ rest := fun e => h (List.mem_cons_of_mem _ e)
    show uptoNewline (c :: (rest ++ a :: post)) = c :: (rest ++ a :: uptoNewline post)
    simp only [uptoNewline, hc, if_false]
    rw [ih hrest]

lemma sum_with_byte (pre : List Int) (a : Int) (post : List Int) (ha : 32 ≤ a) :
    sumFromSpace (pre ++ a :: post) = sumFromSpace pre + a + sumFromSpace post := by
  have h32 : a ≥ 32 := ha
  rw [sumFromSpace_append, sumFromSpace_cons, if_pos h32, add_assoc]

lemma checksum_differs (P Q a b : Int)
    (ha : 32 ≤ a ∧ a ≤ 126) (hb : 32 ≤ b ∧ b ≤ 126) (hab : a ≠ b) :
    (P + a + Q) % 99 + 1 ≠ (P + b + Q) % 99 + 1 := by
  omega

lemma field_injective (q r : Int)
    (h : ([59, 48 + q / 10, 48 + q % 10] : List Int) = [59, 48 + r / 10, 48 + r % 10]) :
    q = r := by
  simp only [List.cons.injEq, and_true, true_and] at h
  omega

/-- C18 (as stated, refuted).  In the payload `stop`, newline, `motv 3 3`, newline, the
character at position 10 is `3` (51); replacing it by `4` (52) leaves the checksum field
written by `generateCRC` unchanged (`;59`), because the sum stops at the first newline. -/
theorem change_after_newline_undetected :
    (chars "stop\nmotv 3 3\n").get? 10 = some 51 ∧
    (chars "stop\nmotv 3 3\n").set 10 52 = chars "stop\nmotv 4 3\n" ∧
    (generateCRC (chars "stop\nmotv 3 3\n")).1 = chars ";59" ∧
    (generateCRC ((chars "stop\nmotv 3 3\n").set 10 52)).1 = chars ";59" := by
  decide

/-- C18 (amended).  For every payload `pre ++ a :: post` whose byte `a` lies in 32..126,
replacing `a` by a different byte `b` in 32..126 changes the checksum field written by
`generateCRC` when the position is before the first newline of the payload (no newline in
`pre`), and changes the checksum value `q1` that `crcCheck` recomputes over the text
after the checksum field at every position, while the number `q2` read from the two digits
stays the same. -/
theorem single_byte_change_detected (pre post : List Int) (a b : Int)
    (ha : 32 ≤ a ∧ a ≤ 126) (hb : 32 ≤ b ∧ b ≤ 126) (hab : a ≠ b) :
    (10 ∉ pre → (generateCRC (pre ++ a :: post)).1 ≠ (generateCRC (pre ++ b :: post)).1) ∧
    (∀ d1 d2 : Int, isdigit d1 = true → isdigit d2 = true →
      ∃ q1 q1b q2 : Int,
        crcCheckQ (59 :: d1 :: d2 :: (pre ++ a :: post)) = some (q1, q2) ∧
        crcCheckQ (59 :: d1 :: d2 :: (pre ++ b :: post)) = some (q1b, q2) ∧ q1 ≠ q1b) := by
  constructor
  · intro hpre
    have ha10 : a ≠ 10 := by omega
    have hb10 : b ≠ 10 := by omega
    rw [generateCRC_eq, generateCRC_eq, uptoNewline_append pre a post hpre ha10,
      uptoNewline_append pre b post hpre hb10, sum_with_byte pre a _ ha.1,
      sum_with_byte pre b _ hb.1]
    intro heq
    exact checksum_differs _ _ a b ha hb hab (field_injective _ _ heq)
  · intro d1 d2 h1 h2
    have hP := sumFromSpace_nonneg pre
    have hQ := sumFromSpace_nonneg post
    have hSa : 0 ≤ sumFromSpace pre + a + sumFromSpace post := by omega
    have hSb : 0 ≤ sumFromSpace pre + b + sumFromSpace post := by omega
    obtain ⟨ea, _, _⟩ := tmod_checksum_range _ hSa
    obtain ⟨eb, _, _⟩ := tmod_checksum_range _ hSb
    refine ⟨(sumFromSpace pre + a + sumFromSpace post) % 99 + 1,
      (sumFromSpace pre + b + sumFromSpace post) % 99 + 1, (d1 - 48) * 10 + d2 - 48, ?_, ?_,
      checksum_differs _ _ a b ha hb hab⟩
    · simp only [crcCheckQ, h1, h2, Bool.and_self, if_true, crcCheckLoop_eq, zero_add,
        sum_with_byte pre a post ha.1, ea]
    · simp only [crcCheckQ, h1, h2, Bool.and_self, if_true, crcCheckLoop_eq, zero_add,
        sum_with_byte pre b post hb.1, eb]

/-- Witness of `single_byte_change_detected`: in `motv 3 3` the first `3` replaced by `4`
changes the field of `generateCRC` from `;27` to `;28`, and the recomputed checksum of a
received line from 27 to 28. -/
theorem single_byte_change_detected_witness :
    ((32 : Int) ≤ 51 ∧ (51 : Int) ≤ 126) ∧ ((32 : Int) ≤ 52 ∧ (52 : Int) ≤ 126) ∧
    (51 : Int) ≠ 52 ∧ 10 ∉ chars "motv " ∧
    (generateCRC (chars "motv " ++ 51 :: chars " 3\n")).1
      ≠ (generateCRC (chars "motv " ++ 52 :: chars " 3\n")).1 ∧
    (∃ q1 q1b q2 : Int,
      crcCheckQ (59 :: 50 :: 54 :: (chars "motv " ++ 51 :: chars " 3\n")) = some (q1, q2) ∧
      crcCheckQ (59 :: 50 :: 54 :: (chars "motv " ++ 52 :: chars " 3\n")) = some (q1b, q2) ∧
      q1 ≠ q1b) :=
  ⟨by decide, by decide, by decide, by decide,
   (single_byte_change_detected (chars "motv ") (chars " 3\n") 51 52 (by decide) (by decide)
      (by decide)).1 (by decide),
   (single_byte_change_detected (chars "motv ") (chars " 3\n") 51 52 (by decide) (by decide)
      (by decide)).2 50 54 (by decide) (by decide)⟩

end STeensy

namespace MEdge

/-! ### Calibration check of the line sensor -/

/-- After `setup` the flag `calibrationValid` holds the result of the last pass of the
loop: the test of sensor 7 alone. -/
lemma setup_calibrationValid (s : MEdge) (white black : Nat → Int) (threshold : Int)
    (width : ℚ) :
    (setup s white black threshold width).calibrationValid
      = decide (white 7 - black 7 > 10) := rfl

/-- C16 (code evaluated at the failing input).  With the white calibration values
`0 1000 1000 1000 1000 1000 1000 1000` and the black values all 0, sensor 0 has the
degenerate range 0, yet `setup` leaves `calibrationValid` true, because every pass of its
loop overwrites the flag and only sensor 7 (range 1000) decides; `findEdge` then divides by
the range 0 of sensor 0.  With the white value 5 for sensor 0 (a range of 5, not more than
10) `calibrationValid` is true as well and `findEdge` reports `edgeValid` true. -/
theorem calibration_flag_from_last_sensor :
    (calibrated 0).calibWhite 0 - (calibrated 0).calibBlack 0 = 0 ∧
    (calibrated 0).calibrationValid = true ∧
    dividesByZero (calibrated 0) midLine = true ∧
    (calibrated 5).calibWhite 0 - (calibrated 5).calibBlack 0 = 5 ∧
    (calibrated 5).calibrationValid = true ∧
    reportsValid (calibrated 5) midLine = some true := by
  decide

end MEdge

namespace CHeading

/-! ### Clamp and anti-windup of the heading controller -/

lemma runStep_control (s : CHeading) (pose : MPose) (motorLimited : Bool) (mixer : CMixer)
    (hnew : pose.updateCnt ≠ s.poseUpdateCnt) (hdt : stepDt s pose < 1) :
    (runStep s pose motorLimited mixer).1.pid
      = (s.pid.pid (stepDesired s pose) pose.h s.limited).2 ∧
    (runStep s pose motorLimited mixer).1.limited
      = (decide (fabsf (raw s pose) > s.maxTurnrate) || motorLimited) ∧
    (runStep s pose motorLimited mixer).1.u
      = (if decide (fabsf (raw s pose) > s.maxTurnrate) || motorLimited then
          (if raw s pose > s.maxTurnrate then s.maxTurnrate
           else if raw s pose < -s.maxTurnrate then -s.maxTurnrate else raw s pose)
         else raw s pose) ∧
    (runStep s pose motorLimited mixer).1.maxTurnrate = s.maxTurnrate := by
  unfold stepDt at hdt
  unfold raw stepDesired stepDt
  simp only [runStep, if_pos hnew, if_pos hdt]
  generalize (if s.turnrateControl = true
    then s.desiredHeading + s.turnrateRef * UTime.getDecSec pose.poseTime s.lastPose
    else s.headingRef) = d
  cases hc : (decide (fabsf (s.pid.pid d pose.h s.limited).1 > s.maxTurnrate) || motorLimited)
  · simp
  · simp

/-- In every iteration the integrator state either stays or is the one of the PID call
made with the controller's own `limited` flag. -/
lemma runStep_integrator (s : CHeading) (pose : MPose) (motorLimited : Bool) (mixer : CMixer)
    (hlim : s.limited = true) :
    (runStep s pose motorLimited mixer).1.pid.ui1 = s.pid.ui1 := by
  unfold runStep
  by_cases hnew : pose.updateCnt ≠ s.poseUpdateCnt
  · simp only [if_pos hnew]
    generalize (if s.turnrateControl = true
      then s.desiredHeading + s.turnrateRef * UTime.getDecSec pose.poseTime s.lastPose
      else s.headingRef) = d
    by_cases hdt : UTime.getDecSec pose.poseTime s.lastPose < 1
    · simp only [if_pos hdt]
      cases hc : (decide (fabsf (s.pid.pid d pose.h s.limited).1 > s.maxTurnrate)
        || motorLimited)
      · simp [UPID.pid, hlim]
      · simp [UPID.pid, hlim]
    · simp only [if_neg hdt]
  · rw [if_neg hnew]

/-- C21.  After every heading controller step with a new pose sample, elapsed time below 1 s
and `maxTurnrate >= 0`: the published turn-rate `u` has magnitude at most `maxTurnrate`;
`limited` is true exactly when the raw PID output exceeded `maxTurnrate` in magnitude or
`motor.limited` was set; the PID call of the step was made with the `limited` flag left by
the previous step as `limitingIsActive`; and when `motor.limited` was set, the integrator
state `ui1` does not change in the following iteration, whatever its inputs. -/
theorem heading_clamp (s : CHeading) (pose : MPose) (motorLimited : Bool) (mixer : CMixer)
    (hnew : pose.updateCnt ≠ s.poseUpdateCnt) (hdt : stepDt s pose < 1)
    (hmax : 0 ≤ s.maxTurnrate) :
    fabsf (runStep s pose motorLimited mixer).1.u ≤ s.maxTurnrate ∧
    ((runStep s pose motorLimited mixer).1.limited = true ↔
      (fabsf (raw s pose) > s.maxTurnrate ∨ motorLimited = true)) ∧
    (runStep s pose motorLimited mixer).1.pid
      = (s.pid.pid (stepDesired s pose) pose.h s.limited).2 ∧
    (runStep s pose motorLimited mixer).1.pid.limited = s.limited ∧
    (runStep s pose motorLimited mixer).2
      = mixer.updateWheelVelocity (runStep s pose motorLimited mixer).1 ∧
    (motorLimited = true →
      ∀ (pose2 : MPose) (motorLimited2 : Bool) (mixer2 : CMixer),
        (runStep (runStep s pose motorLimited mixer).1 pose2 motorLimited2 mixer2).1.pid.ui1
          = (runStep s pose motorLimited mixer).1.pid.ui1) := by
  obtain ⟨hp, hl, hu, _⟩ := runStep_control s pose motorLimited mixer hnew hdt
  refine ⟨?_, ?_, hp, ?_, ?_, ?_⟩
  · rw [hu, CMotor.fabsf_eq_abs]
    by_cases hc : (decide (fabsf (raw s pose) > s.maxTurnrate) || motorLimited) = true
    · rw [if_pos hc]
      split
      · rw [abs_of_nonneg hmax]
      · split
        · rw [abs_neg, abs_of_nonneg hmax]
        · rw [abs_le]; constructor <;> linarith
    · rw [if_neg hc]
      have hc2 : ¬ (fabsf (raw s pose) > s.maxTurnrate) := by
        intro h; exact hc (by simp [h])
      rw [CMotor.fabsf_eq_abs] at hc2
      exact not_lt.mp hc2
  · rw [hl]
    simp only [Bool.or_eq_true, decide_eq_true_eq]
  · rw [hp]; rfl
  · simp only [runStep, if_pos hnew]
  · intro hm pose2 motorLimited2 mixer2
    apply runStep_integrator
    rw [hl, hm, Bool.or_true]

/-- Witness of `heading_clamp`: `sampleHeading` with reference 1 rad at heading 0 has the
raw output 10.1, which is clamped to 3 rad/s with `limited` set. -/
theorem heading_clamp_witness :
    samplePose.updateCnt ≠ sampleHeading.poseUpdateCnt ∧
    stepDt sampleHeading samplePose < 1 ∧ (0 : ℚ) ≤ sampleHeading.maxTurnrate ∧
    fabsf (runStep sampleHeading samplePose true (CMixer.constructed (22 / 100) 0 0)).1.u
      ≤ sampleHeading.maxTurnrate ∧
    (runStep (runStep sampleHeading samplePose true (CMixer.constructed (22 / 100) 0 0)).1
        nextPose false (CMixer.constructed (22 / 100) 0 0)).1.pid.ui1
      = (runStep sampleHeading samplePose true (CMixer.constructed (22 / 100) 0 0)).1.pid.ui1 :=
  ⟨by decide,
   by norm_num [stepDt, UTime.getDecSec, sampleHeading, samplePose],
   by norm_num [sampleHeading],
   (heading_clamp sampleHeading samplePose true (CMixer.constructed (22 / 100) 0 0)
      (by decide) (by norm_num [stepDt, UTime.getDecSec, sampleHeading, samplePose])
      (by norm_num [sampleHeading])).1,
   (heading_clamp sampleHeading samplePose true (CMixer.constructed (22 / 100) 0 0)
      (by decide) (by norm_num [stepDt, UTime.getDecSec, sampleHeading, samplePose])
      (by norm_num [sampleHeading])).2.2.2.2.2 rfl nextPose false
      (CMixer.constructed (22 / 100) 0 0)⟩

end CHeading

namespace CMixer

/-! ### What a re-evaluation of the mixer keeps and writes -/

/-- Source function `updateVelocities` keeps the inputs of the mixer, advances `updateCnt` by one and
hands the reference of the current mode to the heading controller. -/
lemma updateVelocities_frame (s : CMixer) (heading : CHeading) :
    (updateVelocities s heading).1.headingMode = s.headingMode ∧
    (updateVelocities s heading).1.autoTurnrateRef = s.autoTurnrateRef ∧
    (updateVelocities s heading).1.autoLinVel = s.autoLinVel ∧
    (updateVelocities s heading).1.desiredHeading = s.desiredHeading ∧
    (updateVelocities s heading).1.manualOverride = s.manualOverride ∧
    (updateVelocities s heading).1.updateCnt = s.updateCnt + 1 := by
  cases hm : s.manualOverride <;>
    simp [updateVelocities, updateWheelVelocity, hm]

lemma updateVelocities_autonomous (s : CMixer) (heading : CHeading)
    (hauto : s.manualOverride = false) :
    (updateVelocities s heading).2.turnrateControl
      = decide (s.headingMode ≠ HeadingMode.HM_ABS_HEADING) ∧
    (updateVelocities s heading).2.turnrateRef = s.autoTurnrateRef ∧
    (updateVelocities s heading).2.headingRef = s.desiredHeading := by
  simp [updateVelocities, hauto, CHeading.setRef]

lemma setTurnrate_frame (m : CMixer) (heading : CHeading) (w : ℚ) :
    (m.setTurnrate heading w).1.headingMode = HeadingMode.HM_TURNRATE ∧
    (m.setTurnrate heading w).1.autoTurnrateRef = w ∧
    (m.setTurnrate heading w).1.manualOverride = m.manualOverride :=
  ⟨(updateVelocities_frame _ _).1, (updateVelocities_frame _ _).2.1,
   (updateVelocities_frame _ _).2.2.2.2.1⟩

lemma setInModeTurnrate_frame (m : CMixer) (heading : CHeading) (w : ℚ) :
    (m.setInModeTurnrate heading w).1.headingMode = m.headingMode ∧
    (m.setInModeTurnrate heading w).1.autoTurnrateRef = w ∧
    (m.manualOverride = false → (m.setInModeTurnrate heading w).2.turnrateRef = w) :=
  ⟨(updateVelocities_frame _ _).1, (updateVelocities_frame _ _).2.1,
   fun hauto => (updateVelocities_autonomous { m with autoTurnrateRef := w } heading hauto).2.1⟩

end CMixer

namespace CEdge

/-! ### The edge controller outside edge-follow mode -/

lemma edgeStep_idle (s : CEdge) (cnt : Int) (medge : MEdge) (ml : Bool) (mixer : CMixer)
    (heading : CHeading) (hmode : mixer.headingMode ≠ HeadingMode.HM_EDGE)
    (hen : s.wasEnabled = false) :
    (runStep s cnt medge ml mixer heading).2 = (mixer, heading) ∧
    (runStep s cnt medge ml mixer heading).1.wasEnabled = false ∧
    (runStep s cnt medge ml mixer heading).1.pid = s.pid ∧
    (runStep s cnt medge ml mixer heading).1.u = s.u ∧
    (runStep s cnt medge ml mixer heading).1.limited = s.limited := by
  unfold runStep
  by_cases hnew : cnt ≠ s.updateCnt
  · simp [if_pos hnew, if_neg hmode, hen]
  · rw [if_neg hnew]
    exact ⟨rfl, hen, rfl, rfl, rfl⟩

lemma runSteps_idle : ∀ (samples : List Sample) (s : CEdge) (mixer : CMixer)
    (heading : CHeading), mixer.headingMode ≠ HeadingMode.HM_EDGE → s.wasEnabled = false →
    (runSteps samples (s, mixer, heading)).2 = (mixer, heading)
  | [], _, _, _, _, _ => rfl
  | a :: rest, s, mixer, heading, hmode, hen => by
    obtain ⟨h2, h1, _⟩ := edgeStep_idle s a.updateCnt a.medge a.motorLimited mixer heading hmode hen
    show (runSteps rest (runStep s a.updateCnt a.medge a.motorLimited mixer heading)).2 = _
    have hst : runStep s a.updateCnt a.medge a.motorLimited mixer heading
        = ((runStep s a.updateCnt a.medge a.motorLimited mixer heading).1, mixer, heading) := by
      rw [← h2]
    rw [hst]
    exact runSteps_idle rest _ mixer heading hmode h1

lemma runStep_leaving (s : CEdge) (cnt : Int) (medge : MEdge) (ml : Bool) (mixer : CMixer)
    (heading : CHeading) (hmode : mixer.headingMode ≠ HeadingMode.HM_EDGE)
    (hen : s.wasEnabled = true) (hnew : cnt ≠ s.updateCnt) :
    runStep s cnt medge ml mixer heading
      = ({ s with wasEnabled := false, u := 0, pid := s.pid.resetHistory, updateCnt := cnt },
         (mixer.setInModeTurnrate heading 0).1, (mixer.setInModeTurnrate heading 0).2) := by
  unfold runStep
  simp only [if_pos hnew, if_neg hmode, hen, if_true]

/-- C22 (as stated, refuted).  The edge controller `enabledEdge` has handled a sample in
edge-follow mode.  Then `mixer.setTurnrate(1/2)` leaves edge-follow mode with the autonomous
turn-rate reference 1/2; the next step of the edge controller, in turn-rate mode, sets that
reference to 0. -/
theorem leaving_step_clears_turnrate :
    enabledEdge.wasEnabled = true ∧
    (edgeMixer.setTurnrate CHeading.sampleHeading (1 / 2)).1.headingMode
      = HeadingMode.HM_TURNRATE ∧
    (edgeMixer.setTurnrate CHeading.sampleHeading (1 / 2)).1.autoTurnrateRef = 1 / 2 ∧
    (runStep enabledEdge 2 (edgeAt 0) false
        (edgeMixer.setTurnrate CHeading.sampleHeading (1 / 2)).1
        (edgeMixer.setTurnrate CHeading.sampleHeading (1 / 2)).2).2.1.autoTurnrateRef = 0 ∧
    (runStep enabledEdge 2 (edgeAt 0) false
        (edgeMixer.setTurnrate CHeading.sampleHeading (1 / 2)).1
        (edgeMixer.setTurnrate CHeading.sampleHeading (1 / 2)).2).2.2.turnrateRef = 0 := by
  have hen : enabledEdge.wasEnabled = true := rfl
  have hcnt : (2 : Int) ≠ enabledEdge.updateCnt := by
    have : enabledEdge.updateCnt = 1 := rfl
    rw [this]; decide
  have hmode : (edgeMixer.setTurnrate CHeading.sampleHeading (1 / 2)).1.headingMode
      = HeadingMode.HM_TURNRATE := (CMixer.setTurnrate_frame _ _ _).1
  have hne : (edgeMixer.setTurnrate CHeading.sampleHeading (1 / 2)).1.headingMode
      ≠ HeadingMode.HM_EDGE := by rw [hmode]; decide
  refine ⟨hen, hmode, (CMixer.setTurnrate_frame _ _ _).2.1, ?_, ?_⟩
  · rw [runStep_leaving _ _ _ _ _ _ hne hen hcnt]
    exact (CMixer.setInModeTurnrate_frame _ _ _).2.1
  · rw [runStep_leaving _ _ _ _ _ _ hne hen hcnt]
    have hauto : (edgeMixer.setTurnrate CHeading.sampleHeading (1 / 2)).1.manualOverride
        = false := (CMixer.setTurnrate_frame _ _ _).2.2
    exact (CMixer.setInModeTurnrate_frame _ _ _).2.2 hauto

/-- C22 (amended).  `mixer.setTurnrate(w)` leaves edge-follow mode (the mode is turn-rate) with
the autonomous turn-rate reference `w`.  In a state of the mixer whose mode is not edge-follow:
when the edge controller is not enabled (`wasEnabled` false), any number of its steps leave
the mixer and the heading controller unchanged, so a commanded turn-rate is still the
reference; when it is enabled (it handled its last sample in edge-follow mode), its first
step with a new sample calls `setInModeTurnrate(0)`, which sets the autonomous turn-rate
reference to 0 and keeps the mode, and every later step leaves the mixer unchanged. -/
theorem edge_controller_outside_edge_mode (s : CEdge) (mixer : CMixer) (heading : CHeading)
    (hmode : mixer.headingMode ≠ HeadingMode.HM_EDGE) :
    (∀ (m0 : CMixer) (h0 : CHeading) (w : ℚ),
      (m0.setTurnrate h0 w).1.headingMode = HeadingMode.HM_TURNRATE ∧
      (m0.setTurnrate h0 w).1.autoTurnrateRef = w) ∧
    (s.wasEnabled = false → ∀ samples : List Sample,
      (runSteps samples (s, mixer, heading)).2 = (mixer, heading)) ∧
    (s.wasEnabled = true → ∀ a : Sample, a.updateCnt ≠ s.updateCnt →
      ∀ samples : List Sample,
        (runSteps (a :: samples) (s, mixer, heading)).2 = mixer.setInModeTurnrate heading 0 ∧
        (runSteps (a :: samples) (s, mixer, heading)).2.1.autoTurnrateRef = 0 ∧
        (runSteps (a :: samples) (s, mixer, heading)).2.1.headingMode = mixer.headingMode) := by
  refine ⟨fun m0 h0 w => ⟨(CMixer.setTurnrate_frame _ _ _).1,
      (CMixer.setTurnrate_frame _ _ _).2.1⟩,
    fun hen samples => runSteps_idle samples s mixer heading hmode hen, ?_⟩
  intro hen a hnew samples
  have hm1 : (mixer.setInModeTurnrate heading 0).1.headingMode = mixer.headingMode :=
    (CMixer.setInModeTurnrate_frame _ _ _).1
  have hstep : (runSteps (a :: samples) (s, mixer, heading)).2
      = mixer.setInModeTurnrate heading 0 := by
    show (runSteps samples (runStep s a.updateCnt a.medge a.motorLimited mixer heading)).2 = _
    rw [runStep_leaving s _ _ _ mixer heading hmode hen hnew]
    exact runSteps_idle samples _ _ _ (by rw [hm1]; exact hmode) rfl
  refine ⟨hstep, ?_, ?_⟩
  · rw [hstep]; exact (CMixer.setInModeTurnrate_frame _ _ _).2.1
  · rw [hstep]; exact hm1

/-- Witness of `edge_controller_outside_edge_mode`: the mixer after `setTurnrate(1/2)`; the
controller `sampleEdge`, not enabled, leaves the reference 1/2 over two samples. -/
theorem edge_controller_outside_edge_mode_witness :
    (edgeMixer.setTurnrate CHeading.sampleHeading (1 / 2)).1.headingMode
      ≠ HeadingMode.HM_EDGE ∧
    sampleEdge.wasEnabled = false ∧
    (runSteps [⟨1, edgeAt 0, false⟩, ⟨2, edgeAt 0, false⟩]
      (sampleEdge, (edgeMixer.setTurnrate CHeading.sampleHeading (1 / 2)).1,
        (edgeMixer.setTurnrate CHeading.sampleHeading (1 / 2)).2)).2
      = ((edgeMixer.setTurnrate CHeading.sampleHeading (1 / 2)).1,
         (edgeMixer.setTurnrate CHeading.sampleHeading (1 / 2)).2) :=
  ⟨by rw [(CMixer.setTurnrate_frame _ _ _).1]; decide, rfl,
   (edge_controller_outside_edge_mode sampleEdge
      (edgeMixer.setTurnrate CHeading.sampleHeading (1 / 2)).1
      (edgeMixer.setTurnrate CHeading.sampleHeading (1 / 2)).2
      (by rw [(CMixer.setTurnrate_frame _ _ _).1]; decide)).2.1 rfl
      [⟨1, edgeAt 0, false⟩, ⟨2, edgeAt 0, false⟩]⟩

end CEdge

namespace CEdge

/-! ### Leaving edge-follow mode -/

/-- The output of `UPID::pid` is determined by the configuration, the history, the two
inputs and the limiting flag. -/
lemma pid_output_eq (p q : UPID) (hs : SameSetup p q) (he : p.ep1 = q.ep1)
    (hu : p.up1 = q.up1) (hi : p.ui1 = q.ui1) (r m : ℚ) (l : Bool) :
    (p.pid r m l).1 = (q.pid r m l).1 := by
  obtain ⟨h1, h2, h3, h4, h5, h6, h7⟩ := hs
  simp only [UPID.pid, h1, h2, h3, h4, h5, h6, h7, he, hu, hi]

/-- A step of the edge controller never changes the configuration of its PID controller. -/
lemma runStep_sameSetup (s : CEdge) (cnt : Int) (medge : MEdge) (ml : Bool) (mixer : CMixer)
    (heading : CHeading) : SameSetup s.pid (runStep s cnt medge ml mixer heading).1.pid := by
  unfold runStep
  by_cases hnew : cnt ≠ s.updateCnt
  · rw [if_pos hnew]
    by_cases hmode : mixer.headingMode = HeadingMode.HM_EDGE
    · rw [if_pos hmode]
      by_cases hv : medge.edgeValid = true
      · simp only [hv, if_true]
        repeat' split
        all_goals exact ⟨rfl, rfl, rfl, rfl, rfl, rfl, rfl⟩
      · simp only [hv]
        exact ⟨rfl, rfl, rfl, rfl, rfl, rfl, rfl⟩
    · rw [if_neg hmode]
      split <;> exact ⟨rfl, rfl, rfl, rfl, rfl, rfl, rfl⟩
  · rw [if_neg hnew]
    exact ⟨rfl, rfl, rfl, rfl, rfl, rfl, rfl⟩

/-- C23 (as stated, refuted).  The controller `sampleEdge` (integrator in use) handles one
sample in edge-follow mode while `motor.limited` is set, which sets its `limited` flag, and
then one sample in turn-rate mode: the output is 0 and the PID history is reset, but `limited`
is still true.  On re-entering edge-follow mode with the edge at -1 m its PID call gives the
output -1, whereas the freshly configured controller `sampleEdge` gives -3/2 for the same
input. -/
theorem reentry_differs_from_fresh :
    enabledEdge.wasEnabled = true ∧ enabledEdge.limited = true ∧
    afterLeaving.u = 0 ∧ afterLeaving.pid.ep1 = 0 ∧ afterLeaving.pid.up1 = 0 ∧
    afterLeaving.pid.ui1 = 0 ∧ afterLeaving.limited = true ∧
    (runStep afterLeaving 3 (edgeAt (-1)) false edgeMixer CHeading.sampleHeading).1.u = -1 ∧
    (runStep sampleEdge 3 (edgeAt (-1)) false edgeMixer CHeading.sampleHeading).1.u = -3 / 2 := by
  have hl : enabledEdge.limited = true := by
    simp [enabledEdge, runStep, sampleEdge, edgeAt, edgeMixer, MEdge.constructed,
      CMixer.constructed, UPID.pid, UPID.setup, UPID.constructed]
    norm_num
  have hleave : afterLeaving
      = { enabledEdge with wasEnabled := false, u := 0, pid := enabledEdge.pid.resetHistory,
                           updateCnt := 2 } := by
    unfold afterLeaving
    rw [runStep_leaving enabledEdge 2 _ _ turnrateMixer _ (by decide) rfl
      (by have : enabledEdge.updateCnt = 1 := rfl
          rw [this]; decide)]
  refine ⟨rfl, hl, ?_, ?_, ?_, ?_, ?_, ?_, ?_⟩
  · rw [hleave]
  · rw [hleave]; rfl
  · rw [hleave]; rfl
  · rw [hleave]; rfl
  · rw [hleave]; exact hl
  · rw [hleave]
    simp [runStep, hl, enabledEdge, sampleEdge, edgeAt, edgeMixer, MEdge.constructed,
      CMixer.constructed, UPID.pid, UPID.setup, UPID.constructed, UPID.resetHistory]
    norm_num
  · simp [runStep, sampleEdge, edgeAt, edgeMixer, MEdge.constructed,
      CMixer.constructed, UPID.pid, UPID.setup, UPID.constructed]
    norm_num

/-- C23 (amended).  On the first sample the edge controller handles in a mode other than
edge-follow after a sample handled in edge-follow mode, its output `u` is set to 0 and its
PID history is reset (`ep1 = up1 = ui1 = 0`), while its `limited` flag is kept; so the PID
output after re-entering edge-follow mode equals that of a freshly configured controller
(same configuration, zero history) for the same input and the same limiting flag. -/
theorem leaving_edge_mode (s : CEdge) (cnt : Int) (medge : MEdge) (ml : Bool)
    (mixer : CMixer) (heading : CHeading)
    (hmode : mixer.headingMode ≠ HeadingMode.HM_EDGE) (hen : s.wasEnabled = true)
    (hnew : cnt ≠ s.updateCnt) :
    (runStep s cnt medge ml mixer heading).1.u = 0 ∧
    (runStep s cnt medge ml mixer heading).1.pid.ep1 = 0 ∧
    (runStep s cnt medge ml mixer heading).1.pid.up1 = 0 ∧
    (runStep s cnt medge ml mixer heading).1.pid.ui1 = 0 ∧
    (runStep s cnt medge ml mixer heading).1.limited = s.limited ∧
    (runStep s cnt medge ml mixer heading).1.wasEnabled = false ∧
    (∀ fresh : UPID, SameSetup fresh s.pid →
      fresh.ep1 = 0 → fresh.up1 = 0 → fresh.ui1 = 0 →
      ∀ (r m : ℚ) (l : Bool),
        ((runStep s cnt medge ml mixer heading).1.pid.pid r m l).1 = (fresh.pid r m l).1) := by
  rw [runStep_leaving s cnt medge ml mixer heading hmode hen hnew]
  refine ⟨rfl, rfl, rfl, rfl, rfl, rfl, ?_⟩
  intro fresh hs he hu hi r m l
  obtain ⟨h1, h2, h3, h4, h5, h6, h7⟩ := hs
  exact pid_output_eq s.pid.resetHistory fresh
    ⟨h1.symm, h2.symm, h3.symm, h4.symm, h5.symm, h6.symm, h7.symm⟩
    he.symm hu.symm hi.symm r m l

/-- Witness of `leaving_edge_mode`: `enabledEdge` leaves edge-follow mode; with the limiting
flag false its next PID output for the edge at -1 m is that of the fresh `sampleEdge.pid`. -/
theorem leaving_edge_mode_witness :
    turnrateMixer.headingMode ≠ HeadingMode.HM_EDGE ∧ enabledEdge.wasEnabled = true ∧
    (2 : Int) ≠ enabledEdge.updateCnt ∧
    afterLeaving.u = 0 ∧
    (afterLeaving.pid.pid 0 (-1) false).1 = (sampleEdge.pid.pid 0 (-1) false).1 :=
  ⟨by decide, rfl, by decide,
   (leaving_edge_mode enabledEdge 2 (edgeAt 0) false turnrateMixer CHeading.sampleHeading
      (by decide) rfl (by decide)).1,
   (leaving_edge_mode enabledEdge 2 (edgeAt 0) false turnrateMixer CHeading.sampleHeading
      (by decide) rfl (by decide)).2.2.2.2.2.2 sampleEdge.pid
      (runStep_sameSetup sampleEdge 1 (edgeAt 0) true edgeMixer CHeading.sampleHeading)
      rfl rfl rfl 0 (-1) false⟩

end CEdge

namespace MPose

/-! ### Wheel velocity without new ticks -/

lemma copysignOne_abs (v : ℚ) : copysignOne v = 1 ∨ copysignOne v = -1 := by
  unfold copysignOne
  split
  · exact Or.inr rfl
  · exact Or.inl rfl

/-- One pass of the wheel loop for a wheel whose count is unchanged. -/
lemma wheelStep_unchanged (dpt : ℚ) (t : UTime) (enc : Int) (tl : UTime) (v : ℚ)
    (hd : 0 < dpt) (hdt : 0 < UTime.getDecSec t tl) :
    (wheelStep dpt t enc enc tl v).wheelVel = copysignOne v * dpt / UTime.getDecSec t tl ∧
    fabsf (wheelStep dpt t enc enc tl v).wheelVel = dpt / UTime.getDecSec t tl ∧
    (0 ≤ v → 0 < (wheelStep dpt t enc enc tl v).wheelVel) ∧
    (v < 0 → (wheelStep dpt t enc enc tl v).wheelVel < 0) ∧
    (wheelStep dpt t enc enc tl v).encLast = enc ∧
    (wheelStep dpt t enc enc tl v).encTimeLast = tl := by
  have hv : (wheelStep dpt t enc enc tl v).wheelVel
      = copysignOne v * dpt / UTime.getDecSec t tl := by
    simp [wheelStep]
  have hq : 0 < dpt / UTime.getDecSec t tl := div_pos hd hdt
  refine ⟨hv, ?_, ?_, ?_, by simp [wheelStep], by simp [wheelStep]⟩
  · rw [hv, CMotor.fabsf_eq_abs, mul_div_assoc, abs_mul, abs_of_pos hq]
    rcases copysignOne_abs v with h | h <;> rw [h] <;> simp
  · intro h0
    have hc : copysignOne v = 1 := by
      unfold copysignOne
      rw [if_neg (not_lt.mpr h0)]
    rw [hv, hc, one_mul]
    exact hq
  · intro h0
    have hc : copysignOne v = -1 := by
      unfold copysignOne
      rw [if_pos h0]
    rw [hv, hc, mul_div_assoc]
    linarith

/-- What a processed sample stores for the two wheels. -/
lemma runStep_wheels (cosf sinf : ℚ → ℚ) (s : MPose) (encoder : SEncoder)
    (hnew : encoder.updateCnt ≠ s.encoderUpdateCnt) :
    (runStep cosf sinf s encoder).wheelVel0
      = (wheelStep s.distPerTick encoder.encTime encoder.enc0
          (encLastUsed s.loop encoder.enc0 s.encLast0) s.encTimeLast0 s.wheelVel0).wheelVel ∧
    (runStep cosf sinf s encoder).wheelVel1
      = (wheelStep s.distPerTick encoder.encTime encoder.enc1
          (encLastUsed s.loop encoder.enc1 s.encLast1) s.encTimeLast1 s.wheelVel1).wheelVel ∧
    (runStep cosf sinf s encoder).encLast0
      = (wheelStep s.distPerTick encoder.encTime encoder.enc0
          (encLastUsed s.loop encoder.enc0 s.encLast0) s.encTimeLast0 s.wheelVel0).encLast ∧
    (runStep cosf sinf s encoder).encLast1
      = (wheelStep s.distPerTick encoder.encTime encoder.enc1
          (encLastUsed s.loop encoder.enc1 s.encLast1) s.encTimeLast1 s.wheelVel1).encLast ∧
    (runStep cosf sinf s encoder).encTimeLast0
      = (wheelStep s.distPerTick encoder.encTime encoder.enc0
          (encLastUsed s.loop encoder.enc0 s.encLast0) s.encTimeLast0 s.wheelVel0).encTimeLast ∧
    (runStep cosf sinf s encoder).encTimeLast1
      = (wheelStep s.distPerTick encoder.encTime encoder.enc1
          (encLastUsed s.loop encoder.enc1 s.encLast1) s.encTimeLast1 s.wheelVel1).encTimeLast ∧
    (runStep cosf sinf s encoder).distPerTick = s.distPerTick ∧
    (runStep cosf sinf s encoder).encoderUpdateCnt = encoder.updateCnt := by
  simp only [runStep, if_pos hnew]
  exact ⟨trivial, trivial, trivial, trivial, trivial, trivial, trivial, trivial⟩

lemma encLastUsed_same (loop enc : Int) : encLastUsed loop enc enc = enc := by
  unfold encLastUsed
  split <;> rfl

end MPose

namespace MPose

lemma unchanged_wheel0 (cosf sinf : ℚ → ℚ) (s : MPose) (encoder : SEncoder)
    (hnew : encoder.updateCnt ≠ s.encoderUpdateCnt) (hdpt : 0 < s.distPerTick)
    (hsame : encLastUsed s.loop encoder.enc0 s.encLast0 = encoder.enc0)
    (hdt : 0 < UTime.getDecSec encoder.encTime s.encTimeLast0) :
    (runStep cosf sinf s encoder).wheelVel0
      = copysignOne s.wheelVel0 * s.distPerTick
          / UTime.getDecSec encoder.encTime s.encTimeLast0 ∧
    fabsf (runStep cosf sinf s encoder).wheelVel0
      = s.distPerTick / UTime.getDecSec encoder.encTime s.encTimeLast0 ∧
    (0 ≤ s.wheelVel0 → 0 < (runStep cosf sinf s encoder).wheelVel0) ∧
    (s.wheelVel0 < 0 → (runStep cosf sinf s encoder).wheelVel0 < 0) ∧
    (runStep cosf sinf s encoder).encLast0 = encoder.enc0 ∧
    (runStep cosf sinf s encoder).encTimeLast0 = s.encTimeLast0 := by
  obtain ⟨h1, _, h3, _, h5, _, _, _⟩ := runStep_wheels cosf sinf s encoder hnew
  rw [h1, h3, h5, hsame]
  exact wheelStep_unchanged s.distPerTick encoder.encTime encoder.enc0 s.encTimeLast0
    s.wheelVel0 hdpt hdt

lemma unchanged_wheel1 (cosf sinf : ℚ → ℚ) (s : MPose) (encoder : SEncoder)
    (hnew : encoder.updateCnt ≠ s.encoderUpdateCnt) (hdpt : 0 < s.distPerTick)
    (hsame : encLastUsed s.loop encoder.enc1 s.encLast1 = encoder.enc1)
    (hdt : 0 < UTime.getDecSec encoder.encTime s.encTimeLast1) :
    (runStep cosf sinf s encoder).wheelVel1
      = copysignOne s.wheelVel1 * s.distPerTick
          / UTime.getDecSec encoder.encTime s.encTimeLast1 ∧
    fabsf (runStep cosf sinf s encoder).wheelVel1
      = s.distPerTick / UTime.getDecSec encoder.encTime s.encTimeLast1 ∧
    (0 ≤ s.wheelVel1 → 0 < (runStep cosf sinf s encoder).wheelVel1) ∧
    (s.wheelVel1 < 0 → (runStep cosf sinf s encoder).wheelVel1 < 0) ∧
    (runStep cosf sinf s encoder).encLast1 = encoder.enc1 ∧
    (runStep cosf sinf s encoder).encTimeLast1 = s.encTimeLast1 := by
  obtain ⟨_, h2, _, h4, _, h6, _, _⟩ := runStep_wheels cosf sinf s encoder hnew
  rw [h2, h4, h6, hsame]
  exact wheelStep_unchanged s.distPerTick encoder.encTime encoder.enc1 s.encTimeLast1
    s.wheelVel1 hdpt hdt

/-- C24 (code evaluated at the failing input).  From `scenarioState`, where both wheels are
reported at rest (velocity 0), a sample with unchanged counts 0.1 s later reports the left
wheel at `10 * distPerTick` m/s, more than the previous magnitude 0.  And after a sample with
one tick in 1 s, which reports `distPerTick` m/s, a sample with unchanged counts 10 ms later
reports `100 * distPerTick` m/s: the magnitude grows instead of being reduced. -/
theorem rest_wheel_reported_moving :
    scenarioState.wheelVel0 = 0 ∧ 0 < scenarioState.distPerTick ∧
    (runStep (fun a => 1 - a * a / 2) (fun a => a) scenarioState restEncoder).wheelVel0
      = 10 * scenarioState.distPerTick ∧
    (runStep (fun a => 1 - a * a / 2) (fun a => a) scenarioState slowTick).wheelVel0
      = scenarioState.distPerTick ∧
    (runStep (fun a => 1 - a * a / 2) (fun a => a)
      (runStep (fun a => 1 - a * a / 2) (fun a => a) scenarioState slowTick) soonAfter).wheelVel0
      = 100 * scenarioState.distPerTick := by
  have hd : 0 < scenarioState.distPerTick := by
    norm_num [scenarioState, setup, M_PI]
  have h1 := (unchanged_wheel0 (fun a => 1 - a * a / 2) (fun a => a) scenarioState restEncoder
    (by decide) hd (by decide)
    (by norm_num [UTime.getDecSec, restEncoder, scenarioState, setup, scenarioStart,
      constructed])).1
  have hs : (runStep (fun a => 1 - a * a / 2) (fun a => a) scenarioState slowTick).wheelVel0
      = scenarioState.distPerTick := by
    rw [(runStep_wheels _ _ scenarioState slowTick (by decide)).1]
    simp [wheelStep, encLastUsed, slowTick, scenarioState, setup, scenarioStart, constructed,
      UTime.getDecSec]
  have hw := runStep_wheels (fun a => 1 - a * a / 2) (fun a => a) scenarioState slowTick
    (by decide)
  have hl : (runStep (fun a => 1 - a * a / 2) (fun a => a) scenarioState slowTick).encLast0
      = 1 := by
    rw [hw.2.2.1]
    simp [wheelStep, encLastUsed, slowTick, scenarioState, setup, scenarioStart, constructed]
  have ht : (runStep (fun a => 1 - a * a / 2) (fun a => a) scenarioState slowTick).encTimeLast0
      = ⟨1, 0, true⟩ := by
    rw [hw.2.2.2.2.1]
    simp [wheelStep, encLastUsed, slowTick, scenarioState, setup, scenarioStart, constructed]
  have h2 := (unchanged_wheel0 (fun a => 1 - a * a / 2) (fun a => a)
    (runStep (fun a => 1 - a * a / 2) (fun a => a) scenarioState slowTick) soonAfter
    (by rw [hw.2.2.2.2.2.2.2]; decide) (by rw [hw.2.2.2.2.2.2.1]; exact hd)
    (by rw [hl]; unfold encLastUsed; split <;> rfl)
    (by rw [ht]; norm_num [UTime.getDecSec, soonAfter])).1
  refine ⟨rfl, hd, ?_, hs, ?_⟩
  · rw [h1]
    have e0 : scenarioState.wheelVel0 = 0 := rfl
    rw [e0]
    norm_num [copysignOne, UTime.getDecSec, restEncoder, scenarioState, setup, scenarioStart,
      constructed]
    ring
  · rw [h2, hs, ht, hw.2.2.2.2.2.2.1]
    have hc : copysignOne scenarioState.distPerTick = 1 := by
      unfold copysignOne
      rw [if_neg (not_lt.mpr hd.le)]
    rw [hc]
    norm_num [UTime.getDecSec, soonAfter]
    ring

end MPose

namespace MPose

/-- What holds for a wheel without new ticks.  In every processed odometry sample in which a
wheel's encoder count is unchanged, with a positive `distPerTick` and a positive time `dt`
since that wheel's last changed sample: the wheel's reported velocity is `copysign(1, previous velocity)` times
`distPerTick / dt`, so its magnitude is `distPerTick / dt`, it is positive when the previous
velocity was positive or 0 and negative when that was negative; and when the count is
unchanged in the following sample as well, taken no earlier, the magnitude reported there
does not exceed the one reported here.  (Both wheels.) -/
theorem velocity_without_ticks (cosf sinf : ℚ → ℚ) (s : MPose) (encoder : SEncoder)
    (hnew : encoder.updateCnt ≠ s.encoderUpdateCnt) (hdpt : 0 < s.distPerTick) :
    (encLastUsed s.loop encoder.enc0 s.encLast0 = encoder.enc0 →
      0 < UTime.getDecSec encoder.encTime s.encTimeLast0 →
      (runStep cosf sinf s encoder).wheelVel0
        = copysignOne s.wheelVel0 * s.distPerTick
            / UTime.getDecSec encoder.encTime s.encTimeLast0 ∧
      fabsf (runStep cosf sinf s encoder).wheelVel0
        = s.distPerTick / UTime.getDecSec encoder.encTime s.encTimeLast0 ∧
      (0 ≤ s.wheelVel0 → 0 < (runStep cosf sinf s encoder).wheelVel0) ∧
      (s.wheelVel0 < 0 → (runStep cosf sinf s encoder).wheelVel0 < 0) ∧
      (∀ next : SEncoder, next.updateCnt ≠ encoder.updateCnt → next.enc0 = encoder.enc0 →
        UTime.getDecSec encoder.encTime s.encTimeLast0
          ≤ UTime.getDecSec next.encTime s.encTimeLast0 →
        fabsf (runStep cosf sinf (runStep cosf sinf s encoder) next).wheelVel0
          ≤ fabsf (runStep cosf sinf s encoder).wheelVel0)) ∧
    (encLastUsed s.loop encoder.enc1 s.encLast1 = encoder.enc1 →
      0 < UTime.getDecSec encoder.encTime s.encTimeLast1 →
      (runStep cosf sinf s encoder).wheelVel1
        = copysignOne s.wheelVel1 * s.distPerTick
            / UTime.getDecSec encoder.encTime s.encTimeLast1 ∧
      fabsf (runStep cosf sinf s encoder).wheelVel1
        = s.distPerTick / UTime.getDecSec encoder.encTime s.encTimeLast1 ∧
      (0 ≤ s.wheelVel1 → 0 < (runStep cosf sinf s encoder).wheelVel1) ∧
      (s.wheelVel1 < 0 → (runStep cosf sinf s encoder).wheelVel1 < 0) ∧
      (∀ next : SEncoder, next.updateCnt ≠ encoder.updateCnt → next.enc1 = encoder.enc1 →
        UTime.getDecSec encoder.encTime s.encTimeLast1
          ≤ UTime.getDecSec next.encTime s.encTimeLast1 →
        fabsf (runStep cosf sinf (runStep cosf sinf s encoder) next).wheelVel1
          ≤ fabsf (runStep cosf sinf s encoder).wheelVel1)) := by
  have hw := runStep_wheels cosf sinf s encoder hnew
  constructor
  · intro hsame hdt
    obtain ⟨a1, a2, a3, a4, a5, a6⟩ := unchanged_wheel0 cosf sinf s encoder hnew hdpt hsame hdt
    refine ⟨a1, a2, a3, a4, ?_⟩
    intro next hn he hle
    have hdt2 : 0 < UTime.getDecSec next.encTime
        (runStep cosf sinf s encoder).encTimeLast0 := by
      rw [a6]; exact lt_of_lt_of_le hdt hle
    obtain ⟨_, b2, _⟩ := unchanged_wheel0 cosf sinf (runStep cosf sinf s encoder) next
      (by rw [hw.2.2.2.2.2.2.2]; exact hn) (by rw [hw.2.2.2.2.2.2.1]; exact hdpt)
      (by rw [a5, he]; exact encLastUsed_same _ _) hdt2
    rw [b2, a2, a6, hw.2.2.2.2.2.2.1]
    exact div_le_div_of_nonneg_left hdpt.le hdt hle
  · intro hsame hdt
    obtain ⟨a1, a2, a3, a4, a5, a6⟩ := unchanged_wheel1 cosf sinf s encoder hnew hdpt hsame hdt
    refine ⟨a1, a2, a3, a4, ?_⟩
    intro next hn he hle
    have hdt2 : 0 < UTime.getDecSec next.encTime
        (runStep cosf sinf s encoder).encTimeLast1 := by
      rw [a6]; exact lt_of_lt_of_le hdt hle
    obtain ⟨_, b2, _⟩ := unchanged_wheel1 cosf sinf (runStep cosf sinf s encoder) next
      (by rw [hw.2.2.2.2.2.2.2]; exact hn) (by rw [hw.2.2.2.2.2.2.1]; exact hdpt)
      (by rw [a5, he]; exact encLastUsed_same _ _) hdt2
    rw [b2, a2, a6, hw.2.2.2.2.2.2.1]
    exact div_le_div_of_nonneg_left hdpt.le hdt hle

/-- Witness of `velocity_without_ticks`: from `scenarioState` the sample `restEncoder` with
unchanged counts, 0.1 s after the last change, reports the left wheel at a magnitude of
`distPerTick / 0.1`. -/
theorem velocity_without_ticks_witness :
    restEncoder.updateCnt ≠ scenarioState.encoderUpdateCnt ∧ 0 < scenarioState.distPerTick ∧
    encLastUsed scenarioState.loop restEncoder.enc0 scenarioState.encLast0 = restEncoder.enc0 ∧
    0 < UTime.getDecSec restEncoder.encTime scenarioState.encTimeLast0 ∧
    fabsf (runStep (fun a => 1 - a * a / 2) (fun a => a) scenarioState restEncoder).wheelVel0
      = scenarioState.distPerTick
          / UTime.getDecSec restEncoder.encTime scenarioState.encTimeLast0 :=
  ⟨by decide, by norm_num [scenarioState, setup, M_PI], by decide,
   by norm_num [UTime.getDecSec, restEncoder, scenarioState, setup, scenarioStart, constructed],
   ((velocity_without_ticks (fun a => 1 - a * a / 2) (fun a => a) scenarioState restEncoder
      (by decide) (by norm_num [scenarioState, setup, M_PI])).1 (by decide)
      (by norm_num [UTime.getDecSec, restEncoder, scenarioState, setup, scenarioStart,
        constructed])).2.1⟩

end MPose

namespace STeensy

/-! ### A forward step of the clock -/

/-- An iteration that starts with the link open, no recent activity, more than 10 s since
the last received line and no glitch flagged closes the link. -/
lemma runIter_closes (env : Env) (s : STeensy)
    (hopen : s.teensyConnectionOpen = true) (hact : s.gotActivityRecently = false)
    (htime : UTime.getTimePassed s.lastRxTime env.now > 10) (hntp : s.ntpUpdate = false) :
    (runIter env s).teensyConnectionOpen = false ∧ (runIter env s).usbport = -1 := by
  have hc : closeCondition env s = true := by
    simp [closeCondition, hopen, hact, htime, hntp]
  simp [runIter, hc, closeUSB, hopen]

/-- C25 (code evaluated at the failing input).  The link is open, the last line was received
at 5 s and the previous iteration ended at 5 s.  The clock then steps forward by 11 s: the
next three iterations run at 16.001 s, 16.003 s and 16.005 s.  The first one clears
`gotActivityRecently` (more than 2 s since the last line) and flags the glitch; the second one
is protected by the flag and clears it; the third one finds 11.005 s since the last line and
closes the link.  The same happens when a character of a new line is received in each of the
first two iterations. -/
theorem clock_step_closes_link :
    receiving.teensyConnectionOpen = true ∧ receiving.gotActivityRecently = true ∧
    (runIter (clockEnv 16 1000 ReadResult.noData) receiving).teensyConnectionOpen = true ∧
    (runIter (clockEnv 16 1000 ReadResult.noData) receiving).ntpUpdate = true ∧
    (runIter (clockEnv 16 1000 ReadResult.noData) receiving).gotActivityRecently = false ∧
    (runIters [clockEnv 16 1000 ReadResult.noData, clockEnv 16 3000 ReadResult.noData]
      receiving).teensyConnectionOpen = true ∧
    (runIters [clockEnv 16 1000 ReadResult.noData, clockEnv 16 3000 ReadResult.noData]
      receiving).ntpUpdate = false ∧
    (runIters [clockEnv 16 1000 ReadResult.noData, clockEnv 16 3000 ReadResult.noData,
      clockEnv 16 5000 ReadResult.noData] receiving).teensyConnectionOpen = false ∧
    (runIters [clockEnv 16 1000 ReadResult.noData, clockEnv 16 3000 ReadResult.noData,
      clockEnv 16 5000 ReadResult.noData] receiving).usbport = -1 ∧
    (runIters [clockEnv 16 1000 (ReadResult.byte 59), clockEnv 16 3000 (ReadResult.byte 50),
      clockEnv 16 5000 (ReadResult.byte 50)] receiving).teensyConnectionOpen = false := by
  have hA : runIter (clockEnv 16 1000 ReadResult.noData) receiving
      = { receiving with gotActivityRecently := false, readIdleLoops := 1, ntpUpdate := true,
                         tit9 := ⟨16, 1000, true⟩ } := by
    simp [runIter, closeCondition, connected, identifyPart, activityPart, readPart, runQueue,
      receiving, atRunEntry, clockEnv, UTime.getTimePassed, UTime.getDecSec]
    norm_num
  have hB : runIter (clockEnv 16 3000 ReadResult.noData)
      { receiving with gotActivityRecently := false, readIdleLoops := 1, ntpUpdate := true,
                       tit9 := ⟨16, 1000, true⟩ }
      = { receiving with gotActivityRecently := false, readIdleLoops := 2, ntpUpdate := false,
                         tit9 := ⟨16, 3000, true⟩ } := by
    simp [runIter, closeCondition, connected, identifyPart, activityPart, readPart, runQueue,
      receiving, atRunEntry, clockEnv, UTime.getTimePassed, UTime.getDecSec]
    norm_num
  have hC : ∀ r : ReadResult, (runIter (clockEnv 16 5000 r)
      { receiving with gotActivityRecently := false, readIdleLoops := 2, ntpUpdate := false,
                       tit9 := ⟨16, 3000, true⟩ }).teensyConnectionOpen = false ∧
      (runIter (clockEnv 16 5000 r)
      { receiving with gotActivityRecently := false, readIdleLoops := 2, ntpUpdate := false,
                       tit9 := ⟨16, 3000, true⟩ }).usbport = -1 := by
    intro r
    exact runIter_closes (clockEnv 16 5000 r)
      { receiving with gotActivityRecently := false, readIdleLoops := 2, ntpUpdate := false,
                       tit9 := ⟨16, 3000, true⟩ } rfl rfl
      (by norm_num [receiving, atRunEntry, clockEnv, UTime.getTimePassed, UTime.getDecSec]) rfl
  have hA2 : runIter (clockEnv 16 1000 (ReadResult.byte 59)) receiving
      = { receiving with gotActivityRecently := false, rx := [59], ntpUpdate := true,
                         tit9 := ⟨16, 1000, true⟩ } := by
    simp [runIter, closeCondition, connected, identifyPart, activityPart, readPart, runQueue,
      receiveChar, lineComplete, rxAppend,
      receiving, atRunEntry, clockEnv, UTime.getTimePassed, UTime.getDecSec]
    norm_num
  have hB2 : runIter (clockEnv 16 3000 (ReadResult.byte 50))
      { receiving with gotActivityRecently := false, rx := [59], ntpUpdate := true,
                       tit9 := ⟨16, 1000, true⟩ }
      = { receiving with gotActivityRecently := false, rx := [59, 50], ntpUpdate := false,
                         tit9 := ⟨16, 3000, true⟩ } := by
    simp [runIter, closeCondition, connected, identifyPart, activityPart, readPart, runQueue,
      receiveChar, lineComplete, rxAppend,
      receiving, atRunEntry, clockEnv, UTime.getTimePassed, UTime.getDecSec]
    norm_num
  refine ⟨rfl, rfl, ?_, ?_, ?_, ?_, ?_, ?_, ?_, ?_⟩
  · rw [hA]; rfl
  · rw [hA]
  · rw [hA]
  · simp only [runIters]; rw [hA, hB]; rfl
  · simp only [runIters]; rw [hA, hB]
  · simp only [runIters]; rw [hA, hB]; exact (hC _).1
  · simp only [runIters]; rw [hA, hB]; exact (hC _).2
  · simp only [runIters]
    rw [hA2, hB2]
    exact (runIter_closes (clockEnv 16 5000 (ReadResult.byte 50)) _ rfl rfl
      (by norm_num [receiving, atRunEntry, clockEnv, UTime.getTimePassed, UTime.getDecSec])
      rfl).1

end STeensy

namespace CMixer

/-! ### Re-evaluation of the mixer after an input change -/

/-- After `updateVelocities` the counter has advanced and, in autonomous mode, the reference
of the heading controller agrees with the mixer state; the five setters that end with
`updateVelocities` inherit this. -/
lemma updateVelocities_agrees (s : CMixer) (heading : CHeading) :
    (updateVelocities s heading).1.updateCnt = s.updateCnt + 1 ∧
    ((updateVelocities s heading).1.manualOverride = false →
      (updateVelocities s heading).2.turnrateControl
        = decide ((updateVelocities s heading).1.headingMode ≠ HeadingMode.HM_ABS_HEADING) ∧
      (updateVelocities s heading).2.turnrateRef
        = (updateVelocities s heading).1.autoTurnrateRef ∧
      (updateVelocities s heading).2.headingRef
        = (updateVelocities s heading).1.desiredHeading) := by
  obtain ⟨f1, f2, _, f4, f5, f6⟩ := updateVelocities_frame s heading
  refine ⟨f6, ?_⟩
  intro hauto
  rw [f5] at hauto
  rw [f1, f2, f4]
  exact updateVelocities_autonomous s heading hauto

/-- C26 (code evaluated at the failing input).  After `setDesiredHeading(1)` the mixer is in
absolute-heading mode, `updateCnt` is 1 and the heading controller is in heading mode
(`turnrateControl` false).  The call `setEdgeMode(true, 0)` that follows sets the mode to
edge-follow but does not re-evaluate the mixer: `updateCnt` is still 1 and, in autonomous
mode, the heading controller still has `turnrateControl` false, although the mode is no
longer absolute heading.  The sibling `setTurnrate(0)` from the same state advances
`updateCnt` to 2 and hands over `turnrateControl` true. -/
theorem setEdgeMode_skips_update :
    (setDesiredHeading CEdge.turnrateMixer CHeading.sampleHeading 1).1.updateCnt = 1 ∧
    (setDesiredHeading CEdge.turnrateMixer CHeading.sampleHeading 1).1.manualOverride = false ∧
    (setDesiredHeading CEdge.turnrateMixer CHeading.sampleHeading 1).2.turnrateControl = false ∧
    (setEdgeMode (setDesiredHeading CEdge.turnrateMixer CHeading.sampleHeading 1).1
      CEdge.sampleEdge true 0).1.headingMode = HeadingMode.HM_EDGE ∧
    (setEdgeMode (setDesiredHeading CEdge.turnrateMixer CHeading.sampleHeading 1).1
      CEdge.sampleEdge true 0).1.updateCnt = 1 ∧
    (setEdgeMode (setDesiredHeading CEdge.turnrateMixer CHeading.sampleHeading 1).1
      CEdge.sampleEdge true 0).1.manualOverride = false ∧
    (setEdgeMode (setDesiredHeading CEdge.turnrateMixer CHeading.sampleHeading 1).1
      CEdge.sampleEdge true 0).2.followLeft = true ∧
    (setTurnrate (setDesiredHeading CEdge.turnrateMixer CHeading.sampleHeading 1).1
      (setDesiredHeading CEdge.turnrateMixer CHeading.sampleHeading 1).2 0).1.updateCnt = 2 ∧
    (setTurnrate (setDesiredHeading CEdge.turnrateMixer CHeading.sampleHeading 1).1
      (setDesiredHeading CEdge.turnrateMixer CHeading.sampleHeading 1).2 0).2.turnrateControl
      = true := by
  have hcnt : (setDesiredHeading CEdge.turnrateMixer CHeading.sampleHeading 1).1.updateCnt
      = 1 := (updateVelocities_frame _ _).2.2.2.2.2
  have hman : (setDesiredHeading CEdge.turnrateMixer CHeading.sampleHeading 1).1.manualOverride
      = false := (updateVelocities_frame _ _).2.2.2.2.1
  have hctl : (setDesiredHeading CEdge.turnrateMixer CHeading.sampleHeading 1).2.turnrateControl
      = false :=
    (updateVelocities_autonomous { CEdge.turnrateMixer with
      desiredHeading := 1, headingMode := HeadingMode.HM_ABS_HEADING }
      CHeading.sampleHeading rfl).1
  refine ⟨hcnt, hman, hctl, rfl, hcnt, hman, rfl, ?_, ?_⟩
  · have h := (updateVelocities_frame
      { (setDesiredHeading CEdge.turnrateMixer CHeading.sampleHeading 1).1 with
        autoTurnrateRef := 0, headingMode := HeadingMode.HM_TURNRATE }
      (setDesiredHeading CEdge.turnrateMixer CHeading.sampleHeading 1).2).2.2.2.2.2
    rw [show (setTurnrate (setDesiredHeading CEdge.turnrateMixer CHeading.sampleHeading 1).1
      (setDesiredHeading CEdge.turnrateMixer CHeading.sampleHeading 1).2 0).1.updateCnt
      = (setDesiredHeading CEdge.turnrateMixer CHeading.sampleHeading 1).1.updateCnt + 1
      from h, hcnt]
    rfl
  · exact (updateVelocities_autonomous
      { (setDesiredHeading CEdge.turnrateMixer CHeading.sampleHeading 1).1 with
        autoTurnrateRef := 0, headingMode := HeadingMode.HM_TURNRATE }
      (setDesiredHeading CEdge.turnrateMixer CHeading.sampleHeading 1).2 hman).1

end CMixer

namespace STeensy

/-! ### One-at-a-time play-out of the queue -/

lemma plays_refl (a : STeensy) : Plays a a := ⟨id, List.suffix_refl _⟩

lemma plays_trans {a b c : STeensy} (h1 : Plays a b) (h2 : Plays b c) : Plays a c :=
  ⟨fun h => h2.1 (h1.1 h), h2.2.trans h1.2⟩

lemma plays_of_same (a b : STeensy) (h : b.outQueue = a.outQueue) : Plays a b := by
  unfold Plays queuedMsgs
  rw [h]
  exact ⟨id, List.suffix_refl _⟩

lemma plays_of_nil (a b : STeensy) (h : b.outQueue = []) : Plays a b := by
  unfold Plays queuedMsgs TailFresh
  rw [h]
  exact ⟨fun _ e he => by simp at he, List.nil_suffix⟩

lemma plays_of_queue (a b : STeensy) (h : b.outQueue = a.outQueue ∨ b.outQueue = []) :
    Plays a b := by
  rcases h with h | h
  · exact plays_of_same a b h
  · exact plays_of_nil a b h

lemma tailFresh_tail (q : List UOutQueue) (h : TailFresh q) : TailFresh q.tail := by
  intro e he
  exact h e (List.mem_of_mem_tail he)

lemma plays_of_pop (a b : STeensy) (e : UOutQueue) (rest : List UOutQueue)
    (ha : a.outQueue = e :: rest) (hb : b.outQueue = rest) : Plays a b := by
  unfold Plays queuedMsgs
  rw [ha, hb]
  refine ⟨fun h => tailFresh_tail (e :: rest) h, ?_⟩
  rw [List.map_cons]
  exact List.suffix_cons _ _

lemma plays_of_head (a b : STeensy) (e e2 : UOutQueue) (rest : List UOutQueue)
    (ha : a.outQueue = e :: rest) (hb : b.outQueue = e2 :: rest) (hm : e2.msg = e.msg) :
    Plays a b := by
  unfold Plays queuedMsgs TailFresh
  rw [ha, hb]
  refine ⟨fun h => h, ?_⟩
  rw [List.map_cons, List.map_cons, hm]

lemma messageConfirmed_plays (s : STeensy) (line : List Int) :
    Plays s (messageConfirmed s line) := by
  unfold messageConfirmed
  cases hq : s.outQueue with
  | nil => exact plays_refl s
  | cons e rest =>
    simp only
    split
    · split
      · exact plays_of_pop s _ e rest hq rfl
      · exact plays_of_same s _ hq.symm
    · exact plays_refl s

lemma receiveChar_plays (env : Env) (s : STeensy) (c : Int) :
    Plays s (receiveChar env s c) := by
  unfold receiveChar
  split
  · simp only
    split
    · split
      · have h := messageConfirmed_plays { s with confirmSend := true }
          (cstr (rxAppend s c))
        exact ⟨h.1, h.2⟩
      · exact plays_of_same s _ rfl
    · exact plays_of_same s _ rfl
  · exact plays_of_same s _ rfl

lemma runQueue_plays (now : UTime) (s : STeensy) : Plays s (runQueue now s) := by
  unfold runQueue
  cases hq : s.outQueue with
  | nil => exact plays_refl s
  | cons e rest =>
    simp only
    split
    · split
      · exact plays_of_head s _ e _ rest hq rfl rfl
      · exact plays_refl s
    · split
      · split
        · exact plays_of_head s _ e _ rest hq rfl rfl
        · exact plays_of_pop s _ e rest hq rfl
      · exact plays_refl s

lemma identifyPart_plays (env : Env) (s : STeensy) : Plays s (identifyPart env s) := by
  unfold identifyPart
  split
  · exact plays_of_queue s _ (sendDirect_twice_queue s env.now env.send1 env.send2 _ _)
  · exact plays_refl s

lemma readPart_plays (env : Env) (s : STeensy) : Plays s (readPart env s) := by
  unfold readPart
  split
  · exact plays_of_queue s _ (closeUSB_queue s)
  · exact plays_of_same s _ rfl
  · exact receiveChar_plays env s _

lemma runIter_plays (env : Env) (s : STeensy) : Plays s (runIter env s) := by
  have hfin : ∀ s1 : STeensy, Plays s s1 →
      Plays s { s1 with ntpUpdate := decide (UTime.getTimePassed s.tit9 env.now > 2),
                        tit9 := env.now } :=
    fun s1 h => ⟨h.1, h.2⟩
  unfold runIter
  apply hfin
  split
  · exact plays_of_queue s _ (closeUSB_queue s)
  · split
    · exact plays_of_queue s _ (openToTeensy_queue env s)
    · unfold connected
      exact plays_trans (plays_trans (plays_trans (identifyPart_plays env s)
        (plays_of_same _ _ (activityPart_agree env _).2.2.2.2.1))
        (readPart_plays env _)) (runQueue_plays env.now _)

end STeensy

namespace STeensy

lemma sendToQueue_fresh (s : STeensy) (junk : List Int) (now : UTime) (message : List Int)
    (h : TailFresh s.outQueue) : TailFresh (sendToQueue s junk now message).outQueue := by
  show TailFresh (s.outQueue ++ [UOutQueue.create junk message now])
  intro e he
  cases hq : s.outQueue with
  | nil =>
    rw [hq] at he
    simp at he
  | cons a r =>
    rw [hq] at he h
    simp only [List.cons_append, List.tail_cons, List.mem_append, List.mem_singleton] at he
    rcases he with he | he
    · exact h e he
    · rw [he]
      exact ⟨rfl, rfl⟩

lemma applyOp_fresh (s : STeensy) (op : Op) (h : TailFresh s.outQueue) :
    TailFresh (applyOp s op).outQueue := by
  cases op with
  | iter env => exact (runIter_plays env s).1 h
  | queued junk now message => exact sendToQueue_fresh s junk now message h
  | direct now w message =>
    exact (plays_of_queue s _ (sendDirect_queue s now w message)).1 h

lemma applyOps_fresh : ∀ (ops : List Op) (s : STeensy), TailFresh s.outQueue →
    TailFresh (applyOps s ops).outQueue
  | [], _, h => h
  | op :: rest, s, h => applyOps_fresh rest (applyOp s op) (applyOp_fresh s op h)

lemma runQueue_writes_head (now : UTime) (t : STeensy) :
    (runQueue now t).txLog = t.txLog ∨
    ∃ (e : UOutQueue) (rest : List UOutQueue), t.outQueue = e :: rest ∧ e.isSend = false ∧
      (runQueue now t).txLog = t.txLog ++ [e.msg.take e.len.toNat] ∧
      (runQueue now t).outQueue
        = { e with sendAt := now, isSend := true, resendCnt := e.resendCnt + 1 } :: rest := by
  unfold runQueue
  cases hq : t.outQueue with
  | nil => exact Or.inl rfl
  | cons e rest =>
    simp only
    cases hs : e.isSend
    · cases ho : t.teensyConnectionOpen
      · simp
      · simp only [Bool.not_false, if_true]
        exact Or.inr ⟨e, rest, rfl, hs, rfl, rfl⟩
    · simp only [Bool.not_true, Bool.false_eq_true, if_false]
      split
      · split <;> exact Or.inl rfl
      · exact Or.inl rfl

/-- C27.  In every state reached from an object with an empty queue by iterations of the
receive loop, queued sends and direct sends, no entry other than the head of the queue has
`isSend` true or `resendCnt` other than 0.  An iteration of the receive loop and a direct
send leave the queued messages as they are or remove entries at the head only (the queued
messages afterwards are a trailing part of those before), and a queued send appends one
unsent entry at the back, so entries leave in the order in which they were queued.  The
play-out of the queue writes nothing, or the line of the head entry, which it marks as sent. -/
theorem one_at_a_time (s0 : STeensy) (h0 : s0.outQueue = []) (ops : List Op) :
    TailFresh (applyOps s0 ops).outQueue ∧
    (∀ env : Env, queuedMsgs (runIter env (applyOps s0 ops)) <:+ queuedMsgs (applyOps s0 ops)) ∧
    (∀ (now : UTime) (w : WriteOutcome) (message : List Int),
      queuedMsgs (sendDirect (applyOps s0 ops) now w message).1
        <:+ queuedMsgs (applyOps s0 ops)) ∧
    (∀ (junk : List Int) (now : UTime) (message : List Int),
      (sendToQueue (applyOps s0 ops) junk now message).outQueue
        = (applyOps s0 ops).outQueue ++ [UOutQueue.create junk message now] ∧
      (UOutQueue.create junk message now).isSend = false ∧
      (UOutQueue.create junk message now).resendCnt = 0) ∧
    (∀ (now : UTime) (t : STeensy),
      (runQueue now t).txLog = t.txLog ∨
      ∃ (e : UOutQueue) (rest : List UOutQueue), t.outQueue = e :: rest ∧ e.isSend = false ∧
        (runQueue now t).txLog = t.txLog ++ [e.msg.take e.len.toNat] ∧
        (runQueue now t).outQueue
          = { e with sendAt := now, isSend := true, resendCnt := e.resendCnt + 1 } :: rest) := by
  have hfresh : TailFresh s0.outQueue := by
    rw [h0]
    intro e he
    simp at he
  exact ⟨applyOps_fresh ops s0 hfresh,
    fun env => (runIter_plays env _).2,
    fun now w message => (plays_of_queue _ _ (sendDirect_queue _ now w message)).2,
    fun _ _ _ => ⟨rfl, rfl, rfl⟩,
    fun now t => runQueue_writes_head now t⟩

/-- Witness of `one_at_a_time`: from the empty queue of `atRunEntry`, two queued sends and
the three iterations of a clock step. -/
theorem one_at_a_time_witness :
    (atRunEntry ⟨0, 0, true⟩).outQueue = [] ∧
    TailFresh (applyOps (atRunEntry ⟨0, 0, true⟩)
      [Op.queued [] ⟨0, 0, true⟩ (chars "sub enc 8\n"),
       Op.queued [] ⟨0, 0, true⟩ (chars "idi\n"),
       Op.iter (clockEnv 0 1000 ReadResult.noData),
       Op.iter (clockEnv 0 3000 ReadResult.noData)]).outQueue :=
  ⟨rfl, (one_at_a_time (atRunEntry ⟨0, 0, true⟩) rfl
      [Op.queued [] ⟨0, 0, true⟩ (chars "sub enc 8\n"),
       Op.queued [] ⟨0, 0, true⟩ (chars "idi\n"),
       Op.iter (clockEnv 0 1000 ReadResult.noData),
       Op.iter (clockEnv 0 3000 ReadResult.noData)]).1⟩

end STeensy

namespace MPose

/-! ### Turn radius floor -/

end MPose

namespace UPID

/-! ### Pure proportional mode -/

lemma setup_proportional (junk T kp taud alpha taui : ℚ) (hd : taud ≤ 1 / 1000)
    (hi : taui ≤ 1 / 1000) :
    Proportional (setup (constructed junk) T kp taud alpha taui) kp := by
  have h1 : ¬ ((1000 : ℚ)⁻¹ < taud) := not_lt.mpr (by simpa using hd)
  have h2 : taui ≤ (1000 : ℚ)⁻¹ := by simpa using hi
  simp [Proportional, setup, constructed, h1, h2]

lemma applyOp_proportional (s : UPID) (kp : ℚ) (op : Op) (h : Proportional s kp) :
    Proportional (applyOp s op) kp := by
  obtain ⟨h1, h2, h3, h4, h5, h6⟩ := h
  cases op with
  | pid r m l =>
    refine ⟨h1, h2, h3, h4, h5, ?_⟩
    simp [applyOp, UPID.pid, h5, h6]
  | resetHistory => exact ⟨h1, h2, h3, h4, h5, rfl⟩
  | doAngleFolding b => exact ⟨h1, h2, h3, h4, h5, h6⟩

lemma applyOps_proportional : ∀ (ops : List Op) (s : UPID) (kp : ℚ), Proportional s kp →
    Proportional (applyOps s ops) kp
  | [], _, _, h => h
  | op :: rest, s, kp, h =>
    applyOps_proportional rest (applyOp s op) kp (applyOp_proportional s kp op h)

lemma pid_proportional (s : UPID) (kp : ℚ) (h : Proportional s kp) (r m : ℚ) (l : Bool) :
    (s.pid r m l).1 = kp * pidError s r m := by
  obtain ⟨h1, h2, h3, h4, h5, h6⟩ := h
  simp only [UPID.pid, pidError, h1, h2, h3, h4, h5, h6, Bool.not_false, Bool.or_true, if_true]
  ring

/-- C30.  After `setup` on a new controller with `lead_tau <= 1e-3` and
`tau_integrator <= 1e-3`, and after any sequence of `pid`, `resetHistory` and
`doAngleFolding` calls, `pid(r, m, limiting)` returns exactly `kp * e`, where `e` is `r - m`
folded when angle folding is on, whatever the history and the limiting flag; the integrator
state `ui1` is 0 in every such state, also after the call. -/
theorem pure_proportional (junk T kp taud alpha taui : ℚ) (hd : taud ≤ 1 / 1000)
    (hi : taui ≤ 1 / 1000) (ops : List Op) (r m : ℚ) (l : Bool) :
    ((applyOps (setup (constructed junk) T kp taud alpha taui) ops).pid r m l).1
      = kp * pidError (applyOps (setup (constructed junk) T kp taud alpha taui) ops) r m ∧
    (applyOps (setup (constructed junk) T kp taud alpha taui) ops).ui1 = 0 ∧
    ((applyOps (setup (constructed junk) T kp taud alpha taui) ops).pid r m l).2.ui1 = 0 := by
  have hp := applyOps_proportional ops _ kp (setup_proportional junk T kp taud alpha taui hd hi)
  refine ⟨pid_proportional _ kp hp r m l, hp.2.2.2.2.2, ?_⟩
  exact (applyOp_proportional _ kp (Op.pid r m l) hp).2.2.2.2.2

/-- Witness of `pure_proportional`: the default heading configuration (gain 10, no lead, no
integrator) after two `pid` calls, one of them limited, and a reset. -/
theorem pure_proportional_witness :
    ((0 : ℚ) ≤ 1 / 1000) ∧
    ((applyOps (setup (constructed 0) (1 / 100) 10 0 1 0)
      [Op.pid 1 0 false, Op.pid 2 0 true, Op.resetHistory]).pid 3 1 false).1
      = 10 * pidError (applyOps (setup (constructed 0) (1 / 100) 10 0 1 0)
          [Op.pid 1 0 false, Op.pid 2 0 true, Op.resetHistory]) 3 1 :=
  ⟨by norm_num,
   (pure_proportional 0 (1 / 100) 10 0 1 0 (by norm_num) (by norm_num)
      [Op.pid 1 0 false, Op.pid 2 0 true, Op.resetHistory] 3 1 false).1⟩

end UPID

namespace MEdge

/-! ### Edge positions of a valid line -/

end MEdge

namespace MEdge

end MEdge

namespace MEdge

end MEdge

namespace MEdge

end MEdge
